import Mathlib

/-!
# endurance-api: decision engine (trading state machine)

Shallow embedding of `internal/app/trades/default_service.go`,
`internal/domain/entities/{trade,exchange}.go` and the score lookups of
`internal/app/markets/default_service.go`.

Conventions of the embedding

* Go `float64` values are held as rationals (`ℚ`). The profit percentage of
  `PullBackTradeSignal` and the drift of `ValidateConversionDrift`, which the code compares
  with a threshold, are computed in the arithmetic of `Float64` (IEEE 754 binary64: every
  operation rounded to nearest, ties to even, with infinities and NaN); the other
  computations are exact.
* `time.Time` is an integer count of nanoseconds since the zero time, so
  `IsZero` is `t = 0` and `t.Before u` is `t < u`.
* `uuid.UUID` is a natural number; `uuid.New()` draws from a counter kept in the state.
* Go strings are Lean strings; the two string routines the code uses
  (`strings.HasSuffix`, `strings.Split(_, sep)[0]`) work on the character lists.
* A Go run ends in one of three ways: a nil error, a non-nil error, or a
  run-time panic (nil dereference, index out of range).
* The exchange, the market-data repository and the clock are collaborators whose
  answers are fields of `Env`; the trading repositories are in-memory lists in `State`.
-/

namespace Endurance

abbrev UUID := Nat

abbrev Time := Int

/-- Go `time.Minute`, in nanoseconds. -/
def Minute : Int := 60000000000

/-- A Go error value. The errors of `internal/domain/errors` are package variables made by
`errors.New` with pairwise different messages, so an error is identified by its message;
errors raised by collaborators are any other value. -/
structure Err where
  msg : String
  deriving DecidableEq, Repr

def Err.ErrForbidden : Err := ⟨"forbidden"⟩

/-- Gorm `ErrRecordNotFound`. -/
def Err.ErrRecordNotFound : Err := ⟨"record not found"⟩

def Err.ErrMarketDataInsufficient : Err := ⟨"insufficient market data"⟩

def Err.ErrInvalidMarketSymbol : Err := ⟨"invalid market data symbol"⟩

def Err.ErrMarketDataTooOld : Err := ⟨"market data too old"⟩

def Err.ErrInvalidMarketTimestamp : Err := ⟨"invalid market data timestamp"⟩

def Err.ErrInvalidMarketOpen : Err := ⟨"invalid market data open"⟩

def Err.ErrInvalidMarketHigh : Err := ⟨"invalid market data high"⟩

def Err.ErrInvalidMarketLow : Err := ⟨"invalid market data low"⟩

def Err.ErrInvalidMarketClose : Err := ⟨"invalid market data close"⟩

def Err.ErrInvalidMarketVolume : Err := ⟨"invalid market data volume"⟩

def Err.ErrInsufficientDataForMACDCalculation : Err := ⟨"insufficient data for MACD calculation"⟩

def Err.ErrInsufficientDataForRSI : Err := ⟨"insufficient data for RSI calculation"⟩

def Err.ErrInsufficientDataForSMA : Err := ⟨"insufficient data for SMA calculation"⟩

def Err.ErrInsufficientDataForATR : Err := ⟨"insufficient data for ATR calculation"⟩

def Err.ErrInsufficientDataForBollingerBands : Err := ⟨"insufficient data for Bollinger Bands calculation"⟩

def Err.ErrInsufficientDataForOBV : Err := ⟨"insufficient data for OBV calculation"⟩

def Err.ErrInsufficientDataForADX : Err := ⟨"insufficient data for ADX calculation"⟩

def Err.ErrTradingPreferenceAlreadyExists : Err := ⟨"trading preference already exists"⟩

def Err.ErrInvalidAlgorithm : Err := ⟨"invalid algorithm"⟩

def Err.ErrInvalidRiskLevel : Err := ⟨"invalid risk level"⟩

def Err.ErrInvalidWatchlistElement : Err := ⟨"invalid watchlist element"⟩

def Err.ErrInvalidHoldingStatus : Err := ⟨"invalid holding status"⟩

def Err.ErrInvalidHoldingSymbol : Err := ⟨"invalid holding symbol"⟩

def Err.ErrInvalidHoldingQuantity : Err := ⟨"invalid holding quantity"⟩

def Err.ErrInvalidHoldingEntryPrice : Err := ⟨"invalid holding entry price"⟩

def Err.ErrInvalidHoldingExitPrice : Err := ⟨"invalid holding exit price"⟩

def Err.ErrInvalidHoldingEntryScore : Err := ⟨"invalid holding entry score"⟩

def Err.ErrHoldingNotFound : Err := ⟨"holding not found"⟩

def Err.ErrInvalidOrderStatus : Err := ⟨"invalid order status"⟩

def Err.ErrInvalidOrderType : Err := ⟨"invalid order type"⟩

def Err.ErrInvalidOrderPrice : Err := ⟨"invalid order price"⟩

def Err.ErrInvalidOrderQuantity : Err := ⟨"invalid order quantity"⟩

def Err.ErrInvalidOrderSymbol : Err := ⟨"invalid order symbol"⟩

def Err.ErrBalanceNotFound : Err := ⟨"balance not found"⟩

def Err.ErrAccountNotAvailable : Err := ⟨"account not available"⟩

def Err.ErrInvalidPrice : Err := ⟨"invalid price"⟩

def Err.ErrTickerNotAvailable : Err := ⟨"ticker not available"⟩

def Err.ErrConversionQuoteNotAvailable : Err := ⟨"conversion quote not available"⟩

def Err.ErrInvalidRatio : Err := ⟨"invalid ratio"⟩

def Err.ErrInvalidInverseRatio : Err := ⟨"invalid inverse ratio"⟩

def Err.ErrInvalidToAmount : Err := ⟨"invalid to amount"⟩

def Err.ErrInsufficientBalance : Err := ⟨"insufficient balance"⟩

def Err.ErrInvalidSymbol : Err := ⟨"invalid symbol"⟩

def Err.ErrQuoteExpired : Err := ⟨"quote expired"⟩

def Err.ErrInvalidQuoteAmount : Err := ⟨"invalid quote amount"⟩

def Err.ErrInvalidFromAmount : Err := ⟨"invalid from amount"⟩

def Err.ErrInvalidValidTime : Err := ⟨"invalid valid time"⟩

def Err.ErrInvalidFee : Err := ⟨"invalid fee"⟩

def Err.ErrInvalidConversionDrift : Err := ⟨"invalid conversion drift"⟩

/-- How a Go call ends: value with nil error, non-nil error, or panic. -/
inductive Outcome (α : Type) where
  | ok (a : α)
  | fail (e : Err)
  | panic
  deriving DecidableEq, Repr

deriving instance DecidableEq for Except

/-! ## Constants (`internal/domain/constants/trade.go`) -/

def TradingPreferenceRiskLevelLow : String := "low"

def TradingPreferenceRiskLevelMedium : String := "medium"

def TradingPreferenceRiskLevelHigh : String := "high"

def TradingAlgorithmSwingTrading : String := "swing_trading"

def TradingAlgorithmScalping : String := "scalping"

def TradingAlgorithmDayTrading : String := "day_trading"

def OrderStatusOpen : String := "open"

def OrderStatusFilled : String := "filled"

def OrderStatusPending : String := "pending"

def OrderTypeStopLoss : String := "stop_loss"

def OrderTypeTakeProfit : String := "take_profit"

def HoldingStatusOpen : String := "open"

def HoldingStatusClosed : String := "closed"

def PullBackTradeSignalHold : String := "hold"

def PullBackTradeSignalSell : String := "sell"

def TradingPreferenceAlgorithms : List String :=
  [TradingAlgorithmSwingTrading, TradingAlgorithmScalping, TradingAlgorithmDayTrading]

def TradingPreferenceRiskLevels : List String :=
  [TradingPreferenceRiskLevelLow, TradingPreferenceRiskLevelMedium, TradingPreferenceRiskLevelHigh]

def OrderStatuses : List String := [OrderStatusOpen, OrderStatusFilled, OrderStatusPending]

def OrderTypes : List String := [OrderTypeStopLoss, OrderTypeTakeProfit]

def HoldingStatuses : List String := [HoldingStatusOpen, HoldingStatusClosed]

/-! ## String helpers -/

/-- Go `lib.SliceContains`: linear scan, true at the first equal element. -/
def SliceContains : List String → String → Bool
  | [], _ => false
  | i :: rest, item => if i = item then true else SliceContains rest item

/-- Go `strings.HasSuffix`. -/
def HasSuffix (s suffix : String) : Bool := suffix.data.isSuffixOf s.data

/-- Characters of `s` standing before the first occurrence of `sep`
(all of `s` when `sep` does not occur): element 0 of Go `strings.Split(s, sep)`
for a non-empty `sep`. -/
def cutBefore (sep : List Char) : List Char → List Char
  | [] => []
  | c :: t => if sep.isPrefixOf (c :: t) then [] else c :: cutBefore sep t

/-! ## Arithmetic of `float64`

Prices, amounts and scores are `float64` in the source. Their values are rationals here;
where the code compares a computed value with a threshold, the computation is done as the
machine does it: every operation is rounded to the nearest `float64` (IEEE 754 binary64,
ties to even), one operation at a time. -/

/-- A value of type `float64`: a finite number (the rational it denotes; zero here is +0),
the negative zero, an infinity, or a NaN. -/
inductive Float64 where
  | finite (value : ℚ)
  | negZero
  | inf (negative : Bool)
  | nan
  deriving DecidableEq, Repr

/-- The power `2 ^ k` for an integer `k`. -/
def pow2 (k : Int) : ℚ :=
  if 0 ≤ k then ((2 ^ k.toNat : Nat) : ℚ) else 1 / ((2 ^ (-k).toNat : Nat) : ℚ)

/-- Number of halvings that bring `n` below 2, with `fuel` steps at most. -/
def log2Fuel : Nat → Nat → Nat
  | 0, _ => 0
  | fuel + 1, n => if n < 2 then 0 else log2Fuel fuel (n / 2) + 1

/-- The integer `e` with `2 ^ e ≤ |q| < 2 ^ (e + 1)`, for `q` other than 0. -/
def binaryExponent (q : ℚ) : Int :=
  let e : Int := (log2Fuel q.num.natAbs q.num.natAbs : Int) - (log2Fuel q.den q.den : Int)
  if pow2 e ≤ |q| then e else e - 1

/-- The integer nearest to a non-negative rational, the even one of two that are equally
near. -/
def roundHalfEven (q : ℚ) : Nat :=
  let lower := q.floor.toNat
  let rest := q - (lower : ℚ)
  if rest < 1 / 2 then lower
  else if rest > 1 / 2 then lower + 1
  else if lower % 2 = 0 then lower else lower + 1

/-- The least magnitude that is beyond every finite `float64`, 2 ^ 1024. -/
def overflowThreshold : ℚ :=
  179769313486231590772930519078902473361797697894230657273430081157732675805500963132708477322407536021120113879871393357658789768814416622492847430639474124377767893424865485276302219601246094119453082952085005768838150682342462881473913110540827237163350510684586298239947245938479716304835356329624224137216

/-- The `float64` nearest to the exact result `q` of an operation (round to nearest, ties to
even; 53 significant bits, least exponent -1022 with gradual underflow, overflow to
infinity). `negative` is the sign of a result that is zero. -/
def Float64.round (q : ℚ) (negative : Bool) : Float64 :=
  if q = 0 then (if negative then .negZero else .finite 0)
  else
    let e := max (binaryExponent q) (-1022)
    let ulp := pow2 (e - 52)
    let n := roundHalfEven (|q| / ulp)
    let r := (n : ℚ) * ulp
    if r ≥ overflowThreshold then .inf (decide (q < 0))
    else if n = 0 then (if q < 0 then .negZero else .finite 0)
    else .finite (if q < 0 then -r else r)

/-- A `float64` input, given by the number it denotes. -/
def Float64.ofRat (q : ℚ) : Float64 := Float64.round q false

/-- The sign bit of a value that is no NaN. -/
def Float64.isNegative : Float64 → Bool
  | .finite value => decide (value < 0)
  | .negZero => true
  | .inf negative => negative
  | .nan => false

def Float64.isZero : Float64 → Bool
  | .finite value => decide (value = 0)
  | .negZero => true
  | _ => false

/-- The number a finite value denotes. -/
def Float64.toRat : Float64 → ℚ
  | .finite value => value
  | _ => 0

/-- IEEE 754 multiplication. -/
def Float64.mul (a b : Float64) : Float64 :=
  match a, b with
  | .nan, _ => .nan
  | _, .nan => .nan
  | .inf negative, b =>
    if b.isZero then .nan else .inf (xor negative b.isNegative)
  | a, .inf negative =>
    if a.isZero then .nan else .inf (xor a.isNegative negative)
  | a, b => Float64.round (a.toRat * b.toRat) (xor a.isNegative b.isNegative)

/-- IEEE 754 subtraction. A difference that is exactly zero is +0, except for -0 - +0. -/
def Float64.sub (a b : Float64) : Float64 :=
  match a, b with
  | .nan, _ => .nan
  | _, .nan => .nan
  | .inf negative, .inf negative2 => if negative = negative2 then .nan else .inf negative
  | .inf negative, _ => .inf negative
  | _, .inf negative => .inf (!negative)
  | a, b => Float64.round (a.toRat - b.toRat) (a.isNegative && !b.isNegative)

/-- IEEE 754 division. -/
def Float64.div (a b : Float64) : Float64 :=
  match a, b with
  | .nan, _ => .nan
  | _, .nan => .nan
  | .inf _, .inf _ => .nan
  | .inf negative, b => .inf (xor negative b.isNegative)
  | a, .inf negative =>
    if xor a.isNegative negative then .negZero else .finite 0
  | a, b =>
    if b.isZero then
      if a.isZero then .nan else .inf (xor a.isNegative b.isNegative)
    else Float64.round (a.toRat / b.toRat) (xor a.isNegative b.isNegative)

/-- The comparison `a > b` of two `float64` values: false when one is a NaN. -/
def Float64.gt (a b : Float64) : Bool :=
  match a, b with
  | .nan, _ => false
  | _, .nan => false
  | .inf negative, .inf negative2 => !negative && negative2
  | .inf negative, _ => !negative
  | _, .inf negative => negative
  | a, b => decide (a.toRat > b.toRat)

/-! ## Entities and value objects -/

structure User where
  ID : UUID
  Role : String
  deriving DecidableEq, Repr

structure TradingPreference where
  ID : UUID
  UserID : UUID
  Algorithm : String
  Watchlist : List String
  Operate : Bool
  StopLossEnabled : Bool
  StopLossExitEnabled : Bool
  RiskLevel : String
  CreatedAt : Time
  UpdatedAt : Time
  deriving DecidableEq, Repr

structure Holding where
  ID : UUID
  UserID : UUID
  Symbol : String
  Quantity : ℚ
  EntryPrice : ℚ
  ExitPrice : ℚ
  Profit : ℚ
  EntryScore : ℚ
  Status : String
  CreatedAt : Time
  UpdatedAt : Time
  deriving DecidableEq, Repr

structure Order where
  ID : UUID
  UserID : UUID
  Symbol : String
  Quantity : ℚ
  Price : ℚ
  Status : String
  TradeType : String
  CreatedAt : Time
  UpdatedAt : Time
  deriving DecidableEq, Repr

/-- Entity `entities.MarketData`; a nil `*float64` is `none`. -/
structure MarketData where
  ID : UUID
  CorrelationID : UUID
  Symbol : String
  Timestamp : Time
  Open : ℚ
  High : ℚ
  Low : ℚ
  Close : ℚ
  Volume : ℚ
  MACD : Option ℚ
  MACDSignal : Option ℚ
  MACDHist : Option ℚ
  RSI6 : Option ℚ
  RSI12 : Option ℚ
  RSI24 : Option ℚ
  SMA20 : Option ℚ
  SMA50 : Option ℚ
  SMA200 : Option ℚ
  ATR : Option ℚ
  BollingerBands : Option ℚ
  BollingerBandsWidth : Option ℚ
  BollingerBandsUpper : Option ℚ
  BollingerBandsLower : Option ℚ
  OBV : Option ℚ
  ADX : Option ℚ
  ADXIndex : Option ℚ
  ADXPositive : Option ℚ
  ADXNegative : Option ℚ
  Score : Option ℚ
  CreatedAt : Time
  UpdatedAt : Time
  deriving DecidableEq, Repr

structure SymbolScore where
  Symbol : String
  Score : ℚ
  Ranking : Int
  deriving DecidableEq, Repr

structure ExchangeBalance where
  Asset : String
  Free : ℚ
  Locked : ℚ
  deriving DecidableEq, Repr

structure ExchangeTicker where
  Symbol : String
  Price : ℚ
  Volume : ℚ
  PricePercentageChange : ℚ
  deriving DecidableEq, Repr

structure ExchangeConversionQuote where
  ID : String
  FromAsset : String
  ToAsset : String
  FromAmount : ℚ
  ToAmount : ℚ
  Ratio : ℚ
  InverseRatio : ℚ
  ValidTime : Int
  Fee : ℚ
  FeeAsset : String
  deriving DecidableEq, Repr

structure ExchangeConversionOrder where
  ID : String
  CreatedAt : Time
  Status : String
  deriving DecidableEq, Repr

structure TradingPositionAggregate where
  Holding : Holding
  TradingPreference : TradingPreference
  deriving DecidableEq, Repr

/-! ## Validations (`internal/domain/entities`) -/

def Holding.Validate (h : Holding) : Except Err Unit :=
  if !SliceContains HoldingStatuses h.Status then .error .ErrInvalidHoldingStatus
  else if !HasSuffix h.Symbol "USDT" then .error .ErrInvalidHoldingSymbol
  else if h.Quantity < 0 then .error .ErrInvalidHoldingQuantity
  else if h.EntryPrice < 0 then .error .ErrInvalidHoldingEntryPrice
  else if h.ExitPrice < 0 then .error .ErrInvalidHoldingExitPrice
  else if h.EntryScore < 0 then .error .ErrInvalidHoldingEntryScore
  else .ok ()

/-- Go `strings.Split(h.Symbol, "USDT")[0]`. -/
def Holding.GetAsset (h : Holding) : String := String.mk (cutBefore "USDT".data h.Symbol.data)

def Order.Validate (o : Order) : Except Err Unit :=
  if !SliceContains OrderStatuses o.Status then .error .ErrInvalidOrderStatus
  else if !SliceContains OrderTypes o.TradeType then .error .ErrInvalidOrderType
  else if o.Quantity < 0 then .error .ErrInvalidOrderQuantity
  else if o.Price < 0 then .error .ErrInvalidOrderPrice
  else if !HasSuffix o.Symbol "USDT" then .error .ErrInvalidOrderSymbol
  else .ok ()

def ExchangeConversionQuote.Validate (e : ExchangeConversionQuote) : Except Err Unit :=
  if e.FromAmount < 0 then .error .ErrInvalidFromAmount
  else if e.ToAmount < 0 then .error .ErrInvalidToAmount
  else if e.Ratio < 0 then .error .ErrInvalidRatio
  else if e.InverseRatio < 0 then .error .ErrInvalidInverseRatio
  else if e.ValidTime < 0 then .error .ErrInvalidValidTime
  else if e.Fee < 0 then .error .ErrInvalidFee
  else .ok ()

/-- The local `drift` of `ValidateConversionDrift`:
`(conversionTicker * e.ToAmount - originAmountUSDT) / originAmountUSDT` in `float64`. -/
def ExchangeConversionQuote.drift (e : ExchangeConversionQuote)
    (originAmountUSDT conversionTicker : ℚ) : Float64 :=
  let destinationAmountUSDT :=
    Float64.mul (Float64.ofRat conversionTicker) (Float64.ofRat e.ToAmount)
  Float64.div (Float64.sub destinationAmountUSDT (Float64.ofRat originAmountUSDT))
    (Float64.ofRat originAmountUSDT)

/-- Go `(*ExchangeConversionQuote).ValidateConversionDrift`. The arguments are `float64`
values: a rational handed in is taken as the `float64` nearest to it, which is what the
product `fromTicker.Price * balance.Free` of the caller is. -/
def ExchangeConversionQuote.ValidateConversionDrift (e : ExchangeConversionQuote)
    (originAmountUSDT conversionTicker : ℚ) : Except Err Unit :=
  if (Float64.ofRat originAmountUSDT).isZero then .error .ErrInvalidPrice
  else if (Float64.ofRat conversionTicker).isZero then .error .ErrInvalidPrice
  else
    let drift := e.drift originAmountUSDT conversionTicker
    if Float64.gt drift (Float64.ofRat 0.01) then .error .ErrInvalidConversionDrift
    else .ok ()

/-! ## Factories (`internal/domain/entities/trade.go`) -/

/-- Go `OrderFactory.NewOrder`; `id` is the value of `uuid.New()`, `now` of `time.Now().UTC()`. -/
def NewOrder (id : UUID) (now : Time) (userID : UUID) (symbol : String) (quantity price : ℚ)
    (tradeType : String) : Order :=
  { ID := id, UserID := userID, Symbol := symbol, Quantity := quantity, Price := price,
    Status := OrderStatusOpen, TradeType := tradeType, CreatedAt := now, UpdatedAt := now }

/-- Go `HoldingFactory.NewHolding`; `id` is the value of `uuid.New()`, `now` of `time.Now().UTC()`. -/
def NewHolding (id : UUID) (now : Time) (userID : UUID) (symbol : String)
    (quantity entryPrice exitPrice profit entryScore : ℚ) (status : String) : Holding :=
  { ID := id, UserID := userID, Symbol := symbol, Quantity := quantity, EntryPrice := entryPrice,
    ExitPrice := exitPrice, Profit := profit, EntryScore := entryScore, Status := status,
    CreatedAt := now, UpdatedAt := now }

/-! ## Collaborators and state -/

/-- A request sent to the exchange collaborator. -/
inductive ExchangeCall where
  | GetBalance (asset : String)
  | GetTicker (symbol : String)
  | GetConversionQuote (fromAsset toAsset : String) (fromAmount : ℚ) (walletType : String)
  | AcceptConversionQuote (id : String)
  deriving DecidableEq, Repr

/-- A message handed to the notification collaborator. -/
inductive Notification where
  | Trade (originSymbol newSymbol : String) (entryPrice profit profitPercentage : ℚ)
  | StopLoss (originSymbol : String) (stopLossPrice loss lossPercentage : ℚ)
  deriving DecidableEq, Repr

/-- Answers of the collaborators the decision engine reads from.
`marketDataGetAll symbol` is the result of `MarketDataRepository.GetAll` for the
filter `symbol = symbol`, ordered by `created_at desc`, page 1, limit 1.
`convertQuote` is the exchange client behind `ExchangeService.GetConversionQuote`,
before the service validates the quote. -/
structure Env where
  user : User
  now : Time
  marketDataGetAll : String → Except Err (List MarketData)
  getBalance : String → Except Err ExchangeBalance
  getTicker : String → Except Err ExchangeTicker
  convertQuote : String → String → ℚ → String → Except Err ExchangeConversionQuote
  acceptQuote : String → Except Err ExchangeConversionOrder

/-- Everything the decision engine can change: the three trading repositories,
the quotes accepted at the exchange, the requests sent to the exchange (oldest
first), the notifications handed over, and the `uuid.New()` counter. -/
structure State where
  preferences : List TradingPreference
  holdings : List Holding
  orders : List Order
  accepted : List String
  calls : List ExchangeCall
  notifications : List Notification
  nextID : UUID
  deriving DecidableEq, Repr

/-- Go `uuid.New()`. -/
def State.newUUID (st : State) : UUID × State := (st.nextID, { st with nextID := st.nextID + 1 })

def State.logCall (st : State) (c : ExchangeCall) : State := { st with calls := st.calls ++ [c] }

/-- Go `DefaultUacService.IsResourceOwner`. -/
def IsResourceOwner (env : Env) (resourceUserID : UUID) : Except Err Unit :=
  if env.user.ID ≠ resourceUserID then .error .ErrForbidden else .ok ()

/-! ### Repositories (gorm `First`, `Create`, `Save` on an in-memory table) -/

def TradingPreferenceRepository.GetByUserID (st : State) (userID : UUID) :
    Except Err TradingPreference :=
  match st.preferences.find? (fun tp => tp.UserID = userID) with
  | some tp => .ok tp
  | none => .error .ErrRecordNotFound

def HoldingRepository.GetByID (st : State) (id : UUID) : Except Err Holding :=
  match st.holdings.find? (fun h => h.ID = id) with
  | some h => .ok h
  | none => .error .ErrRecordNotFound

def HoldingRepository.Create (st : State) (h : Holding) : State :=
  { st with holdings := st.holdings ++ [h] }

/-- Gorm `Save`: the row with the same primary key is overwritten; without one the row is inserted. -/
def HoldingRepository.Update (st : State) (h : Holding) : State :=
  if st.holdings.any (fun x => x.ID = h.ID) then
    { st with holdings := st.holdings.map (fun x => if x.ID = h.ID then h else x) }
  else { st with holdings := st.holdings ++ [h] }

def OrderRepository.GetByID (st : State) (id : UUID) : Except Err Order :=
  match st.orders.find? (fun o => o.ID = id) with
  | some o => .ok o
  | none => .error .ErrRecordNotFound

def OrderRepository.Create (st : State) (o : Order) : State :=
  { st with orders := st.orders ++ [o] }

/-- Gorm `Save`: the row with the same primary key is overwritten; without one the row is inserted. -/
def OrderRepository.Update (st : State) (o : Order) : State :=
  if st.orders.any (fun x => x.ID = o.ID) then
    { st with orders := st.orders.map (fun x => if x.ID = o.ID then o else x) }
  else { st with orders := st.orders ++ [o] }

/-! ### Services of `internal/app/trades/default_service.go` -/

def TradingPreferenceService.GetByUserID (env : Env) (st : State) (id : UUID) :
    Except Err TradingPreference :=
  match TradingPreferenceRepository.GetByUserID st id with
  | .error e => .error e
  | .ok tp =>
    match IsResourceOwner env tp.UserID with
    | .error e => .error e
    | .ok _ => .ok tp

def HoldingService.GetByID (env : Env) (st : State) (id : UUID) : Except Err Holding :=
  match HoldingRepository.GetByID st id with
  | .error e => .error e
  | .ok holding =>
    match IsResourceOwner env holding.UserID with
    | .error e => .error e
    | .ok _ => .ok holding

def HoldingService.Create (env : Env) (st : State) (holding : Holding) : Except Err Holding × State :=
  match holding.Validate with
  | .error e => (.error e, st)
  | .ok _ =>
    match IsResourceOwner env holding.UserID with
    | .error e => (.error e, st)
    | .ok _ => (.ok holding, HoldingRepository.Create st holding)

def HoldingService.Update (env : Env) (st : State) (entity : Holding) : Except Err Holding × State :=
  match HoldingService.GetByID env st entity.ID with
  | .error e => (.error e, st)
  | .ok _ =>
    match IsResourceOwner env entity.UserID with
    | .error e => (.error e, st)
    | .ok _ =>
      match entity.Validate with
      | .error e => (.error e, st)
      | .ok _ => (.ok entity, HoldingRepository.Update st entity)

def OrderService.GetByID (env : Env) (st : State) (id : UUID) : Except Err Order :=
  match OrderRepository.GetByID st id with
  | .error e => .error e
  | .ok order =>
    match IsResourceOwner env order.UserID with
    | .error e => .error e
    | .ok _ => .ok order

def OrderService.Create (env : Env) (st : State) (order : Order) : Except Err Order × State :=
  match order.Validate with
  | .error e => (.error e, st)
  | .ok _ =>
    match IsResourceOwner env order.UserID with
    | .error e => (.error e, st)
    | .ok _ => (.ok order, OrderRepository.Create st order)

def OrderService.Update (env : Env) (st : State) (entity : Order) : Except Err Order × State :=
  match OrderService.GetByID env st entity.ID with
  | .error e => (.error e, st)
  | .ok _ =>
    match IsResourceOwner env entity.UserID with
    | .error e => (.error e, st)
    | .ok _ =>
      match entity.Validate with
      | .error e => (.error e, st)
      | .ok _ => (.ok entity, OrderRepository.Update st entity)

/-! ### Exchange service (`internal/app/exchange`), as seen by the decision engine -/

def ExchangeService.GetBalance (env : Env) (st : State) (asset : String) :
    Except Err ExchangeBalance × State :=
  (env.getBalance asset, st.logCall (.GetBalance asset))

def ExchangeService.GetTicker (env : Env) (st : State) (symbol : String) :
    Except Err ExchangeTicker × State :=
  (env.getTicker symbol, st.logCall (.GetTicker symbol))

/-- The service validates the quote the client returned before handing it on. -/
def ExchangeService.GetConversionQuote (env : Env) (st : State) (fromAsset toAsset : String)
    (fromAmount : ℚ) (walletType : String) : Except Err ExchangeConversionQuote × State :=
  let st1 := st.logCall (.GetConversionQuote fromAsset toAsset fromAmount walletType)
  match env.convertQuote fromAsset toAsset fromAmount walletType with
  | .error e => (.error e, st1)
  | .ok conversionQuote =>
    match conversionQuote.Validate with
    | .error e => (.error e, st1)
    | .ok _ => (.ok conversionQuote, st1)

/-- A quote counts as accepted only when the exchange answered without error. -/
def ExchangeService.AcceptConversionQuote (env : Env) (st : State) (id : String) :
    Except Err ExchangeConversionOrder × State :=
  let st1 := st.logCall (.AcceptConversionQuote id)
  match env.acceptQuote id with
  | .error e => (.error e, st1)
  | .ok o => (.ok o, { st1 with accepted := st1.accepted ++ [id] })

/-- The notification is handed over; the result of sending it is discarded by every caller. -/
def NotificationService.Send (st : State) (n : Notification) : State :=
  { st with notifications := st.notifications ++ [n] }

/-! ### Score lookups (`internal/app/markets/default_service.go`) -/

def GetLatest (env : Env) (symbol : String) : Except Err MarketData :=
  match env.marketDataGetAll symbol with
  | .error e => .error e
  | .ok [] => .error .ErrMarketDataInsufficient
  | .ok (md :: _) =>
    if md.Timestamp < env.now + (-Minute * 2) then .error .ErrMarketDataTooOld
    else .ok md

def GetSymbolScore (env : Env) (symbol : String) : Except Err SymbolScore :=
  match env.marketDataGetAll symbol with
  | .error e => .error e
  | .ok [] => .error .ErrMarketDataInsufficient
  | .ok (md :: _) =>
    let timestamp := env.now + (-Minute * 2)
    if md.Timestamp < timestamp then .error .ErrMarketDataTooOld
    else
      match md.Score with
      | none => .error .ErrMarketDataInsufficient
      | some score => .ok { Symbol := symbol, Score := score, Ranking := 0 }

/-- The first loop of `GetScores`: one lookup per symbol, in order, stopping at the first error. -/
def collectScores (env : Env) : List String → Except Err (List SymbolScore)
  | [] => .ok []
  | symbol :: rest =>
    match GetSymbolScore env symbol with
    | .error e => .error e
    | .ok score =>
      match collectScores env rest with
      | .error e => .error e
      | .ok scores => .ok (score :: scores)

/-- Go `sort.Slice(scores, func(i, j) bool { return scores[i].Score > scores[j].Score })`,
as the insertion sort Go runs on short slices: an element moves in front of another
only when its score is strictly greater. -/
def sortByScoreDesc (scores : List SymbolScore) : List SymbolScore :=
  scores.insertionSort (fun a b => a.Score ≥ b.Score)

/-- The last loop of `GetScores`, `for i, score := range scores { score.Ranking = i + 1 }`:
`score` is a copy of the element, so the assignment never reaches the slice. -/
def assignRankings (scores : List SymbolScore) : List SymbolScore :=
  (scores.enum.foldl
    (fun (acc : List SymbolScore × Option SymbolScore) (p : Nat × SymbolScore) =>
      (acc.1, some { p.2 with Ranking := (p.1 : Int) + 1 }))
    (scores, none)).1

def GetScores (env : Env) (symbols : List String) : Except Err (List SymbolScore) :=
  match collectScores env symbols with
  | .error e => .error e
  | .ok scores => .ok (assignRankings (sortByScoreDesc scores))

/-! ## Trading service (`DefaultTradingService`) -/

/-- The locals `profit` and `profitPercentage` of `PullBackTradeSignal`:
`profit := (price - entryPrice) * quantity`,
`profitPercentage := profit / (price * quantity) * 100`, in `float64`. -/
def profitPercentage (price entryPrice quantity : ℚ) : Float64 :=
  let profit := Float64.mul (Float64.sub (Float64.ofRat price) (Float64.ofRat entryPrice))
    (Float64.ofRat quantity)
  Float64.mul
    (Float64.div profit (Float64.mul (Float64.ofRat price) (Float64.ofRat quantity)))
    (Float64.ofRat 100)

/-- Go `PullBackTradeSignal`. -/
def PullBackTradeSignal (env : Env) (st : State) (tradingPosition : TradingPositionAggregate) :
    Except Err String × State :=
  match GetSymbolScore env tradingPosition.Holding.Symbol with
  | .error e => (.error e, st)
  | .ok holdingCurrentScore =>
    match ExchangeService.GetTicker env st tradingPosition.Holding.Symbol with
    | (.error e, st1) => (.error e, st1)
    | (.ok holdingTicker, st1) =>
      let profitPercentage := profitPercentage holdingTicker.Price
        tradingPosition.Holding.EntryPrice tradingPosition.Holding.Quantity
      if holdingCurrentScore.Score ≥ tradingPosition.Holding.EntryScore then
        (.ok PullBackTradeSignalHold, st1)
      else if tradingPosition.TradingPreference.RiskLevel = TradingPreferenceRiskLevelLow then
        if Float64.gt profitPercentage (Float64.ofRat 5) then (.ok PullBackTradeSignalSell, st1)
        else (.ok PullBackTradeSignalHold, st1)
      else if tradingPosition.TradingPreference.RiskLevel = TradingPreferenceRiskLevelMedium then
        if Float64.gt profitPercentage (Float64.ofRat 10) then (.ok PullBackTradeSignalSell, st1)
        else (.ok PullBackTradeSignalHold, st1)
      else if tradingPosition.TradingPreference.RiskLevel = TradingPreferenceRiskLevelHigh then
        if Float64.gt profitPercentage (Float64.ofRat 13) then (.ok PullBackTradeSignalSell, st1)
        else (.ok PullBackTradeSignalHold, st1)
      else (.ok PullBackTradeSignalHold, st1)

/-- The score pointer is dereferenced only inside a matching risk-level branch;
a nil score there is a panic. -/
def IsAttractiveSymbol (tradingPosition : TradingPositionAggregate) (toMarketData : MarketData) :
    Outcome Bool :=
  if tradingPosition.TradingPreference.RiskLevel = TradingPreferenceRiskLevelLow then
    match toMarketData.Score with
    | none => .panic
    | some score => if score > 0.8 then .ok true else .ok false
  else if tradingPosition.TradingPreference.RiskLevel = TradingPreferenceRiskLevelMedium then
    match toMarketData.Score with
    | none => .panic
    | some score => if score > 0.7 then .ok true else .ok false
  else if tradingPosition.TradingPreference.RiskLevel = TradingPreferenceRiskLevelHigh then
    match toMarketData.Score with
    | none => .panic
    | some score => if score > 0.5 then .ok true else .ok false
  else .ok false

/-- The results of `HoldingService.Update`, `HoldingService.Create`, `OrderService.Update`
and of the notification are discarded, as in the source; only their effect on the
state is kept. The argument `holding` is changed in place in Go; the changed
value is the one handed to `HoldingService.Update`. -/
def ExecuteTrade (env : Env) (st : State) (holding : Holding) (toAsset : String)
    (toMarketData : MarketData) (walletType : String) : Outcome Unit × State :=
  let user := env.user
  match TradingPreferenceService.GetByUserID env st user.ID with
  | .error e => (.fail e, st)
  | .ok tradingPreference =>
    if !tradingPreference.Operate then (.ok (), st)
    else
      match ExchangeService.GetBalance env st holding.GetAsset with
      | (.error e, st1) => (.fail e, st1)
      | (.ok balance, st1) =>
        let newAssetSymbol := toAsset ++ "USDT"
        match ExchangeService.GetTicker env st1 newAssetSymbol with
        | (.error e, st2) => (.fail e, st2)
        | (.ok toTicker, st2) =>
          match ExchangeService.GetTicker env st2 holding.GetAsset with
          | (.error e, st3) => (.fail e, st3)
          | (.ok fromTicker, st3) =>
            match ExchangeService.GetConversionQuote env st3 holding.GetAsset toAsset
                balance.Free walletType with
            | (.error e, st4) => (.fail e, st4)
            | (.ok conversionQuote, st4) =>
              match conversionQuote.ValidateConversionDrift (fromTicker.Price * balance.Free)
                  toTicker.Price with
              | .error e => (.fail e, st4)
              | .ok _ =>
                let order := NewOrder st4.newUUID.1 env.now user.ID newAssetSymbol
                  conversionQuote.ToAmount (conversionQuote.ToAmount * toTicker.Price)
                  OrderTypeTakeProfit
                match OrderService.Create env st4.newUUID.2 order with
                | (.error e, st5) => (.fail e, st5)
                | (.ok _, st5) =>
                  match ExchangeService.AcceptConversionQuote env st5 conversionQuote.ID with
                  | (.error e, st6) => (.fail e, st6)
                  | (.ok _, st6) =>
                    let exitPrice := fromTicker.Price
                    let profit := (exitPrice - holding.EntryPrice) * holding.Quantity
                    let closed : Holding := { holding with
                      ExitPrice := exitPrice, Status := HoldingStatusClosed, Profit := profit }
                    let st7 := (HoldingService.Update env st6 closed).2
                    match toMarketData.Score with
                    | none => (.panic, st7)
                    | some score =>
                      let newHolding := NewHolding st7.newUUID.1 env.now user.ID newAssetSymbol
                        conversionQuote.ToAmount toTicker.Price 0 0 score HoldingStatusOpen
                      let st8 := (HoldingService.Create env st7.newUUID.2 newHolding).2
                      let filled : Order := { order with Status := OrderStatusFilled }
                      let st9 := (OrderService.Update env st8 filled).2
                      let profit2 := (closed.ExitPrice * closed.Quantity) -
                        (closed.ExitPrice * closed.Quantity)
                      let profitPercentage := profit2 / (closed.ExitPrice * closed.Quantity) * 100
                      (.ok (), NotificationService.Send st9
                        (.Trade closed.Symbol newAssetSymbol fromTicker.Price profit2
                          profitPercentage))

/-- Same conventions as `ExecuteTrade`. The source has no call of
`ValidateConversionDrift` here. -/
def ExecuteStopLoss (env : Env) (st : State) (holding : Holding) (walletType : String) :
    Outcome Unit × State :=
  let user := env.user
  match TradingPreferenceService.GetByUserID env st user.ID with
  | .error e => (.fail e, st)
  | .ok tradingPreference =>
    if !tradingPreference.Operate then (.ok (), st)
    else
      match ExchangeService.GetBalance env st holding.GetAsset with
      | (.error e, st1) => (.fail e, st1)
      | (.ok balance, st1) =>
        match ExchangeService.GetTicker env st1 holding.GetAsset with
        | (.error e, st2) => (.fail e, st2)
        | (.ok fromTicker, st2) =>
          match ExchangeService.GetTicker env st2 "USDT" with
          | (.error e, st3) => (.fail e, st3)
          | (.ok toTicker, st3) =>
            match ExchangeService.GetConversionQuote env st3 holding.GetAsset "USDT"
                balance.Free walletType with
            | (.error e, st4) => (.fail e, st4)
            | (.ok conversionQuote, st4) =>
              let order := NewOrder st4.newUUID.1 env.now user.ID "USDT"
                conversionQuote.ToAmount (conversionQuote.ToAmount * toTicker.Price)
                OrderTypeStopLoss
              match OrderService.Create env st4.newUUID.2 order with
              | (.error e, st5) => (.fail e, st5)
              | (.ok _, st5) =>
                match ExchangeService.AcceptConversionQuote env st5 conversionQuote.ID with
                | (.error e, st6) => (.fail e, st6)
                | (.ok _, st6) =>
                  let exitPrice := fromTicker.Price
                  let profit := (exitPrice * holding.Quantity) -
                    (holding.EntryPrice * holding.Quantity)
                  let closed : Holding := { holding with
                    ExitPrice := exitPrice, Status := HoldingStatusClosed, Profit := profit }
                  let st7 := (HoldingService.Update env st6 closed).2
                  let newHolding := NewHolding st7.newUUID.1 env.now user.ID holding.GetAsset
                    conversionQuote.ToAmount fromTicker.Price 0 0 holding.EntryScore
                    HoldingStatusOpen
                  let st8 := (HoldingService.Create env st7.newUUID.2 newHolding).2
                  let filled : Order := { order with Status := OrderStatusFilled }
                  let st9 := (OrderService.Update env st8 filled).2
                  let profit2 := (closed.ExitPrice * closed.Quantity) -
                    (closed.ExitPrice * closed.Quantity)
                  let profitPercentage := profit2 / (closed.ExitPrice * closed.Quantity) * 100
                  (.ok (), NotificationService.Send st9
                    (.StopLoss closed.Symbol fromTicker.Price profit2 profitPercentage))

/-- The values returned by `ExecuteStopLoss` and `ExecuteTrade` are discarded, as in
the source: after either call `PullBackTrade` returns nil. A panic inside them
unwinds through `PullBackTrade`. `scores[0]` on an empty slice is a panic. -/
def PullBackTrade (env : Env) (st : State) (tradingPosition : TradingPositionAggregate) :
    Outcome Unit × State :=
  match PullBackTradeSignal env st tradingPosition with
  | (.error e, st1) => (.fail e, st1)
  | (.ok signal, st1) =>
    if signal = PullBackTradeSignalHold then (.ok (), st1)
    else
      match GetScores env tradingPosition.TradingPreference.Watchlist with
      | .error e => (.fail e, st1)
      | .ok [] => (.panic, st1)
      | .ok (top :: _) =>
        if top.Symbol = tradingPosition.Holding.Symbol then (.ok (), st1)
        else
          let attractiveSymbol := top.Symbol
          match GetLatest env attractiveSymbol with
          | .error e => (.fail e, st1)
          | .ok attractiveMarketData =>
            match IsAttractiveSymbol tradingPosition attractiveMarketData with
            | .fail e => (.fail e, st1)
            | .panic => (.panic, st1)
            | .ok attractive =>
              if !attractive then
                if tradingPosition.TradingPreference.StopLossEnabled then
                  match ExecuteStopLoss env st1 tradingPosition.Holding "spot" with
                  | (.panic, st2) => (.panic, st2)
                  | (_, st2) => (.ok (), st2)
                else (.ok (), st1)
              else
                match ExecuteTrade env st1 tradingPosition.Holding attractiveSymbol
                    attractiveMarketData "spot" with
                | (.panic, st2) => (.panic, st2)
                | (_, st2) => (.ok (), st2)

/-! ## The orders the two operations build -/

/-- The order `ExecuteTrade` builds for a rotation into `toAsset`, with the identifier
`uuid.New()` returns in state `st`. -/
def takeProfitOrder (env : Env) (st : State) (toAsset : String) (quote : ExchangeConversionQuote)
    (toTicker : ExchangeTicker) : Order :=
  NewOrder st.nextID env.now env.user.ID (toAsset ++ "USDT") quote.ToAmount
    (quote.ToAmount * toTicker.Price) OrderTypeTakeProfit

/-- The order `ExecuteStopLoss` builds, with the identifier `uuid.New()` returns in state `st`. -/
def stopLossOrder (env : Env) (st : State) (quote : ExchangeConversionQuote)
    (toTicker : ExchangeTicker) : Order :=
  NewOrder st.nextID env.now env.user.ID "USDT" quote.ToAmount
    (quote.ToAmount * toTicker.Price) OrderTypeStopLoss

/-- The old holding as `ExecuteTrade` and `ExecuteStopLoss` hand it to `HoldingService.Update`. -/
def closedHolding (holding : Holding) (exitPrice profit : ℚ) : Holding :=
  { holding with ExitPrice := exitPrice, Status := HoldingStatusClosed, Profit := profit }

/-! ## Example worlds used to evaluate the code -/

/-- Candle point of which only symbol, timestamp and score matter. -/
def exMarketData (id : UUID) (symbol : String) (timestamp : Time) (score : Option ℚ) : MarketData :=
  { ID := id, CorrelationID := id, Symbol := symbol, Timestamp := timestamp,
    Open := 1, High := 1, Low := 1, Close := 1, Volume := 1,
    MACD := none, MACDSignal := none, MACDHist := none, RSI6 := none, RSI12 := none,
    RSI24 := none, SMA20 := none, SMA50 := none, SMA200 := none, ATR := none,
    BollingerBands := none, BollingerBandsWidth := none, BollingerBandsUpper := none,
    BollingerBandsLower := none, OBV := none, ADX := none, ADXIndex := none,
    ADXPositive := none, ADXNegative := none, Score := score,
    CreatedAt := timestamp, UpdatedAt := timestamp }

def exTicker (symbol : String) (price : ℚ) : ExchangeTicker :=
  { Symbol := symbol, Price := price, Volume := 0, PricePercentageChange := 0 }

/-- Example world: user 1 holds BTC; the latest BTCUSDT point scores `btcScore`, the latest
ETHUSDT point `ethScore`; every ticker whose symbol starts with `BTC` quotes `btcPrice`,
every other one quotes 1; a conversion is quoted at `toAmount` under the id `q1`;
accepting it succeeds exactly when `acceptOk`. -/
def exEnv (btcScore ethScore : Option ℚ) (btcPrice toAmount : ℚ) (acceptOk : Bool) : Env :=
  { user := { ID := 1, Role := "user" },
    now := 1000 * Minute,
    marketDataGetAll := fun symbol =>
      if symbol = "BTCUSDT" then .ok [exMarketData 100 "BTCUSDT" (1000 * Minute) btcScore]
      else if symbol = "ETHUSDT" then .ok [exMarketData 101 "ETHUSDT" (1000 * Minute) ethScore]
      else .ok [],
    getBalance := fun asset => .ok { Asset := asset, Free := 1, Locked := 0 },
    getTicker := fun symbol =>
      if "BTC".data.isPrefixOf symbol.data then .ok (exTicker symbol btcPrice)
      else .ok (exTicker symbol 1),
    convertQuote := fun fromAsset toAsset fromAmount _ =>
      .ok { ID := "q1", FromAsset := fromAsset, ToAsset := toAsset, FromAmount := fromAmount,
            ToAmount := toAmount, Ratio := 1, InverseRatio := 1, ValidTime := 10, Fee := 0,
            FeeAsset := "" },
    acceptQuote := fun id =>
      if acceptOk then .ok { ID := id, CreatedAt := 1000 * Minute, Status := "SUCCESS" }
      else .error .ErrQuoteExpired }

def exPreference (operate stopLoss : Bool) (riskLevel : String) : TradingPreference :=
  { ID := 5, UserID := 1, Algorithm := TradingAlgorithmSwingTrading,
    Watchlist := ["BTCUSDT", "ETHUSDT"], Operate := operate, StopLossEnabled := stopLoss,
    StopLossExitEnabled := false, RiskLevel := riskLevel, CreatedAt := 0, UpdatedAt := 0 }

/-- Open BTCUSDT position of user 1: quantity 1, bought at `entryPrice`, entry score 9/10. -/
def exHolding (entryPrice : ℚ) : Holding :=
  { ID := 10, UserID := 1, Symbol := "BTCUSDT", Quantity := 1, EntryPrice := entryPrice,
    ExitPrice := 0, Profit := 0, EntryScore := 9 / 10, Status := HoldingStatusOpen,
    CreatedAt := 0, UpdatedAt := 0 }

def exState (pref : TradingPreference) (holdings : List Holding) : State :=
  { preferences := [pref], holdings := holdings, orders := [], accepted := [], calls := [],
    notifications := [], nextID := 1000 }

/-- Quote whose only relevant field is the quoted destination amount. -/
def exQuote (id : String) (toAmount : ℚ) : ExchangeConversionQuote :=
  { ID := id, FromAsset := "BTC", ToAsset := "ETH", FromAmount := 1, ToAmount := toAmount,
    Ratio := 1, InverseRatio := 1, ValidTime := 10, Fee := 0, FeeAsset := "" }

/-- The `float64` nearest to 0.1. -/
def exTenth : ℚ := 3602879701896397 / 36028797018963968

/-- The medium-risk position of user 1 in BTCUSDT: 0.1 BTC bought at 27. -/
def exThresholdPosition : TradingPositionAggregate :=
  { Holding := { exHolding 27 with Quantity := exTenth },
    TradingPreference := exPreference true true "medium" }

/-- The low-risk position of user 1 in BTCUSDT bought at `entryPrice`. -/
def exPosition (entryPrice : ℚ) : TradingPositionAggregate :=
  { Holding := exHolding entryPrice, TradingPreference := exPreference true true "low" }

/-- The latest ETHUSDT point of the example world when it scores 19/20. -/
def exEthPoint : MarketData := exMarketData 101 "ETHUSDT" (1000 * Minute) (some (19 / 20))

/-- Example repositories: the low-risk preference of user 1 and the position bought at 94. -/
def exWorld : State := exState (exPreference true true "low") [exHolding 94]

/-! ## Market data: validation and factories (`internal/domain/entities/market.go`) -/

def MarketData.Validate (m : MarketData) : Except Err Unit :=
  if !HasSuffix m.Symbol "USDT" then .error .ErrInvalidMarketSymbol
  else if m.Timestamp = 0 then .error .ErrInvalidMarketTimestamp
  else if m.Open < 0 then .error .ErrInvalidMarketOpen
  else if m.High < 0 then .error .ErrInvalidMarketHigh
  else if m.Low < 0 then .error .ErrInvalidMarketLow
  else if m.Close < 0 then .error .ErrInvalidMarketClose
  else if m.Volume < 0 then .error .ErrInvalidMarketVolume
  else .ok ()

/-- Go `MarketDataFactory.NewMarketData`; `id` is the value of `uuid.New()`, `now` of
`time.Now().UTC()`. -/
def NewMarketData (id : UUID) (now : Time) (correlationID : UUID) (symbol : String)
    (timestamp : Time) (openPrice high low closePrice volume : ℚ)
    (macd macdSignal macdHist rsi6 rsi12 rsi24 sma20 sma50 sma200 atr bollingerBands
      bollingerBandsWidth bollingerBandsUpper bollingerBandsLower obv adx adxIndex adxPositive
      adxNegative score : Option ℚ) : MarketData :=
  { ID := id, CorrelationID := correlationID, Symbol := symbol, Timestamp := timestamp,
    Open := openPrice, High := high, Low := low, Close := closePrice, Volume := volume,
    MACD := macd, MACDSignal := macdSignal, MACDHist := macdHist, RSI6 := rsi6, RSI12 := rsi12,
    RSI24 := rsi24, SMA20 := sma20, SMA50 := sma50, SMA200 := sma200, ATR := atr,
    BollingerBands := bollingerBands, BollingerBandsWidth := bollingerBandsWidth,
    BollingerBandsUpper := bollingerBandsUpper, BollingerBandsLower := bollingerBandsLower,
    OBV := obv, ADX := adx, ADXIndex := adxIndex, ADXPositive := adxPositive,
    ADXNegative := adxNegative, Score := score, CreatedAt := now, UpdatedAt := now }

/-- Go `MarketDataFactory.NewRawMarketData`: every indicator and the score are nil. -/
def NewRawMarketData (id : UUID) (now : Time) (correlationID : UUID) (symbol : String)
    (timestamp : Time) (openPrice high low closePrice volume : ℚ) : MarketData :=
  NewMarketData id now correlationID symbol timestamp openPrice high low closePrice volume
    none none none none none none none none none none none none none none none none none none
    none none

/-- Go `MarketDataFactory.NewMarketDataFromEvent`. -/
def NewMarketDataFromEvent (id : UUID) (now : Time) (correlationID : UUID) (symbol : String)
    (timestamp : Time) (openPrice high low closePrice volume : ℚ) : MarketData :=
  NewRawMarketData id now correlationID symbol timestamp openPrice high low closePrice volume

/-- Go `MarketDataFactory.Clone`: identity, correlation id, symbol and creation time are
those of `marketData`; everything else is handed in; `now` is `time.Now().UTC()`. -/
def Clone (now : Time) (marketData : MarketData) (timestamp : Time)
    (openPrice high low closePrice volume : ℚ)
    (macd macdSignal macdHist rsi6 rsi12 rsi24 sma20 sma50 sma200 atr bollingerBands
      bollingerBandsWidth bollingerBandsUpper bollingerBandsLower obv adx adxIndex adxPositive
      adxNegative score : Option ℚ) : MarketData :=
  { ID := marketData.ID, CorrelationID := marketData.CorrelationID, Symbol := marketData.Symbol,
    Timestamp := timestamp,
    Open := openPrice, High := high, Low := low, Close := closePrice, Volume := volume,
    MACD := macd, MACDSignal := macdSignal, MACDHist := macdHist, RSI6 := rsi6, RSI12 := rsi12,
    RSI24 := rsi24, SMA20 := sma20, SMA50 := sma50, SMA200 := sma200, ATR := atr,
    BollingerBands := bollingerBands, BollingerBandsWidth := bollingerBandsWidth,
    BollingerBandsUpper := bollingerBandsUpper, BollingerBandsLower := bollingerBandsLower,
    OBV := obv, ADX := adx, ADXIndex := adxIndex, ADXPositive := adxPositive,
    ADXNegative := adxNegative, Score := score, CreatedAt := marketData.CreatedAt,
    UpdatedAt := now }

/-! ## Market data events (`internal/domain/events`) -/

/-- Go `events.MarketDataEvent` with the embedded `BaseEvent`; the field `Type` of the
source is `EventType` here. -/
structure MarketDataEvent where
  ID : UUID
  Domain : String
  EventType : String
  Timestamp : Time
  DatapointID : UUID
  Symbol : String
  DataTimestamp : Time
  Open : ℚ
  High : ℚ
  Low : ℚ
  Close : ℚ
  Volume : ℚ
  CandleClose : Bool
  deriving DecidableEq, Repr

/-- Go `MarketDataEventFactory.NewPartialMarketDataEvent`; `domain` and `eventType` are the
constants `MarketDataEventDomain` and `PartialMarketDataEvent`. -/
def NewPartialMarketDataEvent (id : UUID) (now : Time) (domain eventType : String)
    (datapointID : UUID) : MarketDataEvent :=
  { ID := id, Domain := domain, EventType := eventType, Timestamp := now,
    DatapointID := datapointID, Symbol := "", DataTimestamp := 0, Open := 0, High := 0,
    Low := 0, Close := 0, Volume := 0, CandleClose := false }

/-! ## Market data persistence (`internal/infrastructure/persistence`) -/

/-- Row type `dtos.MarketData`. It has no column for the score. -/
structure MarketDataDTO where
  ID : UUID
  CorrelationID : UUID
  Symbol : String
  Timestamp : Time
  Open : ℚ
  High : ℚ
  Low : ℚ
  Close : ℚ
  Volume : ℚ
  MACD : Option ℚ
  MACDSignal : Option ℚ
  MACDHist : Option ℚ
  RSI6 : Option ℚ
  RSI12 : Option ℚ
  RSI24 : Option ℚ
  SMA20 : Option ℚ
  SMA50 : Option ℚ
  SMA200 : Option ℚ
  ATR : Option ℚ
  BollingerBands : Option ℚ
  BollingerBandsWidth : Option ℚ
  BollingerBandsUpper : Option ℚ
  BollingerBandsLower : Option ℚ
  OBV : Option ℚ
  ADX : Option ℚ
  ADXIndex : Option ℚ
  ADXPositive : Option ℚ
  ADXNegative : Option ℚ
  CreatedAt : Time
  UpdatedAt : Time
  deriving DecidableEq, Repr

/-- Go `(*dtos.MarketData).FromEntity`, as the row it fills. -/
def MarketDataDTO.FromEntity (marketData : MarketData) : MarketDataDTO :=
  { ID := marketData.ID, CorrelationID := marketData.CorrelationID, Symbol := marketData.Symbol,
    Timestamp := marketData.Timestamp, Open := marketData.Open, High := marketData.High,
    Low := marketData.Low, Close := marketData.Close, Volume := marketData.Volume,
    MACD := marketData.MACD, MACDSignal := marketData.MACDSignal,
    MACDHist := marketData.MACDHist, RSI6 := marketData.RSI6, RSI12 := marketData.RSI12,
    RSI24 := marketData.RSI24, SMA20 := marketData.SMA20, SMA50 := marketData.SMA50,
    SMA200 := marketData.SMA200, ATR := marketData.ATR,
    BollingerBands := marketData.BollingerBands,
    BollingerBandsWidth := marketData.BollingerBandsWidth,
    BollingerBandsUpper := marketData.BollingerBandsUpper,
    BollingerBandsLower := marketData.BollingerBandsLower, OBV := marketData.OBV,
    ADX := marketData.ADX, ADXIndex := marketData.ADXIndex,
    ADXPositive := marketData.ADXPositive, ADXNegative := marketData.ADXNegative,
    CreatedAt := marketData.CreatedAt, UpdatedAt := marketData.UpdatedAt }

/-- Go `(*dtos.MarketData).ToEntity`: the struct literal names no `Score`, which is nil. -/
def MarketDataDTO.ToEntity (m : MarketDataDTO) : MarketData :=
  { ID := m.ID, CorrelationID := m.CorrelationID, Symbol := m.Symbol, Timestamp := m.Timestamp,
    Open := m.Open, High := m.High, Low := m.Low, Close := m.Close, Volume := m.Volume,
    MACD := m.MACD, MACDSignal := m.MACDSignal, MACDHist := m.MACDHist, RSI6 := m.RSI6,
    RSI12 := m.RSI12, RSI24 := m.RSI24, SMA20 := m.SMA20, SMA50 := m.SMA50, SMA200 := m.SMA200,
    ATR := m.ATR, BollingerBands := m.BollingerBands,
    BollingerBandsWidth := m.BollingerBandsWidth, BollingerBandsUpper := m.BollingerBandsUpper,
    BollingerBandsLower := m.BollingerBandsLower, OBV := m.OBV, ADX := m.ADX,
    ADXIndex := m.ADXIndex, ADXPositive := m.ADXPositive, ADXNegative := m.ADXNegative,
    Score := none, CreatedAt := m.CreatedAt, UpdatedAt := m.UpdatedAt }

/-- One entry of the filter map handed to `filtering.NewComplexFilter`, named by its key.
`QueryFromFilter` turns a key ending in `__gte`, `__lt`, `__lte` into the comparison on the
column named before the suffix, and any other key into an equality. -/
inductive Filter where
  | correlation_id (value : UUID)
  | symbol (value : String)
  | timestamp__gte (value : Time)
  | timestamp__lt (value : Time)
  | timestamp__lte (value : Time)
  deriving DecidableEq, Repr

/-- The `Where` clause `ComplexFilters.QueryFromFilter` adds for one entry, on one row. -/
def Filter.holds (row : MarketDataDTO) : Filter → Bool
  | .correlation_id value => row.CorrelationID = value
  | .symbol value => row.Symbol = value
  | .timestamp__gte value => row.Timestamp ≥ value
  | .timestamp__lt value => row.Timestamp < value
  | .timestamp__lte value => row.Timestamp ≤ value

structure ComplexFiltersPagination where
  Page : Int
  PageSize : Int
  TotalItems : Int
  deriving DecidableEq, Repr

structure ComplexFilters where
  filters : List Filter
  orderBy : String
  orderDirection : String
  pagination : ComplexFiltersPagination
  deriving DecidableEq, Repr

/-- Go `filtering.NewComplexFilter` (the result of `cf.Validate()` is discarded there). -/
def NewComplexFilter (filters : List Filter) (orderBy orderDirection : String)
    (page limit : Int) : ComplexFilters :=
  let orderBy := if orderBy = "" then "created_at" else orderBy
  let orderDirection := if orderDirection = "" then "desc" else orderDirection
  let page := if page < 0 then 0 else page
  let limit := if limit ≤ 0 then 100 else limit
  { filters := filters, orderBy := orderBy, orderDirection := orderDirection,
    pagination := { Page := page, PageSize := limit, TotalItems := 0 } }

/-- Go `ComplexFilters.SetMetaParameters`. The keys `offset`, `limit`, `order_by` and
`order_direction` it deletes from the map are no `Filter`. -/
def ComplexFilters.SetMetaParameters (cf : ComplexFilters) : ComplexFilters :=
  let cf := if cf.pagination.Page = 0 then
    { cf with pagination := { cf.pagination with Page := 0 } } else cf
  let cf := if cf.pagination.PageSize = 0 then
    { cf with pagination := { cf.pagination with PageSize := 100 } } else cf
  let cf := if cf.orderDirection = "" then { cf with orderDirection := "desc" } else cf
  if cf.orderBy = "" then { cf with orderBy := "created_at" } else cf

/-- Go `ComplexFilters.QueryFromFilter` on one row: every entry of the map adds a `Where`. -/
def ComplexFilters.QueryFromFilter (cf : ComplexFilters) (row : MarketDataDTO) : Bool :=
  cf.filters.all (fun f => f.holds row)

/-- A message the event stream accepted. -/
structure PublishedMessage where
  Subject : String
  MsgID : UUID
  Event : MarketDataEvent
  deriving DecidableEq, Repr

/-- A statement the market data repository runs on its gorm connection: `Find` with the
filters of `GetAll`, `First` by identifier, `Create` and `Save` of a row. -/
inductive RepositoryCall where
  | Find (filters : ComplexFilters)
  | First (id : UUID)
  | Create (row : MarketDataDTO)
  | Save (row : MarketDataDTO)
  deriving DecidableEq, Repr

/-- Collaborators of the market data pipeline: the clock, the two event constants of
`internal/domain/constants` and the stream subject of the configuration, the answer
of the stream to `PublishAsync(subject, event, msgID)`, and the database: `databaseError`
is the `result.Error` gorm reports for a statement when the database fails on it. -/
structure MarketEnv where
  now : Time
  MarketDataEventDomain : String
  PartialMarketDataEvent : String
  NatsMarketDataDomainEventsSubject : String
  publishAsync : String → MarketDataEvent → UUID → Except Err Unit
  databaseError : RepositoryCall → Option Err

/-- What the market data pipeline can change: the rows of the market data table in
storage order, the messages the stream accepted (oldest first) and the `uuid.New()`
counter. -/
structure MarketState where
  marketDatas : List MarketDataDTO
  published : List PublishedMessage
  nextID : UUID
  deriving DecidableEq, Repr

/-- Go `uuid.New()`. -/
def MarketState.newUUID (st : MarketState) : UUID × MarketState :=
  (st.nextID, { st with nextID := st.nextID + 1 })

/-- Go `DefaultMarketDataRepository.GetAll`:
`query.Find(&instances).Order(..).Offset(..).Limit(..)`. `Find` runs the query when it is
called, so the rows are all the rows that pass the filters, as stored; the ordering, offset
and limit chained after it shape no result. -/
def MarketDataRepository.GetAll (env : MarketEnv) (st : MarketState)
    (filters : ComplexFilters) : Except Err (List MarketData) :=
  match env.databaseError (.Find filters) with
  | some e => .error e
  | none =>
    .ok ((st.marketDatas.filter (fun row => filters.QueryFromFilter row)).map
      MarketDataDTO.ToEntity)

/-- Go `DefaultMarketDataRepository.GetByID` (gorm `First`). -/
def MarketDataRepository.GetByID (env : MarketEnv) (st : MarketState) (id : UUID) :
    Except Err MarketData :=
  match env.databaseError (.First id) with
  | some e => .error e
  | none =>
    match st.marketDatas.find? (fun row => row.ID = id) with
    | some row => .ok row.ToEntity
    | none => .error .ErrRecordNotFound

/-- Go `DefaultMarketDataRepository.Create` (gorm `Create`): the row is added and returned. -/
def MarketDataRepository.Create (env : MarketEnv) (st : MarketState) (market : MarketData) :
    Except Err MarketData × MarketState :=
  let inst := MarketDataDTO.FromEntity market
  match env.databaseError (.Create inst) with
  | some e => (.error e, st)
  | none => (.ok inst.ToEntity, { st with marketDatas := st.marketDatas ++ [inst] })

/-- Go `DefaultMarketDataRepository.Update` (gorm `Save`): the row with the same primary key
is overwritten; without one the row is inserted. -/
def MarketDataRepository.Update (env : MarketEnv) (st : MarketState) (market : MarketData) :
    Except Err MarketData × MarketState :=
  let inst := MarketDataDTO.FromEntity market
  match env.databaseError (.Save inst) with
  | some e => (.error e, st)
  | none =>
    if st.marketDatas.any (fun row => row.ID = inst.ID) then
      let rows := st.marketDatas.map (fun row => if row.ID = inst.ID then inst else row)
      (.ok inst.ToEntity, { st with marketDatas := rows })
    else (.ok inst.ToEntity, { st with marketDatas := st.marketDatas ++ [inst] })

/-! ## Market data service: storage (`internal/app/markets/default_service.go`) -/

/-- Go `time.Time.Truncate`: `t` rounded down to a multiple of `d` since the zero time. -/
def Truncate (t : Time) (d : Int) : Time := if d ≤ 0 then t else t - t % d

def MarketDataService.GetByID (env : MarketEnv) (st : MarketState) (id : UUID) :
    Except Err MarketData :=
  MarketDataRepository.GetByID env st id

def MarketDataService.GetAll (env : MarketEnv) (st : MarketState) (filters : ComplexFilters) :
    Except Err (List MarketData) :=
  MarketDataRepository.GetAll env st filters.SetMetaParameters

def MarketDataService.Update (env : MarketEnv) (st : MarketState) (marketData : MarketData) :
    Except Err MarketData × MarketState :=
  MarketDataRepository.Update env st marketData

def MarketDataService.Create (env : MarketEnv) (st : MarketState) (marketData : MarketData) :
    Except Err MarketData × MarketState :=
  match marketData.Validate with
  | .error e => (.error e, st)
  | .ok _ =>
    let timestampLowerBand := Truncate marketData.Timestamp Minute
    let timestampUpperBand := timestampLowerBand + Minute
    let cf := NewComplexFilter
      [.symbol marketData.Symbol, .timestamp__gte timestampLowerBand,
       .timestamp__lt timestampUpperBand] "created_at" "desc" 1 100
    match MarketDataRepository.GetAll env st cf with
    | .error e => (.error e, st)
    | .ok (first :: _) =>
      let updatedMarketData := Clone env.now first marketData.Timestamp marketData.Open
        marketData.High marketData.Low marketData.Close marketData.Volume marketData.MACD
        marketData.MACDSignal marketData.MACDHist marketData.RSI6 marketData.RSI12
        marketData.RSI24 marketData.SMA20 marketData.SMA50 marketData.SMA200 marketData.ATR
        marketData.BollingerBands marketData.BollingerBandsWidth
        marketData.BollingerBandsUpper marketData.BollingerBandsLower marketData.OBV
        marketData.ADX marketData.ADXIndex marketData.ADXPositive marketData.ADXNegative
        marketData.Score
      MarketDataService.Update env st updatedMarketData
    | .ok [] => MarketDataRepository.Create env st marketData

/-- The filters `MarketDataService.Create` looks up the minute bucket of `marketData`
with: the symbol and the half-open minute of its timestamp. -/
def bucketFilters (marketData : MarketData) : ComplexFilters :=
  NewComplexFilter
    [.symbol marketData.Symbol, .timestamp__gte (Truncate marketData.Timestamp Minute),
     .timestamp__lt (Truncate marketData.Timestamp Minute + Minute)] "created_at" "desc" 1 100

/-- The point `MarketDataService.Create` hands to `Update` when the lookup answers `first`:
the clone of `first` that carries the timestamp, prices, volume, indicators and score of
`marketData`. -/
def mergedPoint (now : Time) (first marketData : MarketData) : MarketData :=
  Clone now first marketData.Timestamp marketData.Open marketData.High marketData.Low
    marketData.Close marketData.Volume marketData.MACD marketData.MACDSignal
    marketData.MACDHist marketData.RSI6 marketData.RSI12 marketData.RSI24 marketData.SMA20
    marketData.SMA50 marketData.SMA200 marketData.ATR marketData.BollingerBands
    marketData.BollingerBandsWidth marketData.BollingerBandsUpper
    marketData.BollingerBandsLower marketData.OBV marketData.ADX marketData.ADXIndex
    marketData.ADXPositive marketData.ADXNegative marketData.Score

/-- The filters of the idempotency lookup of `HandleMarketDataPushed`, as the repository
receives them from `MarketDataService.GetAll`. -/
def idempotencyFilters (id : UUID) : ComplexFilters :=
  (NewComplexFilter [.correlation_id id] "created_at" "desc" 0 1).SetMetaParameters

/-! ## Event stream and the pushed-candle handler -/

/-- Go `EventsPubSub.Publish`: a fresh message id, then `PublishAsync`. -/
def EventsPubSub.Publish (env : MarketEnv) (st : MarketState) (subject : String)
    (data : MarketDataEvent) : Except Err Unit × MarketState :=
  let eventID := st.newUUID.1
  let st1 := st.newUUID.2
  match env.publishAsync subject data eventID with
  | .error e => (.error e, st1)
  | .ok _ =>
    let message : PublishedMessage := { Subject := subject, MsgID := eventID, Event := data }
    (.ok (), { st1 with published := st1.published ++ [message] })

/-- Go `MarketDataEvent.Dispatch`. -/
def MarketDataEvent.Dispatch (env : MarketEnv) (st : MarketState) (e : MarketDataEvent) :
    Except Err Unit × MarketState :=
  EventsPubSub.Publish env st env.NatsMarketDataDomainEventsSubject e

/-- Go `DefaultMarketDataEventHandler.HandleMarketDataPushed`. The entity `Create` returns is
discarded, as in the source: the event dispatched names `marketData.ID`, the identifier the
factory drew. -/
def HandleMarketDataPushed (env : MarketEnv) (st : MarketState) (event : MarketDataEvent) :
    Except Err Unit × MarketState :=
  let filters := NewComplexFilter [.correlation_id event.ID] "created_at" "desc" 0 1
  match MarketDataService.GetAll env st filters with
  | .error e => (.error e, st)
  | .ok mks =>
    if mks.length > 0 then (.ok (), st)
    else if !event.CandleClose then (.ok (), st)
    else
      let marketData := NewMarketDataFromEvent st.newUUID.1 env.now event.ID event.Symbol
        event.DataTimestamp event.Open event.High event.Low event.Close event.Volume
      let st1 := st.newUUID.2
      match marketData.Validate with
      | .error e => (.error e, st1)
      | .ok _ =>
        match MarketDataService.Create env st1 marketData with
        | (.error e, st2) => (.error e, st2)
        | (.ok _, st2) =>
          let marketDataEvent := NewPartialMarketDataEvent st2.newUUID.1 env.now
            env.MarketDataEventDomain env.PartialMarketDataEvent marketData.ID
          match marketDataEvent.Dispatch env st2.newUUID.2 with
          | (.error e, st3) => (.error e, st3)
          | (.ok _, st3) => (.ok (), st3)

/-! ## Technical indicators (`internal/app/markets/default_service.go`) -/

/-- Go `sort.Slice(*marketDatas, func(i, j int) bool { return
(*marketDatas)[i].CreatedAt.After((*marketDatas)[j].CreatedAt) })`, as the insertion sort Go
runs on short slices: a point moves in front of another only when it was created strictly
later. For points with pairwise different creation times every sort gives this order. -/
def sortByCreatedAtDesc (marketDatas : List MarketData) : List MarketData :=
  marketDatas.insertionSort (fun a b => a.CreatedAt ≥ b.CreatedAt)

/-- The slice after the two steps every indicator family starts with: the sort by creation
time, latest first, and the reversal in place (oldest first). -/
def chronological (marketDatas : List MarketData) : List MarketData :=
  (sortByCreatedAtDesc marketDatas).reverse

/-- A `techan.Candle` as the services fill it: the period `[Start, End)` and the prices. -/
structure Candle where
  Start : Time
  End : Time
  OpenPrice : ℚ
  MaxPrice : ℚ
  MinPrice : ℚ
  ClosePrice : ℚ
  Volume : ℚ
  deriving DecidableEq, Repr

/-- The candles a family hands to `series.AddCandle`, in the order of the slice. -/
def candles (marketDatas : List MarketData) : List Candle :=
  marketDatas.map (fun data =>
    { Start := data.Timestamp, End := data.Timestamp + Minute, OpenPrice := data.Open,
      MaxPrice := data.High, MinPrice := data.Low, ClosePrice := data.Close,
      Volume := data.Volume })

/-- The indicators of the library `github.com/sdcoffey/techan`, which is no part of the
repository. Each field is the value `Calculate(index)` returns for the indicator built, with
the windows given, on the series the candles were added to; its `big.Decimal` results are
exact rationals here. -/
structure Techan where
  MACDIndicator : List Candle → (shortwindow longwindow : Nat) → (index : Nat) → ℚ
  MACDSignal : List Candle → (shortwindow longwindow window : Nat) → (index : Nat) → ℚ
  RelativeStrengthIndexIndicator : List Candle → (timeframe : Nat) → (index : Nat) → ℚ
  SimpleMovingAverage : List Candle → (window : Nat) → (index : Nat) → ℚ
  AverageTrueRangeIndicator : List Candle → (window : Nat) → (index : Nat) → ℚ
  BollingerLowerBandIndicator : List Candle → (window : Nat) → (sigma : ℚ) → (index : Nat) → ℚ
  BollingerUpperBandIndicator : List Candle → (window : Nat) → (sigma : ℚ) → (index : Nat) → ℚ
  VolumeIndicator : List Candle → (index : Nat) → ℚ

/-- Modelled from the spec: the closes a band of the library is computed on, those of the
`window` candles `index - window + 1 .. index` of the series (fewer when the series starts
later). The library `github.com/sdcoffey/techan` that computes the bands is no part of the
repository. -/
def windowCloses (series : List Candle) (window index : Nat) : List ℚ :=
  ((series.take (index + 1)).drop (index + 1 - window)).map (fun candle => candle.ClosePrice)

/-- Modelled from the spec: the mean of the closes of a window (the middle band). -/
def windowMean (values : List ℚ) : ℚ := values.sum / (values.length : ℚ)

/-- Modelled from the spec: the variance of the closes of a window, the mean of the squared
distances to their mean; the standard deviation is its square root. -/
def windowVariance (values : List ℚ) : ℚ :=
  windowMean (values.map (fun value => (value - windowMean values) ^ 2))

/-- Modelled from the spec: the library `github.com/sdcoffey/techan` with the Bollinger bands
the spec describes: the lower band is the mean of the closes of the window minus `sigma`
standard deviations, the upper band the mean plus `sigma` standard deviations. `sqrt` is the
square root the library takes of the variance; the other indicators are those of `t`. -/
def bollingerTechan (sqrt : ℚ → ℚ) (t : Techan) : Techan :=
  { t with
    BollingerLowerBandIndicator := fun series window sigma index =>
      windowMean (windowCloses series window index) -
        sigma * sqrt (windowVariance (windowCloses series window index))
    BollingerUpperBandIndicator := fun series window sigma index =>
      windowMean (windowCloses series window index) +
        sigma * sqrt (windowVariance (windowCloses series window index)) }

/-- Go `CalculateMACD`. The second component is the caller's slice after the call: the sort
and the reversal work in place. `(*marketDatas)[len(*marketDatas)-1]` on an empty slice is a
panic. -/
def CalculateMACD (t : Techan) (marketDatas : List MarketData) :
    Outcome MarketData × List MarketData :=
  if marketDatas.length < 26 then (.fail .ErrInsufficientDataForMACDCalculation, marketDatas)
  else
    let marketDatas := chronological marketDatas
    let series := candles marketDatas
    let lastIndex := marketDatas.length - 1
    let macdValue := t.MACDIndicator series 12 26 lastIndex
    let signalValue := t.MACDSignal series 12 26 9 lastIndex
    let histogramValue := macdValue - signalValue
    match marketDatas.getLast? with
    | none => (.panic, marketDatas)
    | some latestData =>
      let latestData := if macdValue ≠ 0 then { latestData with MACD := some macdValue }
        else latestData
      let latestData := if signalValue ≠ 0 then
        { latestData with MACDSignal := some signalValue } else latestData
      let latestData := if histogramValue ≠ 0 then
        { latestData with MACDHist := some histogramValue } else latestData
      (.ok latestData, marketDatas)

/-- Go `CalculateRSI`. -/
def CalculateRSI (t : Techan) (marketDatas : List MarketData) :
    Outcome MarketData × List MarketData :=
  if marketDatas.length < 24 then (.fail .ErrInsufficientDataForRSI, marketDatas)
  else
    let marketDatas := chronological marketDatas
    let series := candles marketDatas
    let lastIndex := marketDatas.length - 1
    let rsi6Value := t.RelativeStrengthIndexIndicator series 6 lastIndex
    let rsi12Value := t.RelativeStrengthIndexIndicator series 12 lastIndex
    let rsi24Value := t.RelativeStrengthIndexIndicator series 24 lastIndex
    match marketDatas.getLast? with
    | none => (.panic, marketDatas)
    | some latestData =>
      let latestData := if rsi6Value ≠ 0 then { latestData with RSI6 := some rsi6Value }
        else latestData
      let latestData := if rsi12Value ≠ 0 then { latestData with RSI12 := some rsi12Value }
        else latestData
      let latestData := if rsi24Value ≠ 0 then { latestData with RSI24 := some rsi24Value }
        else latestData
      (.ok latestData, marketDatas)

/-- Go `CalculateSMA`. -/
def CalculateSMA (t : Techan) (marketDatas : List MarketData) :
    Outcome MarketData × List MarketData :=
  if marketDatas.length < 200 then (.fail .ErrInsufficientDataForSMA, marketDatas)
  else
    let marketDatas := chronological marketDatas
    let series := candles marketDatas
    let lastIndex := marketDatas.length - 1
    let sma20Value := t.SimpleMovingAverage series 20 lastIndex
    let sma50Value := t.SimpleMovingAverage series 50 lastIndex
    let sma200Value := t.SimpleMovingAverage series 200 lastIndex
    match marketDatas.getLast? with
    | none => (.panic, marketDatas)
    | some latestData =>
      let latestData := if sma20Value ≠ 0 then { latestData with SMA20 := some sma20Value }
        else latestData
      let latestData := if sma50Value ≠ 0 then { latestData with SMA50 := some sma50Value }
        else latestData
      let latestData := if sma200Value ≠ 0 then { latestData with SMA200 := some sma200Value }
        else latestData
      (.ok latestData, marketDatas)

/-- Go `CalculateATR`. -/
def CalculateATR (t : Techan) (marketDatas : List MarketData) :
    Outcome MarketData × List MarketData :=
  if marketDatas.length < 14 then (.fail .ErrInsufficientDataForATR, marketDatas)
  else
    let marketDatas := chronological marketDatas
    let series := candles marketDatas
    let lastIndex := marketDatas.length - 1
    let atrValue := t.AverageTrueRangeIndicator series 14 lastIndex
    match marketDatas.getLast? with
    | none => (.panic, marketDatas)
    | some latestData =>
      let latestData := if atrValue ≠ 0 then { latestData with ATR := some atrValue }
        else latestData
      (.ok latestData, marketDatas)

/-- Go `CalculateBollingerBands`: the four fields are written together, when the lower band
is not zero. -/
def CalculateBollingerBands (t : Techan) (marketDatas : List MarketData) :
    Outcome MarketData × List MarketData :=
  if marketDatas.length < 20 then (.fail .ErrInsufficientDataForBollingerBands, marketDatas)
  else
    let marketDatas := chronological marketDatas
    let series := candles marketDatas
    let lastIndex := marketDatas.length - 1
    let lowerBollingerBandsValue := t.BollingerLowerBandIndicator series 20 2 lastIndex
    let upperBollingerBandsValue := t.BollingerUpperBandIndicator series 20 2 lastIndex
    match marketDatas.getLast? with
    | none => (.panic, marketDatas)
    | some latestData =>
      let latestData := if lowerBollingerBandsValue ≠ 0 then
        { latestData with
          BollingerBands := some ((lowerBollingerBandsValue + upperBollingerBandsValue) / 2)
          BollingerBandsUpper := some upperBollingerBandsValue
          BollingerBandsLower := some lowerBollingerBandsValue
          BollingerBandsWidth := some (upperBollingerBandsValue - lowerBollingerBandsValue) }
        else latestData
      (.ok latestData, marketDatas)

/-- Go `CalculateOBV`. -/
def CalculateOBV (t : Techan) (marketDatas : List MarketData) :
    Outcome MarketData × List MarketData :=
  if marketDatas.length < 14 then (.fail .ErrInsufficientDataForOBV, marketDatas)
  else
    let marketDatas := chronological marketDatas
    let series := candles marketDatas
    let obvValue := t.VolumeIndicator series (marketDatas.length - 1)
    match marketDatas.getLast? with
    | none => (.panic, marketDatas)
    | some latestData =>
      let latestData := if obvValue ≠ 0 then { latestData with OBV := some obvValue }
        else latestData
      (.ok latestData, marketDatas)

/-- Entries 1, 2, .. of the array `trueRanges` the loop of `CalculateADX` fills:
max(high - low, |high - previous close|, |low - previous close|). -/
def trueRangesFrom : List MarketData → List ℚ
  | previous :: current :: rest =>
    let tr1 := current.High - current.Low
    let tr2 := |current.High - previous.Close|
    let tr3 := |current.Low - previous.Close|
    max tr1 (max tr2 tr3) :: trueRangesFrom (current :: rest)
  | _ => []

/-- Entries 1, 2, .. of the array `directionalMoves` the loop of `CalculateADX` fills. -/
def directionalMovesFrom : List MarketData → List ℚ
  | previous :: current :: rest =>
    let upMove := current.High - previous.High
    let downMove := previous.Low - current.Low
    (if upMove > downMove ∧ upMove > 0 then upMove
      else if downMove > upMove ∧ downMove > 0 then 0
      else 0) :: directionalMovesFrom (current :: rest)
  | _ => []

/-- Entries 1, 2, .. of the array `directionalMovesMinus` the loop of `CalculateADX` fills. -/
def directionalMovesMinusFrom : List MarketData → List ℚ
  | previous :: current :: rest =>
    let upMove := current.High - previous.High
    let downMove := previous.Low - current.Low
    (if upMove > downMove ∧ upMove > 0 then 0
      else if downMove > upMove ∧ downMove > 0 then downMove
      else 0) :: directionalMovesMinusFrom (current :: rest)
  | _ => []

/-- Go `calculateEMA`. -/
def calculateEMA (values : List ℚ) (period : Int) : ℚ :=
  match values with
  | [] => 0
  | first :: rest =>
    let multiplier : ℚ := 2 / ((period + 1 : Int) : ℚ)
    rest.foldl (fun ema value => value * multiplier + ema * (1 - multiplier)) first

/-- Go `CalculateADX`. The three arrays have entry 0 equal to 0 and are read from entry 1
on; the four fields are written whatever their values. -/
def CalculateADX (marketDatas : List MarketData) : Outcome MarketData × List MarketData :=
  if marketDatas.length < 14 then (.fail .ErrInsufficientDataForADX, marketDatas)
  else
    let marketDatas := chronological marketDatas
    let period : Int := 14
    let trueRanges := 0 :: trueRangesFrom marketDatas
    let directionalMoves := 0 :: directionalMovesFrom marketDatas
    let directionalMovesMinus := 0 :: directionalMovesMinusFrom marketDatas
    let atr := calculateEMA (trueRanges.drop 1) period
    let plusDI := calculateEMA (directionalMoves.drop 1) period
    let minusDI := calculateEMA (directionalMovesMinus.drop 1) period
    let plusDIPercent := plusDI / atr * 100
    let minusDIPercent := minusDI / atr * 100
    let dx := |plusDIPercent - minusDIPercent| / (plusDIPercent + minusDIPercent) * 100
    let adx := dx
    match marketDatas.getLast? with
    | none => (.panic, marketDatas)
    | some latestData =>
      (.ok { latestData with
          ADX := some adx
          ADXIndex := some adx
          ADXPositive := some plusDIPercent
          ADXNegative := some minusDIPercent }, marketDatas)

/-- Go `CalculateGeneralTechnicalIndicators`. Every family works on the caller's slice; the
last step sorts it by creation time, latest first, and reads its last element. -/
def CalculateGeneralTechnicalIndicators (t : Techan) (marketDatas : List MarketData) :
    Outcome MarketData × List MarketData :=
  match CalculateMACD t marketDatas with
  | (.fail e, marketDatas) => (.fail e, marketDatas)
  | (.panic, marketDatas) => (.panic, marketDatas)
  | (.ok macd, marketDatas) =>
  match CalculateRSI t marketDatas with
  | (.fail e, marketDatas) => (.fail e, marketDatas)
  | (.panic, marketDatas) => (.panic, marketDatas)
  | (.ok rsi, marketDatas) =>
  match CalculateSMA t marketDatas with
  | (.fail e, marketDatas) => (.fail e, marketDatas)
  | (.panic, marketDatas) => (.panic, marketDatas)
  | (.ok sma, marketDatas) =>
  match CalculateATR t marketDatas with
  | (.fail e, marketDatas) => (.fail e, marketDatas)
  | (.panic, marketDatas) => (.panic, marketDatas)
  | (.ok atr, marketDatas) =>
  match CalculateBollingerBands t marketDatas with
  | (.fail e, marketDatas) => (.fail e, marketDatas)
  | (.panic, marketDatas) => (.panic, marketDatas)
  | (.ok bollingerBands, marketDatas) =>
  match CalculateOBV t marketDatas with
  | (.fail e, marketDatas) => (.fail e, marketDatas)
  | (.panic, marketDatas) => (.panic, marketDatas)
  | (.ok obv, marketDatas) =>
  match CalculateADX marketDatas with
  | (.fail e, marketDatas) => (.fail e, marketDatas)
  | (.panic, marketDatas) => (.panic, marketDatas)
  | (.ok adx, marketDatas) =>
    let marketDatas := sortByCreatedAtDesc marketDatas
    match marketDatas.getLast? with
    | none => (.panic, marketDatas)
    | some latestMarketData =>
      (.ok { latestMarketData with
          MACD := macd.MACD
          MACDSignal := macd.MACDSignal
          MACDHist := macd.MACDHist
          RSI6 := rsi.RSI6
          RSI12 := rsi.RSI12
          RSI24 := rsi.RSI24
          SMA20 := sma.SMA20
          SMA50 := sma.SMA50
          SMA200 := sma.SMA200
          ATR := atr.ATR
          BollingerBands := bollingerBands.BollingerBands
          BollingerBandsUpper := bollingerBands.BollingerBandsUpper
          BollingerBandsLower := bollingerBands.BollingerBandsLower
          BollingerBandsWidth := bollingerBands.BollingerBandsWidth
          OBV := obv.OBV
          ADX := adx.ADX
          ADXIndex := adx.ADXIndex
          ADXPositive := adx.ADXPositive
          ADXNegative := adx.ADXNegative }, marketDatas)

/-! ## The values the indicator families write -/

/-- The write of one field in `CalculateMACD`, `CalculateRSI`, `CalculateSMA`, `CalculateATR`
and `CalculateOBV`: `if !value.IsZero() { latestData.Field = &valueFloat }`. -/
def writeNonZero (value : ℚ) (field : Option ℚ) : Option ℚ :=
  if value ≠ 0 then some value else field

/-- The local `atr` of `CalculateADX`, on the slice after the sort and the reversal. -/
def smoothedTrueRange (marketDatas : List MarketData) : ℚ :=
  calculateEMA (trueRangesFrom marketDatas) 14

/-- The local `plusDIPercent` of `CalculateADX`, on the slice after the sort and the
reversal. -/
def plusDIPercent (marketDatas : List MarketData) : ℚ :=
  calculateEMA (directionalMovesFrom marketDatas) 14 / smoothedTrueRange marketDatas * 100

/-- The local `minusDIPercent` of `CalculateADX`, on the slice after the sort and the
reversal. -/
def minusDIPercent (marketDatas : List MarketData) : ℚ :=
  calculateEMA (directionalMovesMinusFrom marketDatas) 14 / smoothedTrueRange marketDatas * 100

/-- The local `dx` of `CalculateADX`, which is its `adx` as well. -/
def directionalIndex (marketDatas : List MarketData) : ℚ :=
  |plusDIPercent marketDatas - minusDIPercent marketDatas| /
    (plusDIPercent marketDatas + minusDIPercent marketDatas) * 100

/-! ## Opportunity score (`internal/app/markets/default_service.go`) -/

/-- Go `CalculateMACDScore`. -/
def CalculateMACDScore (macd signal histogram : ℚ) : ℚ :=
  let score : ℚ := 0
  let score := if macd > signal then score + 30 else score + 10
  let score := if histogram > 0 then (if histogram < 0.1 then score + 0 else score + 20)
    else score + 0
  let macdStrength := |macd|
  let score := if macdStrength > 0.5 then score + 25
    else if macdStrength > 0.2 then score + 15
    else score + 0
  score / 100

/-- Go `CalculateRSIScore`. -/
def CalculateRSIScore (rsi6 rsi12 rsi24 : ℚ) : ℚ :=
  let score : ℚ := 0
  let score := if rsi6 < 30 ∧ rsi12 < 35 ∧ rsi24 < 40 then score + 50
    else if rsi6 > 70 ∧ rsi12 > 65 ∧ rsi24 > 60 then score + 0
    else if rsi6 < 40 ∧ rsi12 < 45 then score + 25
    else if rsi6 > 60 ∧ rsi12 > 55 then score + 10
    else score + 20
  let score := if rsi6 > rsi12 ∧ rsi12 > rsi24 then score + 30
    else if rsi6 < rsi12 ∧ rsi12 < rsi24 then score + 10
    else score + 20
  score / 100

/-- Go `CalculateSMAScore`; `closePrice` is the parameter `close`. -/
def CalculateSMAScore (closePrice sma20 sma50 sma200 : ℚ) : ℚ :=
  let score : ℚ := 0
  let score := if closePrice > sma20 ∧ closePrice > sma50 ∧ closePrice > sma200 then score + 40
    else if closePrice > sma20 ∧ closePrice > sma50 then score + 30
    else if closePrice > sma20 then score + 20
    else if closePrice < sma20 ∧ closePrice < sma50 ∧ closePrice < sma200 then score + 5
    else score + 15
  let score := if sma20 > sma50 ∧ sma50 > sma200 then score + 30
    else if sma20 < sma50 ∧ sma50 < sma200 then score + 10
    else score + 20
  let avgDistance := (|closePrice - sma20| + |closePrice - sma50| + |closePrice - sma200|) / 3
  let normalizedDistance := avgDistance / closePrice
  let score := if normalizedDistance > 0.05 then score + 20
    else if normalizedDistance > 0.02 then score + 10
    else score + 5
  score / 100

/-- Go `CalculateBollingerBandsScore`; `closePrice` is the parameter `close`. -/
def CalculateBollingerBandsScore (closePrice upper lower width : ℚ) : ℚ :=
  let score : ℚ := 0
  let bandRange := upper - lower
  let score := if bandRange > 0 then
      let position := (closePrice - lower) / bandRange
      if position < 0.2 then score + 40
      else if position > 0.8 then score + 10
      else if position > 0.4 ∧ position < 0.6 then score + 25
      else score + 15
    else score
  let normalizedWidth := width / closePrice
  let score := if normalizedWidth > 0.05 then score + 30
    else if normalizedWidth > 0.03 then score + 20
    else score + 10
  let score := if normalizedWidth < 0.02 then score + 20 else score
  score / 100

/-- Go `CalculateVolumeScore`. -/
def CalculateVolumeScore (obv volume : ℚ) : ℚ :=
  let score : ℚ := 0
  let score := if obv > 0 then score + 30 else score + 10
  let score := if volume > 1000 then score + 25
    else if volume > 500 then score + 15
    else score + 5
  let score := score + 20
  score / 100

/-- Go `CalculateTrendScore`. -/
def CalculateTrendScore (adx adxPositive adxNegative : ℚ) : ℚ :=
  let score : ℚ := 0
  let score := if adx > 25 then score + 40
    else if adx > 20 then score + 25
    else score + 10
  let score := if adxPositive > adxNegative then score + 30 else score + 10
  let trendStrength := |adxPositive - adxNegative|
  let score := if trendStrength > 10 then score + 20
    else if trendStrength > 5 then score + 15
    else score + 10
  score / 100

/-- Go `CalculateVolatilityScore`; `closePrice` is the parameter `close`. -/
def CalculateVolatilityScore (atr closePrice : ℚ) : ℚ :=
  let score : ℚ := 0
  let normalizedATR := atr / closePrice
  let score := if normalizedATR > 0.03 then score + 35
    else if normalizedATR > 0.02 then score + 25
    else if normalizedATR > 0.01 then score + 15
    else score + 5
  let score := if normalizedATR > 0.04 then score + 25
    else if normalizedATR > 0.025 then score + 20
    else score + 15
  let score := score + 20
  score / 100

/-- The locals `score` and `totalWeight` of `CalculateOpportunityScore` after the seven
blocks: each block adds its sub-score times its weight, and its weight, when all the
indicator fields it reads are present. -/
def weightedScore (marketData : MarketData) : ℚ × ℚ :=
  let score : ℚ := 0
  let totalWeight : ℚ := 0
  let (score, totalWeight) :=
    match marketData.MACD, marketData.MACDSignal, marketData.MACDHist with
    | some macd, some signal, some histogram =>
      (score + CalculateMACDScore macd signal histogram * 0.20, totalWeight + 0.20)
    | _, _, _ => (score, totalWeight)
  let (score, totalWeight) :=
    match marketData.RSI6, marketData.RSI12, marketData.RSI24 with
    | some rsi6, some rsi12, some rsi24 =>
      (score + CalculateRSIScore rsi6 rsi12 rsi24 * 0.15, totalWeight + 0.15)
    | _, _, _ => (score, totalWeight)
  let (score, totalWeight) :=
    match marketData.SMA20, marketData.SMA50, marketData.SMA200 with
    | some sma20, some sma50, some sma200 =>
      (score + CalculateSMAScore marketData.Close sma20 sma50 sma200 * 0.20, totalWeight + 0.20)
    | _, _, _ => (score, totalWeight)
  let (score, totalWeight) :=
    match marketData.BollingerBandsUpper, marketData.BollingerBandsLower,
        marketData.BollingerBandsWidth with
    | some upper, some lower, some width =>
      (score + CalculateBollingerBandsScore marketData.Close upper lower width * 0.15,
        totalWeight + 0.15)
    | _, _, _ => (score, totalWeight)
  let (score, totalWeight) :=
    match marketData.OBV with
    | some obv => (score + CalculateVolumeScore obv marketData.Volume * 0.10, totalWeight + 0.10)
    | none => (score, totalWeight)
  let (score, totalWeight) :=
    match marketData.ADX, marketData.ADXPositive, marketData.ADXNegative with
    | some adx, some adxPositive, some adxNegative =>
      (score + CalculateTrendScore adx adxPositive adxNegative * 0.10, totalWeight + 0.10)
    | _, _, _ => (score, totalWeight)
  let (score, totalWeight) :=
    match marketData.ATR with
    | some atr => (score + CalculateVolatilityScore atr marketData.Close * 0.10, totalWeight + 0.10)
    | none => (score, totalWeight)
  (score, totalWeight)

/-- The local `score` of `CalculateOpportunityScore` when the function returns: normalised
by the weights applied, times 100, and clamped. -/
def opportunityScore (marketData : MarketData) : ℚ :=
  let score := (weightedScore marketData).1
  let totalWeight := (weightedScore marketData).2
  let score := if totalWeight > 0 then score / totalWeight * 100 else score
  if score < 0 then 0 else if score > 100 then 100 else score

/-- Go `CalculateOpportunityScore`. The function computes the local `score` and returns
`result := *marketData`, a copy of its argument: no statement assigns the score to a field
of the result. -/
def CalculateOpportunityScore (marketData : MarketData) : Except Err MarketData :=
  let _score := opportunityScore marketData
  let result := marketData
  .ok result

/-! ## Trading preference validation (`internal/domain/entities/trade.go`) -/

/-- Go `(*TradingPreference).Validate`. -/
def TradingPreference.Validate (tp : TradingPreference) : Except Err Unit :=
  if !SliceContains TradingPreferenceAlgorithms tp.Algorithm then .error .ErrInvalidAlgorithm
  else if !SliceContains TradingPreferenceRiskLevels tp.RiskLevel then .error .ErrInvalidRiskLevel
  else if tp.Watchlist.any (fun symbol => !HasSuffix symbol "USDT") then
    .error .ErrInvalidWatchlistElement
  else .ok ()

/-! ## Example worlds of the market data pipeline -/

/-- Example collaborators: the clock stands at minute 2000, the stream accepts every
message and the database runs every statement; the three strings stand for the constants
and the configured subject. -/
def exMarketEnv : MarketEnv :=
  { now := 2000 * Minute,
    MarketDataEventDomain := "market_data",
    PartialMarketDataEvent := "partial_market_data",
    NatsMarketDataDomainEventsSubject := "endurance.events.market_data",
    publishAsync := fun _ _ _ => .ok (),
    databaseError := fun _ => none }

/-- The example collaborators with a database that fails on every `Find`. -/
def exFailingMarketEnv : MarketEnv :=
  { exMarketEnv with
    databaseError := fun call =>
      match call with
      | .Find _ => some ⟨"driver: bad connection"⟩
      | _ => none }

/-- A candle-pushed event for `symbol` with prices 101, 103, 100, 102 and volume 7. -/
def exCandleEvent (id : UUID) (symbol : String) (dataTimestamp : Time) (candleClose : Bool) :
    MarketDataEvent :=
  { ID := id, Domain := "market_data", EventType := "market_data_pushed",
    Timestamp := dataTimestamp, DatapointID := 0, Symbol := symbol,
    DataTimestamp := dataTimestamp, Open := 101, High := 103, Low := 100, Close := 102,
    Volume := 7, CandleClose := candleClose }

/-- A stored BTCUSDT point of minute 1000, with identifier and correlation id 100. -/
def exStoredPoint : MarketDataDTO :=
  MarketDataDTO.FromEntity (exMarketData 100 "BTCUSDT" (1000 * Minute) none)

/-- A second stored BTCUSDT point of minute 1000, ten seconds in, with identifier and
correlation id 101. -/
def exSecondStoredPoint : MarketDataDTO :=
  MarketDataDTO.FromEntity
    (exMarketData 101 "BTCUSDT" (1000 * Minute + 10000000000) none)

def exMarketState (rows : List MarketDataDTO) : MarketState :=
  { marketDatas := rows, published := [], nextID := 5000 }

/-- The BTCUSDT point number `i` of an example window: identifier `i`, candle of minute
`1000 + i`, created at that minute, open equal to close, volume 1, no indicator. -/
def exPoint (i : Nat) (high low closePrice : ℚ) : MarketData :=
  { exMarketData i "BTCUSDT" ((1000 + (i : Int)) * Minute) none with
    Open := closePrice
    High := high
    Low := low
    Close := closePrice }

/-- Rising market: candle `i` spans `[90 + i, 100 + i]` and closes at `95 + i`. -/
def exRisingWindow (n : Nat) : List MarketData :=
  (List.range n).map (fun i => exPoint i (100 + (i : ℚ)) (90 + (i : ℚ)) (95 + (i : ℚ)))

/-- Falling market: candle `i` spans `[90 - i, 100 - i]` and closes at `95 - i`. -/
def exFallingWindow (n : Nat) : List MarketData :=
  (List.range n).map (fun i => exPoint i (100 - (i : ℚ)) (90 - (i : ℚ)) (95 - (i : ℚ)))

/-- Candles that pass `Validate` but close above their high: candle `i` has high and low
`100 + i` and close `100 + i + 1/2`. -/
def exCloseAboveHighWindow (n : Nat) : List MarketData :=
  (List.range n).map (fun i =>
    exPoint i (100 + (i : ℚ)) (100 + (i : ℚ)) (100 + (i : ℚ) + 1 / 2))

/-- Example library: every indicator it computes is 0, except the volume indicator, which
reads the volume of the candle at the index. -/
def exTechan : Techan :=
  { MACDIndicator := fun _ _ _ _ => 0,
    MACDSignal := fun _ _ _ _ _ => 0,
    RelativeStrengthIndexIndicator := fun _ _ _ => 0,
    SimpleMovingAverage := fun _ _ _ => 0,
    AverageTrueRangeIndicator := fun _ _ _ => 0,
    BollingerLowerBandIndicator := fun _ _ _ _ => 0,
    BollingerUpperBandIndicator := fun _ _ _ _ => 0,
    VolumeIndicator := fun series index => ((series.get? index).map (fun c => c.Volume)).getD 0 }

/-- A valid BTCUSDT point thirty seconds into minute 1000, with identifier and correlation
id 7, prices 102, 103, 100, 102 and volume 1. -/
def exIncomingPoint : MarketData :=
  { exPoint 0 103 100 102 with
    ID := 7
    CorrelationID := 7
    Timestamp := 1000 * Minute + 30000000000 }

/-- The closed BTCUSDT candle event 777 of minute 1000, thirty seconds in. -/
def exClosedEvent : MarketDataEvent :=
  exCandleEvent 777 "BTCUSDT" (1000 * Minute + 30000000000) true

/-! ## Example worlds of the scoring and ranking claims -/

/-- The square root of a natural number that is a square; 0 when it is none. -/
def exNatSqrt (n : Nat) : Nat := ((List.range (n + 1)).find? (fun k => k * k = n)).getD 0

/-- The square root of a rational whose numerator and denominator are squares. -/
def exSqrt (q : ℚ) : ℚ := (exNatSqrt q.num.toNat : ℚ) / (exNatSqrt q.den : ℚ)

/-- Example library: the Bollinger bands of `bollingerTechan` with the square root `exSqrt`;
the other indicators are those of `exTechan`. -/
def exBollingerTechan : Techan := bollingerTechan exSqrt exTechan

/-- Flat market: every candle has open, high, low and close 100. -/
def exFlatWindow (n : Nat) : List MarketData :=
  (List.range n).map (fun i => exPoint i 100 100 100)

/-- Market that closes at 99 on even and at 101 on odd minutes, between 98 and 102. -/
def exAlternatingWindow (n : Nat) : List MarketData :=
  (List.range n).map (fun i => exPoint i 102 98 (if i % 2 = 0 then 99 else 101))

/-- Market that closes at 1 on even and at 3 on odd minutes, between 0 and 4. -/
def exLowWindow (n : Nat) : List MarketData :=
  (List.range n).map (fun i => exPoint i 4 0 (if i % 2 = 0 then 1 else 3))

/-- A BTCUSDT point of minute 990, created then, with score 9/10. -/
def exStalePoint : MarketData := exMarketData 100 "BTCUSDT" (990 * Minute) (some (9 / 10))

/-- A BTCUSDT point of minute 999, created then, with score 1/2. -/
def exFreshPoint : MarketData := exMarketData 101 "BTCUSDT" (999 * Minute) (some (1 / 2))

/-- The collaborators of `exEnv` at minute 1000 with the market data repository of the
source over the rows `rows`: `GetSymbolScore` hands it the filter on the symbol, ordered by
`created_at desc`, page 1, page size 1. -/
def exRepositoryEnv (rows : List MarketDataDTO) : Env :=
  { exEnv none none 100 1 true with
    marketDataGetAll := fun symbol =>
      MarketDataRepository.GetAll exMarketEnv (exMarketState rows)
        (NewComplexFilter [.symbol symbol] "created_at" "desc" 1 1) }

/-- The collaborators of `exEnv` at minute 1000 with a market data repository that answers
the points `answer` for every symbol. -/
def exAnswerEnv (answer : List MarketData) : Env :=
  { exEnv none none 100 1 true with marketDataGetAll := fun _ => .ok answer }

/-- The point of the helper `createMarketDataWithAllIndicators` of the tests: BTCUSDT at
100, 110, 90, 105 with volume 1000 and every indicator the score reads, no score. -/
def exIndicatorPoint : MarketData :=
  { exMarketData 300 "BTCUSDT" (1000 * Minute) none with
    Open := 100
    High := 110
    Low := 90
    Close := 105
    Volume := 1000
    MACD := some 0.5
    MACDSignal := some 0.3
    MACDHist := some 0.2
    RSI6 := some 45
    RSI12 := some 50
    RSI24 := some 55
    SMA20 := some 102
    SMA50 := some 100
    SMA200 := some 98
    ATR := some 2.5
    BollingerBandsUpper := some 108
    BollingerBandsLower := some 92
    BollingerBandsWidth := some 16
    OBV := some 1000
    ADX := some 25
    ADXPositive := some 20
    ADXNegative := some 10 }

/-- The low-risk position of user 1 in BTCUSDT bought at 94, with an empty watchlist. -/
def exEmptyWatchlistPosition : TradingPositionAggregate :=
  { Holding := exHolding 94,
    TradingPreference := { exPreference true true "low" with Watchlist := [] } }

/-! # Theorems -/

/-! ## Frame lemmas: what each service leaves untouched -/

@[simp] theorem logCall_orders (st : State) (c : ExchangeCall) : (st.logCall c).orders = st.orders := rfl

@[simp] theorem logCall_holdings (st : State) (c : ExchangeCall) :
    (st.logCall c).holdings = st.holdings := rfl

@[simp] theorem logCall_accepted (st : State) (c : ExchangeCall) :
    (st.logCall c).accepted = st.accepted := rfl

@[simp] theorem logCall_nextID (st : State) (c : ExchangeCall) : (st.logCall c).nextID = st.nextID := rfl

@[simp] theorem logCall_preferences (st : State) (c : ExchangeCall) :
    (st.logCall c).preferences = st.preferences := rfl

@[simp] theorem logCall_notifications (st : State) (c : ExchangeCall) :
    (st.logCall c).notifications = st.notifications := rfl

@[simp] theorem newUUID_fst (st : State) : st.newUUID.1 = st.nextID := rfl

@[simp] theorem newUUID_orders (st : State) : st.newUUID.2.orders = st.orders := rfl

@[simp] theorem newUUID_holdings (st : State) : st.newUUID.2.holdings = st.holdings := rfl

@[simp] theorem newUUID_accepted (st : State) : st.newUUID.2.accepted = st.accepted := rfl

@[simp] theorem newUUID_notifications (st : State) :
    st.newUUID.2.notifications = st.notifications := rfl

@[simp] theorem newUUID_nextID (st : State) : st.newUUID.2.nextID = st.nextID + 1 := rfl

@[simp] theorem HoldingService_Update_orders (env : Env) (st : State) (h : Holding) :
    (HoldingService.Update env st h).2.orders = st.orders := by
  unfold HoldingService.Update HoldingRepository.Update
  repeat' split
  all_goals rfl

@[simp] theorem HoldingService_Update_accepted (env : Env) (st : State) (h : Holding) :
    (HoldingService.Update env st h).2.accepted = st.accepted := by
  unfold HoldingService.Update HoldingRepository.Update
  repeat' split
  all_goals rfl

@[simp] theorem HoldingService_Update_nextID (env : Env) (st : State) (h : Holding) :
    (HoldingService.Update env st h).2.nextID = st.nextID := by
  unfold HoldingService.Update HoldingRepository.Update
  repeat' split
  all_goals rfl

@[simp] theorem HoldingService_Create_orders (env : Env) (st : State) (h : Holding) :
    (HoldingService.Create env st h).2.orders = st.orders := by
  unfold HoldingService.Create HoldingRepository.Create
  repeat' split
  all_goals rfl

@[simp] theorem HoldingService_Create_accepted (env : Env) (st : State) (h : Holding) :
    (HoldingService.Create env st h).2.accepted = st.accepted := by
  unfold HoldingService.Create HoldingRepository.Create
  repeat' split
  all_goals rfl

@[simp] theorem OrderService_Update_accepted (env : Env) (st : State) (o : Order) :
    (OrderService.Update env st o).2.accepted = st.accepted := by
  unfold OrderService.Update OrderRepository.Update
  repeat' split
  all_goals rfl

@[simp] theorem OrderService_Update_holdings (env : Env) (st : State) (o : Order) :
    (OrderService.Update env st o).2.holdings = st.holdings := by
  unfold OrderService.Update OrderRepository.Update
  repeat' split
  all_goals rfl

@[simp] theorem Send_accepted (st : State) (n : Notification) :
    (NotificationService.Send st n).accepted = st.accepted := rfl

@[simp] theorem Send_orders (st : State) (n : Notification) :
    (NotificationService.Send st n).orders = st.orders := rfl

@[simp] theorem Send_holdings (st : State) (n : Notification) :
    (NotificationService.Send st n).holdings = st.holdings := rfl

/-- Marking a valid order Filled keeps it valid. -/
theorem Order_Validate_filled (o : Order) (h : o.Validate = .ok ()) :
    ({ o with Status := OrderStatusFilled } : Order).Validate = .ok () := by
  unfold Order.Validate at h ⊢
  have hs : SliceContains OrderStatuses OrderStatusFilled = true := by decide
  simp only [hs]
  split_ifs at h ⊢ <;> simp_all

/-- `OrderService.Update` on an order that is the last row and whose identifier no earlier
row carries overwrites exactly that row. -/
theorem OrderService_Update_last (env : Env) (st : State) (l : List Order) (order entity : Order)
    (hst : st.orders = l ++ [order]) (hfresh : ∀ x ∈ l, x.ID ≠ order.ID)
    (hid : entity.ID = order.ID) (hu : order.UserID = env.user.ID)
    (hue : entity.UserID = env.user.ID) (hv : entity.Validate = .ok ()) :
    (OrderService.Update env st entity).2.orders = l ++ [entity] := by
  have hfind : st.orders.find? (fun o => o.ID = entity.ID) = some order := by
    rw [hst, List.find?_append, hid]
    have : l.find? (fun o => decide (o.ID = order.ID)) = none := by
      rw [List.find?_eq_none]
      intro x hx
      simpa using hfresh x hx
    simp [this]
  have hany : st.orders.any (fun x => x.ID = entity.ID) = true := by
    rw [hst]
    simp [hid]
  have hmap : l.map (fun x => if x.ID = order.ID then entity else x) = l := by
    conv_rhs => rw [← List.map_id l]
    apply List.map_congr_left
    intro x hx
    simp [hfresh x hx]
  simp [OrderService.Update, OrderService.GetByID, OrderRepository.GetByID, hfind,
    IsResourceOwner, hu, hue, hv, OrderRepository.Update, hany]
  rw [hst]
  simp [hmap, hid]

/-! ## The asset name of a holding -/

/-- What `cutBefore` keeps is an initial segment of its input. -/
theorem cutBefore_initial_segment (sep : List Char) : ∀ s : List Char, cutBefore sep s <+: s
  | [] => by simp [cutBefore]
  | c :: t => by
    unfold cutBefore
    split_ifs with h
    · exact List.nil_prefix
    · exact (List.prefix_cons_inj c).mpr (cutBefore_initial_segment sep t)

/-- What `cutBefore` keeps never ends in the separator. -/
theorem cutBefore_not_suffix (sep : List Char) (hsep : sep ≠ []) :
    ∀ s : List Char, ¬ sep <:+ cutBefore sep s
  | [] => by
    intro h
    simp only [cutBefore, List.suffix_nil] at h
    exact hsep h
  | c :: t => by
    unfold cutBefore
    split_ifs with h
    · intro hs
      exact hsep (List.suffix_nil.mp hs)
    · intro hs
      rcases List.suffix_cons_iff.mp hs with heq | hsuf
      · apply h
        rw [List.isPrefixOf_iff_prefix, heq]
        exact (List.prefix_cons_inj c).mpr (cutBefore_initial_segment sep t)
      · exact cutBefore_not_suffix sep hsep t hsuf

/-- The asset name of a holding never ends in "USDT". -/
theorem GetAsset_not_HasSuffix (h : Holding) : HasSuffix h.GetAsset "USDT" = false := by
  unfold HasSuffix Holding.GetAsset
  rw [Bool.eq_false_iff]
  intro hs
  rw [List.isSuffixOf_iff_suffix] at hs
  exact cutBefore_not_suffix "USDT".data (by decide) h.Symbol.data hs

/-- A holding whose symbol is the asset name of another holding never validates. -/
theorem Validate_GetAsset_fails (h : Holding) (id : UUID) (now : Time) (userID : UUID)
    (quantity entryPrice exitPrice profit entryScore : ℚ) (status : String) :
    (NewHolding id now userID h.GetAsset quantity entryPrice exitPrice profit entryScore
      status).Validate ≠ .ok () := by
  unfold Holding.Validate NewHolding
  simp only [GetAsset_not_HasSuffix]
  split_ifs <;> simp_all

/-- `HoldingService.Create` rejects every holding named after an asset. -/
theorem HoldingService_Create_GetAsset (env : Env) (st : State) (h : Holding) (id : UUID)
    (now : Time) (userID : UUID) (quantity entryPrice exitPrice profit entryScore : ℚ)
    (status : String) :
    (HoldingService.Create env st (NewHolding id now userID h.GetAsset quantity entryPrice
      exitPrice profit entryScore status)).2 = st := by
  have hv := Validate_GetAsset_fails h id now userID quantity entryPrice exitPrice profit
    entryScore status
  unfold HoldingService.Create
  split
  · rfl
  · rename_i heq
    exact absurd heq hv

/-- Holdings after `HoldingService.Update`: every row is an old row or the entity written. -/
theorem HoldingService_Update_mem (env : Env) (st : State) (entity : Holding) :
    ∀ x ∈ (HoldingService.Update env st entity).2.holdings, x ∈ st.holdings ∨ x = entity := by
  intro x hx
  unfold HoldingService.Update HoldingRepository.Update at hx
  repeat' split at hx
  all_goals first
    | exact Or.inl hx
    | (simp only [List.mem_map] at hx
       obtain ⟨y, hy, rfl⟩ := hx
       split_ifs
       · exact Or.inr rfl
       · exact Or.inl hy)
    | (simp only [List.mem_append, List.mem_singleton] at hx
       exact hx)

/-- `HoldingService.Update` never changes the number of holdings: it writes only after
`GetByID` found the row. -/
theorem HoldingService_Update_length (env : Env) (st : State) (entity : Holding) :
    (HoldingService.Update env st entity).2.holdings.length = st.holdings.length := by
  unfold HoldingService.Update
  cases hg : HoldingService.GetByID env st entity.ID with
  | error e => rfl
  | ok h0 =>
    have hany : st.holdings.any (fun x => x.ID = entity.ID) = true := by
      unfold HoldingService.GetByID HoldingRepository.GetByID at hg
      cases hf : st.holdings.find? (fun h => h.ID = entity.ID) with
      | none => simp [hf] at hg
      | some y =>
        rw [List.any_eq_true]
        have hy : decide (y.ID = entity.ID) = true :=
          List.find?_some (p := fun h : Holding => decide (h.ID = entity.ID)) hf
        exact ⟨y, List.mem_of_find?_eq_some hf, hy⟩
    simp only []
    split
    · rfl
    · split
      · rfl
      · simp [HoldingRepository.Update, hany]

/-! ## Panics and frames of the decision steps -/

/-- `ExecuteStopLoss` dereferences no pointer that can be nil: it never panics. -/
theorem ExecuteStopLoss_ne_panic (env : Env) (st : State) (holding : Holding)
    (walletType : String) : (ExecuteStopLoss env st holding walletType).1 ≠ .panic := by
  unfold ExecuteStopLoss
  cases h : TradingPreferenceService.GetByUserID env st env.user.ID with
  | error e => simp [h]
  | ok tp =>
    by_cases hop : tp.Operate = true
    · simp only [h, hop]
      repeat' split
      all_goals simp
    · simp [h, hop]

/-- `ExecuteTrade` panics only on a nil score of the destination point. -/
theorem ExecuteTrade_ne_panic (env : Env) (st : State) (holding : Holding) (toAsset : String)
    (toMarketData : MarketData) (walletType : String) (score : ℚ)
    (hs : toMarketData.Score = some score) :
    (ExecuteTrade env st holding toAsset toMarketData walletType).1 ≠ .panic := by
  unfold ExecuteTrade
  cases h : TradingPreferenceService.GetByUserID env st env.user.ID with
  | error e => simp [h]
  | ok tp =>
    by_cases hop : tp.Operate = true
    · simp only [h, hop, hs]
      repeat' split
      all_goals simp
    · simp [h, hop]

/-- The signal computation writes nothing: it only logs the ticker request. -/
theorem PullBackTradeSignal_frame (env : Env) (st : State) (tp : TradingPositionAggregate) :
    (PullBackTradeSignal env st tp).2.orders = st.orders ∧
    (PullBackTradeSignal env st tp).2.holdings = st.holdings ∧
    (PullBackTradeSignal env st tp).2.accepted = st.accepted ∧
    (PullBackTradeSignal env st tp).2.notifications = st.notifications := by
  unfold PullBackTradeSignal ExchangeService.GetTicker
  cases h1 : GetSymbolScore env tp.Holding.Symbol <;> simp only [h1]
  · simp
  cases h2 : env.getTicker tp.Holding.Symbol <;> simp only [h2]
  · simp [State.logCall]
  split_ifs <;> simp [State.logCall]

/-! ## C1: the pull-back signal -/

/-- C1 (counterexample): price 30, entry price 27, quantity 0.1 (the `float64` nearest to
it), medium risk, current score 1/2 below the entry score 9/10. The three numbers are
`float64` values and the profit percentage of the claim,
(30 - 27) * qty / (30 * qty) * 100, is exactly 10, which is not above the threshold 10; the
code computes 10.000000000000002 and returns Sell. -/
theorem C1_rounded_profit_crosses_threshold :
    Float64.ofRat 30 = .finite 30 ∧ Float64.ofRat 27 = .finite 27 ∧
    Float64.ofRat exTenth = .finite exTenth ∧
    (30 - 27) * exTenth / (30 * exTenth) * 100 = (10 : ℚ) ∧ ¬ ((10 : ℚ) > 10) ∧
    profitPercentage 30 27 exTenth = .finite (5629499534213121 / 562949953421312) ∧
    GetSymbolScore (exEnv (some (1 / 2)) (some (19 / 20)) 30 1 true) "BTCUSDT" =
      .ok { Symbol := "BTCUSDT", Score := 1 / 2, Ranking := 0 } ∧
    exThresholdPosition.Holding.EntryScore = 9 / 10 ∧
    exThresholdPosition.TradingPreference.RiskLevel = TradingPreferenceRiskLevelMedium ∧
    (PullBackTradeSignal (exEnv (some (1 / 2)) (some (19 / 20)) 30 1 true) exWorld
      exThresholdPosition).1 = .ok PullBackTradeSignalSell := by
  refine ⟨?_, ?_, ?_, ?_, ?_, ?_, ?_, ?_, ?_, ?_⟩
  · with_unfolding_all rfl
  · with_unfolding_all rfl
  · with_unfolding_all rfl
  · norm_num [exTenth]
  · norm_num
  · with_unfolding_all rfl
  · with_unfolding_all rfl
  · rfl
  · rfl
  · with_unfolding_all rfl

/-- C1 (as amended): when the score lookup and the ticker lookup succeed,
`PullBackTradeSignal` returns Hold whenever the current score is at least the entry score,
whatever the profit. Below the entry score, for the risk tiers low, medium and high with the
thresholds 5, 10 and 13, it returns Sell exactly when the profit percentage
(currentPrice - entryPrice) * qty / (currentPrice * qty) * 100, computed in `float64` with
every operation rounded, is greater than the threshold in the `float64` comparison (which a
NaN never passes); for any other risk level it returns Hold. The only results are Sell and
Hold. -/
theorem C1_PullBackTradeSignal (env : Env) (st : State) (tp : TradingPositionAggregate)
    (score : SymbolScore) (ticker : ExchangeTicker)
    (hscore : GetSymbolScore env tp.Holding.Symbol = .ok score)
    (hticker : env.getTicker tp.Holding.Symbol = .ok ticker) :
    (score.Score ≥ tp.Holding.EntryScore →
      (PullBackTradeSignal env st tp).1 = .ok PullBackTradeSignalHold) ∧
    (score.Score < tp.Holding.EntryScore →
      ∀ p ∈ [(TradingPreferenceRiskLevelLow, (5 : ℚ)), (TradingPreferenceRiskLevelMedium, 10),
          (TradingPreferenceRiskLevelHigh, 13)],
        tp.TradingPreference.RiskLevel = p.1 →
        ((PullBackTradeSignal env st tp).1 = .ok PullBackTradeSignalSell ↔
          Float64.gt (profitPercentage ticker.Price tp.Holding.EntryPrice tp.Holding.Quantity)
            (Float64.ofRat p.2) = true) ∧
        ((PullBackTradeSignal env st tp).1 = .ok PullBackTradeSignalHold ↔
          Float64.gt (profitPercentage ticker.Price tp.Holding.EntryPrice tp.Holding.Quantity)
            (Float64.ofRat p.2) = false)) ∧
    (score.Score < tp.Holding.EntryScore →
      (∀ p ∈ [TradingPreferenceRiskLevelLow, TradingPreferenceRiskLevelMedium,
          TradingPreferenceRiskLevelHigh], tp.TradingPreference.RiskLevel ≠ p) →
      (PullBackTradeSignal env st tp).1 = .ok PullBackTradeSignalHold) ∧
    ((PullBackTradeSignal env st tp).1 = .ok PullBackTradeSignalSell ∨
      (PullBackTradeSignal env st tp).1 = .ok PullBackTradeSignalHold) := by
  have hne : PullBackTradeSignalHold ≠ PullBackTradeSignalSell := by decide
  have hlm : TradingPreferenceRiskLevelMedium ≠ TradingPreferenceRiskLevelLow := by decide
  have hlh : TradingPreferenceRiskLevelHigh ≠ TradingPreferenceRiskLevelLow := by decide
  have hmh : TradingPreferenceRiskLevelHigh ≠ TradingPreferenceRiskLevelMedium := by decide
  refine ⟨?_, ?_, ?_, ?_⟩
  · intro h
    simp only [PullBackTradeSignal, hscore, ExchangeService.GetTicker, hticker, h, if_true]
  · intro h p hp hr
    have h' : ¬ score.Score ≥ tp.Holding.EntryScore := not_le.mpr h
    simp only [List.mem_cons, List.mem_singleton, List.not_mem_nil, or_false] at hp
    rcases hp with rfl | rfl | rfl
    · simp only [PullBackTradeSignal, hscore, ExchangeService.GetTicker, hticker, h', if_false,
        hr, if_true]
      split <;> simp_all [Ne.symm hne]
    · simp only [PullBackTradeSignal, hscore, ExchangeService.GetTicker, hticker, h', if_false,
        hr, hlm, if_true]
      split <;> simp_all [Ne.symm hne]
    · simp only [PullBackTradeSignal, hscore, ExchangeService.GetTicker, hticker, h', if_false,
        hr, hlh, hmh, if_true]
      split <;> simp_all [Ne.symm hne]
  · intro h hother
    have h' : ¬ score.Score ≥ tp.Holding.EntryScore := not_le.mpr h
    have h1 := hother _ (List.mem_cons_self _ _)
    have h2 := hother _ (List.mem_cons_of_mem _ (List.mem_cons_self _ _))
    have h3 := hother _ (List.mem_cons_of_mem _ (List.mem_cons_of_mem _
      (List.mem_cons_self _ _)))
    simp only [PullBackTradeSignal, hscore, ExchangeService.GetTicker, hticker, h', if_false,
      h1, h2, h3]
  · simp only [PullBackTradeSignal, hscore, ExchangeService.GetTicker, hticker]
    repeat' split
    all_goals simp

/-- Witness of C1: entry score 9/10, current score 1/2, low risk, price 100: bought at 94
(profit 6 %) the signal is Sell; with current score 19/20 the signal is Hold. -/
theorem C1_PullBackTradeSignal_witness :
    (PullBackTradeSignal (exEnv (some (1 / 2)) (some (19 / 20)) 100 1 true) exWorld
        (exPosition 94)).1 = .ok PullBackTradeSignalSell ∧
    (PullBackTradeSignal (exEnv (some (19 / 20)) (some (19 / 20)) 100 1 true) exWorld
        (exPosition 50)).1 = .ok PullBackTradeSignalHold := by
  refine ⟨?_, ?_⟩
  · exact (((C1_PullBackTradeSignal (exEnv (some (1 / 2)) (some (19 / 20)) 100 1 true) exWorld
      (exPosition 94) { Symbol := "BTCUSDT", Score := 1 / 2, Ranking := 0 }
      (exTicker "BTCUSDT" 100)
      (by with_unfolding_all decide) (by with_unfolding_all decide)).2.1
      (by with_unfolding_all decide)
      (TradingPreferenceRiskLevelLow, 5) (by simp) rfl).1).mpr
      (by with_unfolding_all decide)
  · exact (C1_PullBackTradeSignal (exEnv (some (19 / 20)) (some (19 / 20)) 100 1 true) exWorld
      (exPosition 50) { Symbol := "BTCUSDT", Score := 19 / 20, Ranking := 0 }
      (exTicker "BTCUSDT" 100)
      (by with_unfolding_all decide) (by with_unfolding_all decide)).1
      (by with_unfolding_all decide)

/-! ## C2: the decision of `PullBackTrade` -/

/-- C2: for one open position, `PullBackTrade` does nothing when the signal is Hold; on a
Sell signal it does nothing when the held symbol is the first entry of the watchlist
ranking; otherwise, with `score` the score of the latest point of that first entry, it runs
`ExecuteTrade` into that symbol when `score` exceeds the gate of the risk tier
(low 0.8, medium 0.7, high 0.5), and when it does not, it runs `ExecuteStopLoss` if stop-loss
is enabled in the preference and does nothing if it is not. Doing nothing means: nil
result, and orders, holdings and accepted quotes as before. -/

theorem C2_PullBackTrade_decision (env : Env) (st : State) (tp : TradingPositionAggregate) :
    (∀ st1, PullBackTradeSignal env st tp = (.ok PullBackTradeSignalHold, st1) →
      PullBackTrade env st tp = (.ok (), st1) ∧
      st1.orders = st.orders ∧ st1.holdings = st.holdings ∧ st1.accepted = st.accepted) ∧
    (∀ st1 top rest, PullBackTradeSignal env st tp = (.ok PullBackTradeSignalSell, st1) →
      GetScores env tp.TradingPreference.Watchlist = .ok (top :: rest) →
      (top.Symbol = tp.Holding.Symbol →
        PullBackTrade env st tp = (.ok (), st1) ∧
        st1.orders = st.orders ∧ st1.holdings = st.holdings ∧ st1.accepted = st.accepted) ∧
      (top.Symbol ≠ tp.Holding.Symbol →
        ∀ md score, GetLatest env top.Symbol = .ok md → md.Score = some score →
          ((∃ p ∈ [(TradingPreferenceRiskLevelLow, (0.8 : ℚ)),
                (TradingPreferenceRiskLevelMedium, 0.7), (TradingPreferenceRiskLevelHigh, 0.5)],
              tp.TradingPreference.RiskLevel = p.1 ∧ score > p.2) →
            PullBackTrade env st tp =
              (.ok (), (ExecuteTrade env st1 tp.Holding top.Symbol md "spot").2)) ∧
          ((¬ ∃ p ∈ [(TradingPreferenceRiskLevelLow, (0.8 : ℚ)),
                (TradingPreferenceRiskLevelMedium, 0.7), (TradingPreferenceRiskLevelHigh, 0.5)],
              tp.TradingPreference.RiskLevel = p.1 ∧ score > p.2) →
            (tp.TradingPreference.StopLossEnabled = true →
              PullBackTrade env st tp =
                (.ok (), (ExecuteStopLoss env st1 tp.Holding "spot").2)) ∧
            (tp.TradingPreference.StopLossEnabled = false →
              PullBackTrade env st tp = (.ok (), st1) ∧
              st1.orders = st.orders ∧ st1.holdings = st.holdings ∧
              st1.accepted = st.accepted)))) := by
  have hframe := PullBackTradeSignal_frame env st tp
  have hsh : PullBackTradeSignalSell ≠ PullBackTradeSignalHold := by decide
  have hlm : TradingPreferenceRiskLevelMedium ≠ TradingPreferenceRiskLevelLow := by decide
  have hlh : TradingPreferenceRiskLevelHigh ≠ TradingPreferenceRiskLevelLow := by decide
  have hmh : TradingPreferenceRiskLevelHigh ≠ TradingPreferenceRiskLevelMedium := by decide
  refine ⟨?_, ?_⟩
  · intro st1 hsig
    rw [hsig] at hframe
    refine ⟨?_, hframe.1, hframe.2.1, hframe.2.2.1⟩
    simp [PullBackTrade, hsig]
  · intro st1 top rest hsig hscores
    rw [hsig] at hframe
    refine ⟨?_, ?_⟩
    · intro htop
      refine ⟨?_, hframe.1, hframe.2.1, hframe.2.2.1⟩
      simp [PullBackTrade, hsig, hsh, hscores, htop]
    · intro htop md score hmd hsc
      have htrade := ExecuteTrade_ne_panic env st1 tp.Holding top.Symbol md "spot" score hsc
      have hstop := ExecuteStopLoss_ne_panic env st1 tp.Holding "spot"
      refine ⟨?_, ?_⟩
      · rintro ⟨p, hp, hr, hgt⟩
        have hattr : IsAttractiveSymbol tp md = .ok true := by
          simp only [List.mem_cons, List.mem_singleton, List.not_mem_nil, or_false] at hp
          rcases hp with rfl | rfl | rfl
          · simp only [IsAttractiveSymbol, hr, hsc, if_true]
            simp [hgt]
          · simp only [IsAttractiveSymbol, hr, hsc, hlm, if_false, if_true]
            simp [hgt]
          · simp only [IsAttractiveSymbol, hr, hsc, hlh, hmh, if_false, if_true]
            simp [hgt]
        rcases hrun : ExecuteTrade env st1 tp.Holding top.Symbol md "spot" with ⟨o, s⟩
        rw [hrun] at htrade
        simp only [PullBackTrade, hsig, hsh, hscores, htop, hmd, hattr, hrun, if_false]
        cases o <;> simp_all
      · intro hnot
        have hattr : IsAttractiveSymbol tp md = .ok false := by
          simp only [List.mem_cons, List.mem_singleton, List.not_mem_nil, or_false] at hnot
          unfold IsAttractiveSymbol
          simp only [hsc]
          split_ifs with h1 h2 h3 h4 h5 h6
          all_goals first
            | rfl
            | (exfalso; apply hnot; exact ⟨_, Or.inl rfl, h1, h2⟩)
            | (exfalso; apply hnot; exact ⟨_, Or.inr (Or.inl rfl), h3, h4⟩)
            | (exfalso; apply hnot; exact ⟨_, Or.inr (Or.inr rfl), h5, h6⟩)
        refine ⟨?_, ?_⟩
        · intro hsl
          rcases hrun : ExecuteStopLoss env st1 tp.Holding "spot" with ⟨o, s⟩
          rw [hrun] at hstop
          simp only [PullBackTrade, hsig, hsh, hscores, htop, hmd, hattr, hrun, hsl, if_false]
          cases o <;> simp_all
        · intro hsl
          refine ⟨?_, hframe.1, hframe.2.1, hframe.2.2.1⟩
          simp [PullBackTrade, hsig, hsh, hscores, htop, hmd, hattr, hsl]

/-- Witness of C2: in the example world (signal Sell, ETHUSDT first in the ranking with
score 19/20 > 0.8, low risk) `PullBackTrade` ends as `ExecuteTrade` into ETHUSDT does. -/
theorem C2_PullBackTrade_decision_witness :
    PullBackTrade (exEnv (some (1 / 2)) (some (19 / 20)) 100 1 true) exWorld (exPosition 94) =
      (.ok (), (ExecuteTrade (exEnv (some (1 / 2)) (some (19 / 20)) 100 1 true)
        (exWorld.logCall (.GetTicker "BTCUSDT")) (exHolding 94) "ETHUSDT" exEthPoint "spot").2) :=
  ((((C2_PullBackTrade_decision (exEnv (some (1 / 2)) (some (19 / 20)) 100 1 true) exWorld
      (exPosition 94)).2 (exWorld.logCall (.GetTicker "BTCUSDT"))
      { Symbol := "ETHUSDT", Score := 19 / 20, Ranking := 0 }
      [{ Symbol := "BTCUSDT", Score := 1 / 2, Ranking := 0 }]
      (by with_unfolding_all rfl) (by with_unfolding_all rfl)).2
      (by with_unfolding_all decide) exEthPoint (19 / 20)
      (by with_unfolding_all rfl) (by with_unfolding_all rfl)).1
      ⟨(TradingPreferenceRiskLevelLow, 0.8), by simp, by with_unfolding_all decide,
        by norm_num⟩)

/-! ## C3: failures of `ExecuteTrade` before the commit -/

/-- C3: if `ExecuteTrade` fails at a step up to and including the conversion-drift check
(preference lookup; balance read; destination or source ticker read; quote request,
including the validation of the quote; drift check), it returns that error and has created
no order, created or changed no holding, accepted no quote and sent no notification. -/

theorem C3_ExecuteTrade_precommit_failure (env : Env) (st : State) (holding : Holding)
    (toAsset : String) (toMarketData : MarketData) (walletType : String) (e : Err)
    (h :
      TradingPreferenceService.GetByUserID env st env.user.ID = .error e ∨
      ∃ tp, TradingPreferenceService.GetByUserID env st env.user.ID = .ok tp ∧ tp.Operate = true ∧
        (env.getBalance holding.GetAsset = .error e ∨
         ∃ balance, env.getBalance holding.GetAsset = .ok balance ∧
          (env.getTicker (toAsset ++ "USDT") = .error e ∨
           ∃ toTicker, env.getTicker (toAsset ++ "USDT") = .ok toTicker ∧
            (env.getTicker holding.GetAsset = .error e ∨
             ∃ fromTicker, env.getTicker holding.GetAsset = .ok fromTicker ∧
              (env.convertQuote holding.GetAsset toAsset balance.Free walletType = .error e ∨
               ∃ quote, env.convertQuote holding.GetAsset toAsset balance.Free walletType =
                  .ok quote ∧
                (quote.Validate = .error e ∨
                 (quote.Validate = .ok () ∧
                  quote.ValidateConversionDrift (fromTicker.Price * balance.Free)
                    toTicker.Price = .error e))))))) :
    (ExecuteTrade env st holding toAsset toMarketData walletType).1 = .fail e ∧
    (ExecuteTrade env st holding toAsset toMarketData walletType).2.orders = st.orders ∧
    (ExecuteTrade env st holding toAsset toMarketData walletType).2.holdings = st.holdings ∧
    (ExecuteTrade env st holding toAsset toMarketData walletType).2.accepted = st.accepted ∧
    (ExecuteTrade env st holding toAsset toMarketData walletType).2.notifications =
      st.notifications := by
  rcases h with h | ⟨tp, hp, hop, h⟩
  · simp [ExecuteTrade, h]
  rcases h with h | ⟨balance, hb, h⟩
  · simp [ExecuteTrade, hp, hop, ExchangeService.GetBalance, h, State.logCall]
  rcases h with h | ⟨toTicker, htt, h⟩
  · simp [ExecuteTrade, hp, hop, ExchangeService.GetBalance, hb, ExchangeService.GetTicker, h,
      State.logCall]
  rcases h with h | ⟨fromTicker, hft, h⟩
  · simp [ExecuteTrade, hp, hop, ExchangeService.GetBalance, hb, ExchangeService.GetTicker, htt,
      h, State.logCall]
  rcases h with h | ⟨quote, hq, h⟩
  · simp [ExecuteTrade, hp, hop, ExchangeService.GetBalance, hb, ExchangeService.GetTicker, htt,
      hft, ExchangeService.GetConversionQuote, h, State.logCall]
  rcases h with h | ⟨hv, h⟩
  · simp [ExecuteTrade, hp, hop, ExchangeService.GetBalance, hb, ExchangeService.GetTicker, htt,
      hft, ExchangeService.GetConversionQuote, hq, h, State.logCall]
  · simp [ExecuteTrade, hp, hop, ExchangeService.GetBalance, hb, ExchangeService.GetTicker, htt,
      hft, ExchangeService.GetConversionQuote, hq, hv, h, State.logCall]

/-- Witness of C3: a quote of 200 for a position worth 100 (drift 100 %) makes
`ExecuteTrade` fail with the drift error and leaves the repositories as they were. -/
theorem C3_ExecuteTrade_precommit_failure_witness :
    (ExecuteTrade (exEnv (some (1 / 2)) (some (19 / 20)) 100 200 true) exWorld (exHolding 94)
        "ETH" exEthPoint "spot").1 = .fail .ErrInvalidConversionDrift ∧
    (ExecuteTrade (exEnv (some (1 / 2)) (some (19 / 20)) 100 200 true) exWorld (exHolding 94)
        "ETH" exEthPoint "spot").2.orders = exWorld.orders ∧
    (ExecuteTrade (exEnv (some (1 / 2)) (some (19 / 20)) 100 200 true) exWorld (exHolding 94)
        "ETH" exEthPoint "spot").2.holdings = exWorld.holdings ∧
    (ExecuteTrade (exEnv (some (1 / 2)) (some (19 / 20)) 100 200 true) exWorld (exHolding 94)
        "ETH" exEthPoint "spot").2.accepted = exWorld.accepted ∧
    (ExecuteTrade (exEnv (some (1 / 2)) (some (19 / 20)) 100 200 true) exWorld (exHolding 94)
        "ETH" exEthPoint "spot").2.notifications = exWorld.notifications :=
  C3_ExecuteTrade_precommit_failure (exEnv (some (1 / 2)) (some (19 / 20)) 100 200 true) exWorld
    (exHolding 94) "ETH" exEthPoint "spot" .ErrInvalidConversionDrift
    (Or.inr ⟨exPreference true true "low", by with_unfolding_all decide, rfl,
      Or.inr ⟨{ Asset := "BTC", Free := 1, Locked := 0 }, by with_unfolding_all decide,
        Or.inr ⟨exTicker "ETHUSDT" 1, by with_unfolding_all decide,
          Or.inr ⟨exTicker "BTC" 100, by with_unfolding_all decide,
            Or.inr ⟨{ exQuote "q1" 200 with FromAsset := "BTC", ToAsset := "ETH" },
              by with_unfolding_all decide,
              Or.inr ⟨by with_unfolding_all decide, by with_unfolding_all decide⟩⟩⟩⟩⟩⟩)

/-! ## C4: the drift check -/

set_option maxRecDepth 100000 in
/-- The drift the code computes for the quote 1 - 2^-53 at the ticker 101 + 2^-46 and the
source value 100, and the result of the check. -/
theorem exQuote_rounded_drift :
    (exQuote "q1" (9007199254740991 / 9007199254740992)).drift 100
      (7107243161944065 / 70368744177664) = Float64.ofRat 0.01 ∧
    (exQuote "q1" (9007199254740991 / 9007199254740992)).ValidateConversionDrift 100
      (7107243161944065 / 70368744177664) = .ok () := by
  constructor <;> with_unfolding_all rfl

/-- C4 (counterexample): source value 100, destination ticker 101 + 2^-46 and quoted amount
1 - 2^-53, all three `float64` values. The drift of the claim,
(ticker * amount - source) / source, is above 0.01; in the code the product is rounded to
101, the drift is the `float64` 0.01 itself, the comparison fails and the quote passes. -/
theorem C4_rounded_drift_passes :
    Float64.ofRat (7107243161944065 / 70368744177664) =
      .finite (7107243161944065 / 70368744177664) ∧
    Float64.ofRat (9007199254740991 / 9007199254740992) =
      .finite (9007199254740991 / 9007199254740992) ∧
    ((7107243161944065 / 70368744177664 : ℚ) * (9007199254740991 / 9007199254740992) - 100) /
      100 > 0.01 ∧
    (exQuote "q1" (9007199254740991 / 9007199254740992)).drift 100
      (7107243161944065 / 70368744177664) = Float64.ofRat 0.01 ∧
    (exQuote "q1" (9007199254740991 / 9007199254740992)).ValidateConversionDrift 100
      (7107243161944065 / 70368744177664) = .ok () := by
  refine ⟨?_, ?_, ?_, exQuote_rounded_drift.1, exQuote_rounded_drift.2⟩
  · with_unfolding_all rfl
  · with_unfolding_all rfl
  · norm_num

/-- C4 (as amended): `ValidateConversionDrift` fails with the invalid-price error when the
source value or the destination ticker is zero. When neither is, it fails with the
conversion-drift error if and only if the drift
(destinationTicker * quotedToAmount - sourceValue) / sourceValue, computed in `float64` with
every operation rounded, is greater than the `float64` nearest to 0.01, and it succeeds
otherwise. -/
theorem C4_ValidateConversionDrift (e : ExchangeConversionQuote)
    (sourceValue destinationTicker : ℚ) :
    ((sourceValue = 0 ∨ destinationTicker = 0) →
      e.ValidateConversionDrift sourceValue destinationTicker = .error .ErrInvalidPrice) ∧
    ((Float64.ofRat sourceValue).isZero = false →
      (Float64.ofRat destinationTicker).isZero = false →
      (e.ValidateConversionDrift sourceValue destinationTicker =
          .error .ErrInvalidConversionDrift ↔
        Float64.gt (e.drift sourceValue destinationTicker) (Float64.ofRat 0.01) = true)) ∧
    ((Float64.ofRat sourceValue).isZero = false →
      (Float64.ofRat destinationTicker).isZero = false →
      Float64.gt (e.drift sourceValue destinationTicker) (Float64.ofRat 0.01) = false →
      e.ValidateConversionDrift sourceValue destinationTicker = .ok ()) := by
  have hzero : (Float64.ofRat 0).isZero = true := by with_unfolding_all rfl
  refine ⟨?_, ?_, ?_⟩
  · rintro (h | h)
    · simp only [ExchangeConversionQuote.ValidateConversionDrift, h, hzero, if_true]
    · by_cases hs : (Float64.ofRat sourceValue).isZero = true
      · simp only [ExchangeConversionQuote.ValidateConversionDrift, hs, if_true]
      · simp only [ExchangeConversionQuote.ValidateConversionDrift, hs, h, hzero, if_true]
        simp
  · intro hs ht
    simp only [ExchangeConversionQuote.ValidateConversionDrift, hs, ht]
    cases hgt : Float64.gt (e.drift sourceValue destinationTicker) (Float64.ofRat 0.01) <;>
      simp
  · intro hs ht hgt
    simp only [ExchangeConversionQuote.ValidateConversionDrift, hs, ht, hgt]
    simp

/-- Witness of C4: source value 100, ticker 1: a quote of 102 fails with the drift error,
a quote of 101 passes, and a source value of 0 is an invalid price. -/
theorem C4_ValidateConversionDrift_witness :
    (exQuote "q1" 102).ValidateConversionDrift 100 1 = .error .ErrInvalidConversionDrift ∧
    (exQuote "q1" 101).ValidateConversionDrift 100 1 = .ok () ∧
    (exQuote "q1" 102).ValidateConversionDrift 0 1 = .error .ErrInvalidPrice :=
  ⟨((C4_ValidateConversionDrift (exQuote "q1" 102) 100 1).2.1 (by with_unfolding_all rfl)
      (by with_unfolding_all rfl)).mpr (by with_unfolding_all rfl),
   (C4_ValidateConversionDrift (exQuote "q1" 101) 100 1).2.2 (by with_unfolding_all rfl)
      (by with_unfolding_all rfl) (by with_unfolding_all rfl),
   (C4_ValidateConversionDrift (exQuote "q1" 102) 0 1).1 (Or.inl rfl)⟩

/-! ## Runs of the two operations around the acceptance of the quote -/

/-- The two ways `ExecuteTrade` continues once its order is stored: the acceptance fails,
or it succeeds. -/
theorem ExecuteTrade_accept_cases (env : Env) (st : State) (holding : Holding)
    (toAsset : String) (toMarketData : MarketData) (walletType : String)
    (tp : TradingPreference) (balance : ExchangeBalance) (toTicker fromTicker : ExchangeTicker)
    (quote : ExchangeConversionQuote)
    (hp : TradingPreferenceService.GetByUserID env st env.user.ID = .ok tp)
    (hop : tp.Operate = true)
    (hb : env.getBalance holding.GetAsset = .ok balance)
    (htt : env.getTicker (toAsset ++ "USDT") = .ok toTicker)
    (hft : env.getTicker holding.GetAsset = .ok fromTicker)
    (hq : env.convertQuote holding.GetAsset toAsset balance.Free walletType = .ok quote)
    (hv : quote.Validate = .ok ())
    (hd : quote.ValidateConversionDrift (fromTicker.Price * balance.Free) toTicker.Price = .ok ())
    (ho : (takeProfitOrder env st toAsset quote toTicker).Validate = .ok ()) :
    (∀ e, env.acceptQuote quote.ID = .error e →
      (ExecuteTrade env st holding toAsset toMarketData walletType).1 = .fail e ∧
      (ExecuteTrade env st holding toAsset toMarketData walletType).2.orders =
        st.orders ++ [takeProfitOrder env st toAsset quote toTicker] ∧
      (ExecuteTrade env st holding toAsset toMarketData walletType).2.holdings = st.holdings ∧
      (ExecuteTrade env st holding toAsset toMarketData walletType).2.accepted = st.accepted ∧
      (ExecuteTrade env st holding toAsset toMarketData walletType).2.calls = st.calls ++
        [.GetBalance holding.GetAsset, .GetTicker (toAsset ++ "USDT"),
         .GetTicker holding.GetAsset,
         .GetConversionQuote holding.GetAsset toAsset balance.Free walletType,
         .AcceptConversionQuote quote.ID]) ∧
    (∀ o, env.acceptQuote quote.ID = .ok o → toMarketData.Score ≠ none →
      (∀ x ∈ st.orders, x.ID ≠ st.nextID) →
      (ExecuteTrade env st holding toAsset toMarketData walletType).1 = .ok () ∧
      (ExecuteTrade env st holding toAsset toMarketData walletType).2.orders =
        st.orders ++ [{ takeProfitOrder env st toAsset quote toTicker with
          Status := OrderStatusFilled }] ∧
      (ExecuteTrade env st holding toAsset toMarketData walletType).2.accepted =
        st.accepted ++ [quote.ID]) := by
  have ho' := ho
  simp only [takeProfitOrder, NewOrder] at ho'
  constructor
  · intro e hacc
    simp [ExecuteTrade, hp, hop, ExchangeService.GetBalance, hb, ExchangeService.GetTicker, htt,
      hft, ExchangeService.GetConversionQuote, hq, hv, hd, OrderService.Create, ho',
      IsResourceOwner, NewOrder, OrderRepository.Create,
      ExchangeService.AcceptConversionQuote, hacc, takeProfitOrder, State.logCall,
      State.newUUID]
  · intro o hacc hscore hfresh
    obtain ⟨score, hsc⟩ := Option.ne_none_iff_exists'.mp hscore
    simp [ExecuteTrade, hp, hop, ExchangeService.GetBalance, hb, ExchangeService.GetTicker, htt,
      hft, ExchangeService.GetConversionQuote, hq, hv, hd, OrderService.Create, ho',
      IsResourceOwner, NewOrder, 
      ExchangeService.AcceptConversionQuote, hacc, hsc]
    refine ⟨?_, by simp [OrderRepository.Create]⟩
    refine OrderService_Update_last env _ st.orders (takeProfitOrder env st toAsset quote toTicker)
      _ ?_ hfresh rfl rfl rfl (Order_Validate_filled _ ho)
    simp [OrderRepository.Create, takeProfitOrder, NewOrder]

/-- The two ways `ExecuteStopLoss` continues once its order is stored. -/
theorem ExecuteStopLoss_accept_cases (env : Env) (st : State) (holding : Holding) (walletType : String)
    (tp : TradingPreference) (balance : ExchangeBalance) (toTicker fromTicker : ExchangeTicker)
    (quote : ExchangeConversionQuote)
    (hp : TradingPreferenceService.GetByUserID env st env.user.ID = .ok tp)
    (hop : tp.Operate = true)
    (hb : env.getBalance holding.GetAsset = .ok balance)
    (hft : env.getTicker holding.GetAsset = .ok fromTicker)
    (htt : env.getTicker "USDT" = .ok toTicker)
    (hq : env.convertQuote holding.GetAsset "USDT" balance.Free walletType = .ok quote)
    (hv : quote.Validate = .ok ())
    (ho : (stopLossOrder env st quote toTicker).Validate = .ok ()) :
    (∀ e, env.acceptQuote quote.ID = .error e →
      (ExecuteStopLoss env st holding walletType).1 = .fail e ∧
      (ExecuteStopLoss env st holding walletType).2.orders =
        st.orders ++ [stopLossOrder env st quote toTicker] ∧
      (ExecuteStopLoss env st holding walletType).2.holdings = st.holdings ∧
      (ExecuteStopLoss env st holding walletType).2.accepted = st.accepted ∧
      (ExecuteStopLoss env st holding walletType).2.calls = st.calls ++
        [.GetBalance holding.GetAsset, .GetTicker holding.GetAsset, .GetTicker "USDT",
         .GetConversionQuote holding.GetAsset "USDT" balance.Free walletType,
         .AcceptConversionQuote quote.ID]) ∧
    (∀ o, env.acceptQuote quote.ID = .ok o → (∀ x ∈ st.orders, x.ID ≠ st.nextID) →
      (ExecuteStopLoss env st holding walletType).1 = .ok () ∧
      (ExecuteStopLoss env st holding walletType).2.orders =
        st.orders ++ [{ stopLossOrder env st quote toTicker with Status := OrderStatusFilled }] ∧
      (ExecuteStopLoss env st holding walletType).2.accepted = st.accepted ++ [quote.ID]) := by
  have ho' := ho
  simp only [stopLossOrder, NewOrder] at ho'
  constructor
  · intro e hacc
    simp [ExecuteStopLoss, hp, hop, ExchangeService.GetBalance, hb, ExchangeService.GetTicker,
      htt, hft, ExchangeService.GetConversionQuote, hq, hv, OrderService.Create, ho',
      IsResourceOwner, NewOrder, OrderRepository.Create,
      ExchangeService.AcceptConversionQuote, hacc, stopLossOrder, State.logCall, State.newUUID]
  · intro o hacc hfresh
    simp [ExecuteStopLoss, hp, hop, ExchangeService.GetBalance, hb, ExchangeService.GetTicker,
      htt, hft, ExchangeService.GetConversionQuote, hq, hv, OrderService.Create, ho',
      IsResourceOwner, NewOrder, ExchangeService.AcceptConversionQuote, hacc]
    refine ⟨?_, by simp [OrderRepository.Create]⟩
    refine OrderService_Update_last env _ st.orders (stopLossOrder env st quote toTicker)
      _ ?_ hfresh rfl rfl rfl (Order_Validate_filled _ ho)
    simp [OrderRepository.Create, stopLossOrder, NewOrder]

/-- When every step of `ExecuteStopLoss` succeeds, the holdings repository afterwards is the
one before with the old holding overwritten (when `HoldingService.Update` accepts it): the
`HoldingService.Create` of the paired holding is always rejected, so no holding is added. -/
theorem ExecuteStopLoss_creates_no_holding (env : Env) (st : State) (holding : Holding)
    (walletType : String) (tp : TradingPreference) (balance : ExchangeBalance)
    (toTicker fromTicker : ExchangeTicker) (quote : ExchangeConversionQuote)
    (accepted : ExchangeConversionOrder)
    (hp : TradingPreferenceService.GetByUserID env st env.user.ID = .ok tp)
    (hop : tp.Operate = true)
    (hb : env.getBalance holding.GetAsset = .ok balance)
    (hft : env.getTicker holding.GetAsset = .ok fromTicker)
    (htt : env.getTicker "USDT" = .ok toTicker)
    (hq : env.convertQuote holding.GetAsset "USDT" balance.Free walletType = .ok quote)
    (hv : quote.Validate = .ok ())
    (ho : (NewOrder st.nextID env.now env.user.ID "USDT" quote.ToAmount
      (quote.ToAmount * toTicker.Price) OrderTypeStopLoss).Validate = .ok ())
    (hacc : env.acceptQuote quote.ID = .ok accepted) :
    (ExecuteStopLoss env st holding walletType).1 = .ok () ∧
    (ExecuteStopLoss env st holding walletType).2.holdings.length = st.holdings.length ∧
    ∀ x ∈ (ExecuteStopLoss env st holding walletType).2.holdings,
      x ∈ st.holdings ∨
      x = { holding with
            ExitPrice := fromTicker.Price
            Status := HoldingStatusClosed
            Profit := fromTicker.Price * holding.Quantity -
              holding.EntryPrice * holding.Quantity } := by
  have ho' := ho
  simp only [NewOrder] at ho'
  simp [ExecuteStopLoss, hp, hop, ExchangeService.GetBalance, hb, ExchangeService.GetTicker,
    htt, hft, ExchangeService.GetConversionQuote, hq, hv, OrderService.Create, ho',
    IsResourceOwner, NewOrder, ExchangeService.AcceptConversionQuote, hacc,
    HoldingService_Create_GetAsset]
  refine ⟨?_, ?_⟩
  · rw [HoldingService_Update_length]
    simp [OrderRepository.Create]
  · intro x hx
    have hmem := HoldingService_Update_mem _ _ _ x hx
    simpa [OrderRepository.Create] using hmem

/-! ## C5: `ExecuteStopLoss` has no drift gate -/

/-- C5 (evaluation of the code at the failing input): position worth 100 (balance 1, BTC
ticker 100), USDT ticker 1, quote of 200 USDT, a drift of 100 %. The drift check rejects
this quote and `ExecuteTrade` fails on it with the drift error, but `ExecuteStopLoss`
returns nil, having stored its order, accepted the quote `q1` and marked the order Filled. -/
theorem C5_ExecuteStopLoss_no_drift_gate :
    (∃ quote, (exEnv (some (1 / 2)) (some (19 / 20)) 100 200 true).convertQuote "BTC" "USDT" 1
        "spot" = .ok quote ∧
      quote.ValidateConversionDrift (100 * 1) 1 = .error .ErrInvalidConversionDrift) ∧
    (ExecuteTrade (exEnv (some (1 / 2)) (some (19 / 20)) 100 200 true) exWorld (exHolding 94)
        "ETH" exEthPoint "spot").1 = .fail .ErrInvalidConversionDrift ∧
    (ExecuteStopLoss (exEnv (some (1 / 2)) (some (19 / 20)) 100 200 true) exWorld
        (exHolding 94) "spot").1 = .ok () ∧
    (ExecuteStopLoss (exEnv (some (1 / 2)) (some (19 / 20)) 100 200 true) exWorld
        (exHolding 94) "spot").2.accepted = ["q1"] ∧
    (ExecuteStopLoss (exEnv (some (1 / 2)) (some (19 / 20)) 100 200 true) exWorld
        (exHolding 94) "spot").2.orders =
      [{ ID := 1000, UserID := 1, Symbol := "USDT", Quantity := 200, Price := 200,
         Status := OrderStatusFilled, TradeType := OrderTypeStopLoss,
         CreatedAt := 1000 * Minute, UpdatedAt := 1000 * Minute }] := by
  refine ⟨⟨{ exQuote "q1" 200 with FromAsset := "BTC", ToAsset := "USDT" }, ?_, ?_⟩, ?_, ?_, ?_, ?_⟩
  all_goals with_unfolding_all rfl

/-! ## C6: the operate flag -/

/-- C6: if the preference of the user has the operate flag false, `ExecuteTrade` and
`ExecuteStopLoss` each return nil and leave the whole state as it was: no request is sent
to the exchange (no balance read, no quote requested, no conversion accepted), no order is
created and no holding is created or changed. -/

theorem C6_operate_false_is_noop (env : Env) (st : State) (holding : Holding)
    (toAsset : String) (toMarketData : MarketData) (walletType : String)
    (tp : TradingPreference)
    (hp : TradingPreferenceService.GetByUserID env st env.user.ID = .ok tp)
    (hop : tp.Operate = false) :
    ExecuteTrade env st holding toAsset toMarketData walletType = (.ok (), st) ∧
    ExecuteStopLoss env st holding walletType = (.ok (), st) := by
  constructor
  · simp [ExecuteTrade, hp, hop]
  · simp [ExecuteStopLoss, hp, hop]

/-- Witness of C6: the example world with the operate flag switched off. -/
theorem C6_operate_false_is_noop_witness :
    ExecuteTrade (exEnv (some (1 / 2)) (some (19 / 20)) 100 100 true)
        (exState (exPreference false true "low") [exHolding 94]) (exHolding 94) "ETH" exEthPoint
        "spot" = (.ok (), exState (exPreference false true "low") [exHolding 94]) ∧
    ExecuteStopLoss (exEnv (some (1 / 2)) (some (19 / 20)) 100 100 true)
        (exState (exPreference false true "low") [exHolding 94]) (exHolding 94) "spot" =
      (.ok (), exState (exPreference false true "low") [exHolding 94]) :=
  C6_operate_false_is_noop (exEnv (some (1 / 2)) (some (19 / 20)) 100 100 true)
    (exState (exPreference false true "low") [exHolding 94]) (exHolding 94) "ETH" exEthPoint
    "spot" (exPreference false true "low") (by with_unfolding_all rfl) rfl

/-! ## C7: the order is Open until the quote is accepted -/

/-- C7: in `ExecuteTrade` and `ExecuteStopLoss` the order is built with status Open (trade
type take-profit for a rotation, stop-loss for a stop-loss) and stored before the quote is
accepted. If accepting the quote fails, the operation returns that error with the Open order
stored as the last row, no holding created or changed and no quote accepted, the acceptance
being the last request sent. If accepting succeeds (for a rotation: with a scored
destination point) and no stored order carries the new identifier, the operation returns
nil with that order stored as Filled and the quote accepted. -/
theorem C7_order_open_until_accepted (env : Env) (st : State) (holding : Holding)
    (toAsset : String) (toMarketData : MarketData) (walletType : String)
    (tp : TradingPreference) (balance : ExchangeBalance)
    (toTicker fromTicker usdtTicker : ExchangeTicker) (quote slQuote : ExchangeConversionQuote) :
    ((takeProfitOrder env st toAsset quote toTicker).Status = OrderStatusOpen ∧
      (takeProfitOrder env st toAsset quote toTicker).TradeType = OrderTypeTakeProfit ∧
      (stopLossOrder env st slQuote usdtTicker).Status = OrderStatusOpen ∧
      (stopLossOrder env st slQuote usdtTicker).TradeType = OrderTypeStopLoss) ∧
    (TradingPreferenceService.GetByUserID env st env.user.ID = .ok tp → tp.Operate = true →
      env.getBalance holding.GetAsset = .ok balance →
      env.getTicker (toAsset ++ "USDT") = .ok toTicker →
      env.getTicker holding.GetAsset = .ok fromTicker →
      env.convertQuote holding.GetAsset toAsset balance.Free walletType = .ok quote →
      quote.Validate = .ok () →
      quote.ValidateConversionDrift (fromTicker.Price * balance.Free) toTicker.Price = .ok () →
      (takeProfitOrder env st toAsset quote toTicker).Validate = .ok () →
      (∀ e, env.acceptQuote quote.ID = .error e →
        (ExecuteTrade env st holding toAsset toMarketData walletType).1 = .fail e ∧
        (ExecuteTrade env st holding toAsset toMarketData walletType).2.orders =
          st.orders ++ [takeProfitOrder env st toAsset quote toTicker] ∧
        (ExecuteTrade env st holding toAsset toMarketData walletType).2.holdings = st.holdings ∧
        (ExecuteTrade env st holding toAsset toMarketData walletType).2.accepted = st.accepted ∧
        (ExecuteTrade env st holding toAsset toMarketData walletType).2.calls = st.calls ++
          [.GetBalance holding.GetAsset, .GetTicker (toAsset ++ "USDT"),
           .GetTicker holding.GetAsset,
           .GetConversionQuote holding.GetAsset toAsset balance.Free walletType,
           .AcceptConversionQuote quote.ID]) ∧
      (∀ o, env.acceptQuote quote.ID = .ok o → toMarketData.Score ≠ none →
        (∀ x ∈ st.orders, x.ID ≠ st.nextID) →
        (ExecuteTrade env st holding toAsset toMarketData walletType).1 = .ok () ∧
        (ExecuteTrade env st holding toAsset toMarketData walletType).2.orders =
          st.orders ++ [{ takeProfitOrder env st toAsset quote toTicker with
            Status := OrderStatusFilled }] ∧
        (ExecuteTrade env st holding toAsset toMarketData walletType).2.accepted =
          st.accepted ++ [quote.ID])) ∧
    (TradingPreferenceService.GetByUserID env st env.user.ID = .ok tp → tp.Operate = true →
      env.getBalance holding.GetAsset = .ok balance →
      env.getTicker holding.GetAsset = .ok fromTicker →
      env.getTicker "USDT" = .ok usdtTicker →
      env.convertQuote holding.GetAsset "USDT" balance.Free walletType = .ok slQuote →
      slQuote.Validate = .ok () →
      (stopLossOrder env st slQuote usdtTicker).Validate = .ok () →
      (∀ e, env.acceptQuote slQuote.ID = .error e →
        (ExecuteStopLoss env st holding walletType).1 = .fail e ∧
        (ExecuteStopLoss env st holding walletType).2.orders =
          st.orders ++ [stopLossOrder env st slQuote usdtTicker] ∧
        (ExecuteStopLoss env st holding walletType).2.holdings = st.holdings ∧
        (ExecuteStopLoss env st holding walletType).2.accepted = st.accepted ∧
        (ExecuteStopLoss env st holding walletType).2.calls = st.calls ++
          [.GetBalance holding.GetAsset, .GetTicker holding.GetAsset, .GetTicker "USDT",
           .GetConversionQuote holding.GetAsset "USDT" balance.Free walletType,
           .AcceptConversionQuote slQuote.ID]) ∧
      (∀ o, env.acceptQuote slQuote.ID = .ok o → (∀ x ∈ st.orders, x.ID ≠ st.nextID) →
        (ExecuteStopLoss env st holding walletType).1 = .ok () ∧
        (ExecuteStopLoss env st holding walletType).2.orders =
          st.orders ++ [{ stopLossOrder env st slQuote usdtTicker with
            Status := OrderStatusFilled }] ∧
        (ExecuteStopLoss env st holding walletType).2.accepted =
          st.accepted ++ [slQuote.ID])) := by
  refine ⟨⟨rfl, rfl, rfl, rfl⟩, ?_, ?_⟩
  · intro hp hop hb htt hft hq hv hd ho
    exact ExecuteTrade_accept_cases env st holding toAsset toMarketData walletType tp balance
      toTicker fromTicker quote hp hop hb htt hft hq hv hd ho
  · intro hp hop hb hft htt hq hv ho
    exact ExecuteStopLoss_accept_cases env st holding walletType tp balance usdtTicker
      fromTicker slQuote hp hop hb hft htt hq hv ho

/-- Witness of C7: in the example world the exchange refuses to accept the quote `q1`;
`ExecuteTrade` into ETH fails with that error, the Open take-profit order is stored, the
holding is untouched and no quote is accepted. -/
theorem C7_order_open_until_accepted_witness :
    (ExecuteTrade (exEnv (some (1 / 2)) (some (19 / 20)) 100 100 false) exWorld (exHolding 94)
        "ETH" exEthPoint "spot").1 = .fail .ErrQuoteExpired ∧
    (ExecuteTrade (exEnv (some (1 / 2)) (some (19 / 20)) 100 100 false) exWorld (exHolding 94)
        "ETH" exEthPoint "spot").2.orders =
      exWorld.orders ++ [takeProfitOrder (exEnv (some (1 / 2)) (some (19 / 20)) 100 100 false)
        exWorld "ETH" { exQuote "q1" 100 with FromAsset := "BTC", ToAsset := "ETH" }
        (exTicker "ETHUSDT" 1)] ∧
    (ExecuteTrade (exEnv (some (1 / 2)) (some (19 / 20)) 100 100 false) exWorld (exHolding 94)
        "ETH" exEthPoint "spot").2.holdings = exWorld.holdings ∧
    (ExecuteTrade (exEnv (some (1 / 2)) (some (19 / 20)) 100 100 false) exWorld (exHolding 94)
        "ETH" exEthPoint "spot").2.accepted = exWorld.accepted :=
  have h := ((C7_order_open_until_accepted (exEnv (some (1 / 2)) (some (19 / 20)) 100 100 false)
    exWorld (exHolding 94) "ETH" exEthPoint "spot" (exPreference true true "low")
    { Asset := "BTC", Free := 1, Locked := 0 } (exTicker "ETHUSDT" 1) (exTicker "BTC" 100)
    (exTicker "USDT" 1) { exQuote "q1" 100 with FromAsset := "BTC", ToAsset := "ETH" }
    { exQuote "q1" 100 with FromAsset := "BTC", ToAsset := "USDT" }).2.1
    (by with_unfolding_all rfl) rfl (by with_unfolding_all rfl) (by with_unfolding_all rfl)
    (by with_unfolding_all rfl) (by with_unfolding_all rfl) (by with_unfolding_all decide)
    (by with_unfolding_all decide) (by with_unfolding_all decide)).1 .ErrQuoteExpired
    (by with_unfolding_all rfl)
  ⟨h.1, h.2.1, h.2.2.1, h.2.2.2.1⟩

/-! ## When the close of the old holding is persisted -/

/-- `HoldingService.GetByID` reads the holdings repository only. -/
theorem HoldingService_GetByID_congr (env : Env) (s t : State) (id : UUID)
    (h : s.holdings = t.holdings) :
    HoldingService.GetByID env s id = HoldingService.GetByID env t id := by
  simp [HoldingService.GetByID, HoldingRepository.GetByID, h]

/-- `HoldingService.Create` removes no holding. -/
theorem HoldingService_Create_mem (env : Env) (st : State) (h x : Holding)
    (hx : x ∈ st.holdings) : x ∈ (HoldingService.Create env st h).2.holdings := by
  unfold HoldingService.Create HoldingRepository.Create
  repeat' split
  all_goals simp [hx]

/-- A holding that is stored, owned by the user of the request and valid is in the
repository after `HoldingService.Update`. -/
theorem HoldingService_Update_self_mem (env : Env) (st : State) (entity stored : Holding)
    (hg : HoldingService.GetByID env st entity.ID = .ok stored)
    (hu : entity.UserID = env.user.ID) (hv : entity.Validate = .ok ()) :
    (HoldingService.Update env st entity).1 = .ok entity ∧
    entity ∈ (HoldingService.Update env st entity).2.holdings := by
  have hany : st.holdings.any (fun x => x.ID = entity.ID) = true := by
    unfold HoldingService.GetByID HoldingRepository.GetByID at hg
    cases hf : st.holdings.find? (fun h => h.ID = entity.ID) with
    | none => simp [hf] at hg
    | some y =>
      have hy : decide (y.ID = entity.ID) = true :=
        List.find?_some (p := fun h : Holding => decide (h.ID = entity.ID)) hf
      rw [List.any_eq_true]
      exact ⟨y, List.mem_of_find?_eq_some hf, hy⟩
  simp only [HoldingService.Update, hg, IsResourceOwner, hu, hv, HoldingRepository.Update, hany]
  simp only [ne_eq, not_true_eq_false, if_false, if_true, true_and]
  rw [List.any_eq_true] at hany
  obtain ⟨y, hy, hyid⟩ := hany
  rw [List.mem_map]
  exact ⟨y, hy, if_pos (of_decide_eq_true hyid)⟩

/-- When every step of `ExecuteTrade` succeeds and `HoldingService.Update` accepts the old
holding (it is stored, owned by the user of the request and valid once closed), the old
holding is persisted Closed with exit price the source ticker price and profit
(exit - entry) * quantity. -/
theorem ExecuteTrade_closes_stored_holding (env : Env) (st : State) (holding stored : Holding)
    (toAsset : String) (toMarketData : MarketData) (walletType : String)
    (tp : TradingPreference) (balance : ExchangeBalance) (toTicker fromTicker : ExchangeTicker)
    (quote : ExchangeConversionQuote) (accepted : ExchangeConversionOrder) (score : ℚ)
    (hp : TradingPreferenceService.GetByUserID env st env.user.ID = .ok tp)
    (hop : tp.Operate = true)
    (hb : env.getBalance holding.GetAsset = .ok balance)
    (htt : env.getTicker (toAsset ++ "USDT") = .ok toTicker)
    (hft : env.getTicker holding.GetAsset = .ok fromTicker)
    (hq : env.convertQuote holding.GetAsset toAsset balance.Free walletType = .ok quote)
    (hv : quote.Validate = .ok ())
    (hd : quote.ValidateConversionDrift (fromTicker.Price * balance.Free) toTicker.Price = .ok ())
    (ho : (takeProfitOrder env st toAsset quote toTicker).Validate = .ok ())
    (hacc : env.acceptQuote quote.ID = .ok accepted)
    (hscore : toMarketData.Score = some score)
    (hstored : HoldingService.GetByID env st holding.ID = .ok stored)
    (howner : holding.UserID = env.user.ID)
    (hvalid : (closedHolding holding fromTicker.Price
      ((fromTicker.Price - holding.EntryPrice) * holding.Quantity)).Validate = .ok ()) :
    (ExecuteTrade env st holding toAsset toMarketData walletType).1 = .ok () ∧
    closedHolding holding fromTicker.Price
        ((fromTicker.Price - holding.EntryPrice) * holding.Quantity) ∈
      (ExecuteTrade env st holding toAsset toMarketData walletType).2.holdings := by
  have ho' := ho
  simp only [takeProfitOrder, NewOrder] at ho'
  simp [ExecuteTrade, hp, hop, ExchangeService.GetBalance, hb, ExchangeService.GetTicker, htt,
    hft, ExchangeService.GetConversionQuote, hq, hv, hd, OrderService.Create, ho',
    IsResourceOwner, NewOrder, ExchangeService.AcceptConversionQuote, hacc, hscore]
  apply HoldingService_Create_mem
  simp only [newUUID_holdings]
  refine (HoldingService_Update_self_mem env _ (closedHolding holding fromTicker.Price
    ((fromTicker.Price - holding.EntryPrice) * holding.Quantity)) stored ?_ howner hvalid).2
  rw [← hstored]
  exact HoldingService_GetByID_congr env _ st holding.ID (by simp [OrderRepository.Create])

/-! ## C8: closing the old holding -/

/-- C8 (evaluation of the code at the failing input): the position handed to
`ExecuteTrade` has no row in the holdings repository. Every exchange call succeeds and the
quote `q1` is accepted; `HoldingService.Update` fails with record-not-found, the error is
discarded, and `ExecuteTrade` returns nil although no holding with status Closed is
persisted: the repository holds only the new ETHUSDT holding. -/
theorem C8_ExecuteTrade_unpersisted_close :
    (HoldingService.Update (exEnv (some (1 / 2)) (some (19 / 20)) 100 100 true)
        (exState (exPreference true true "low") [])
        (closedHolding (exHolding 94) 100 6)).1 = .error .ErrRecordNotFound ∧
    (ExecuteTrade (exEnv (some (1 / 2)) (some (19 / 20)) 100 100 true)
        (exState (exPreference true true "low") []) (exHolding 94) "ETH" exEthPoint
        "spot").1 = .ok () ∧
    (ExecuteTrade (exEnv (some (1 / 2)) (some (19 / 20)) 100 100 true)
        (exState (exPreference true true "low") []) (exHolding 94) "ETH" exEthPoint
        "spot").2.accepted = ["q1"] ∧
    (ExecuteTrade (exEnv (some (1 / 2)) (some (19 / 20)) 100 100 true)
        (exState (exPreference true true "low") []) (exHolding 94) "ETH" exEthPoint
        "spot").2.holdings =
      [NewHolding 1001 (1000 * Minute) 1 "ETHUSDT" 100 1 0 0 (19 / 20) HoldingStatusOpen] := by
  refine ⟨?_, ?_, ?_, ?_⟩
  all_goals with_unfolding_all rfl

/-! ## C9: the paired holding of a stop-loss -/

/-- C9 (evaluation of the code at the failing input): in the example world every step of
`ExecuteStopLoss` succeeds and the old BTCUSDT holding is persisted as Closed, but the paired
holding is built with the symbol `GetAsset()` = BTC, `HoldingService.Create` rejects it
with the invalid-symbol error, the error is discarded, and the repository ends with the
closed holding alone: no Open holding is created. -/
theorem C9_ExecuteStopLoss_no_paired_holding :
    (exHolding 94).GetAsset = "BTC" ∧
    (HoldingService.Create (exEnv (some (1 / 2)) (some (19 / 20)) 100 100 true) exWorld
        (NewHolding 1001 (1000 * Minute) 1 "BTC" 100 100 0 0 (9 / 10) HoldingStatusOpen)).1 =
      .error .ErrInvalidHoldingSymbol ∧
    (ExecuteStopLoss (exEnv (some (1 / 2)) (some (19 / 20)) 100 100 true) exWorld
        (exHolding 94) "spot").1 = .ok () ∧
    (ExecuteStopLoss (exEnv (some (1 / 2)) (some (19 / 20)) 100 100 true) exWorld
        (exHolding 94) "spot").2.accepted = ["q1"] ∧
    (ExecuteStopLoss (exEnv (some (1 / 2)) (some (19 / 20)) 100 100 true) exWorld
        (exHolding 94) "spot").2.holdings = [closedHolding (exHolding 94) 100 6] := by
  refine ⟨?_, ?_, ?_, ?_, ?_⟩
  all_goals with_unfolding_all rfl

/-! ## C10: failures of the execution inside `PullBackTrade` -/

/-- C10 (evaluation of the code at the failing input): Sell signal, ETHUSDT first in the
ranking and attractive, quote of 200 for a position worth 100. The `ExecuteTrade` call that
`PullBackTrade` makes fails with the drift error, and `PullBackTrade` returns nil. With an
unattractive candidate, stop-loss enabled and an exchange that refuses the acceptance, the
`ExecuteStopLoss` call fails with quote-expired, and `PullBackTrade` again returns nil. -/
theorem C10_PullBackTrade_swallows_failure :
    (ExecuteTrade (exEnv (some (1 / 2)) (some (19 / 20)) 100 200 true)
        (exWorld.logCall (.GetTicker "BTCUSDT")) (exHolding 94) "ETHUSDT" exEthPoint
        "spot").1 = .fail .ErrInvalidConversionDrift ∧
    PullBackTrade (exEnv (some (1 / 2)) (some (19 / 20)) 100 200 true) exWorld (exPosition 94) =
      (.ok (), (ExecuteTrade (exEnv (some (1 / 2)) (some (19 / 20)) 100 200 true)
        (exWorld.logCall (.GetTicker "BTCUSDT")) (exHolding 94) "ETHUSDT" exEthPoint
        "spot").2) ∧
    (ExecuteStopLoss (exEnv (some (2 / 5)) (some (1 / 2)) 100 100 false)
        (exWorld.logCall (.GetTicker "BTCUSDT")) (exHolding 94) "spot").1 =
      .fail .ErrQuoteExpired ∧
    PullBackTrade (exEnv (some (2 / 5)) (some (1 / 2)) 100 100 false) exWorld (exPosition 94) =
      (.ok (), (ExecuteStopLoss (exEnv (some (2 / 5)) (some (1 / 2)) 100 100 false)
        (exWorld.logCall (.GetTicker "BTCUSDT")) (exHolding 94) "spot").2) := by
  refine ⟨?_, ?_, ?_, ?_⟩
  all_goals with_unfolding_all rfl


/-! ## Market data storage: helper lemmas -/

/-- Membership in a half-open minute is symmetric, on integers. -/
theorem minute_bucket_symm (p q : Int) :
    (p - p % 60000000000 ≤ q ∧ q < p - p % 60000000000 + 60000000000) ↔
      (q - q % 60000000000 ≤ p ∧ p < q - q % 60000000000 + 60000000000) := by
  omega

/-- Two timestamps are in the same minute bucket exactly when one lies in the half-open
minute that starts at the truncation of the other. -/
theorem Truncate_bucket (p q : Time) :
    (Truncate p Minute ≤ q ∧ q < Truncate p Minute + Minute) ↔
      (Truncate q Minute ≤ p ∧ p < Truncate q Minute + Minute) := by
  have hm : ¬ (Minute ≤ 0) := by decide
  simp only [Truncate, hm, if_false]
  exact minute_bucket_symm p q

/-- The rows `MarketDataService.Create` looks up: those of the symbol whose timestamp lies in
the minute bucket of the incoming point. -/
theorem Create_filter_holds (q : MarketData) (row : MarketDataDTO) :
    (NewComplexFilter [.symbol q.Symbol, .timestamp__gte (Truncate q.Timestamp Minute),
        .timestamp__lt (Truncate q.Timestamp Minute + Minute)] "created_at" "desc" 1
        100).QueryFromFilter row = true ↔
      (row.Symbol = q.Symbol ∧ Truncate q.Timestamp Minute ≤ row.Timestamp ∧
        row.Timestamp < Truncate q.Timestamp Minute + Minute) := by
  simp [NewComplexFilter, ComplexFilters.QueryFromFilter, Filter.holds]

/-- Gorm `Save` on the market data table keeps the identifiers of the rows when a row with
the identifier written is stored. -/
theorem MarketDataRepository_Update_ids (env : MarketEnv) (st : MarketState) (m : MarketData)
    (h : ∃ row ∈ st.marketDatas, row.ID = m.ID) :
    (MarketDataRepository.Update env st m).2.marketDatas.map (fun row => row.ID) =
      st.marketDatas.map (fun row => row.ID) := by
  have hany : st.marketDatas.any (fun row => row.ID = (MarketDataDTO.FromEntity m).ID) = true := by
    rw [List.any_eq_true]
    obtain ⟨row, hrow, hid⟩ := h
    exact ⟨row, hrow, by simpa [MarketDataDTO.FromEntity] using hid⟩
  simp only [MarketDataRepository.Update]
  split
  · rfl
  · simp only [hany, if_true, List.map_map]
    apply List.map_congr_left
    intro row _
    simp only [Function.comp]
    split_ifs with hid
    · exact hid.symm
    · rfl

/-- Gorm `Save` stores the row written when the database runs the statement and a row with
its identifier is stored. -/
theorem MarketDataRepository_Update_mem (env : MarketEnv) (st : MarketState) (m : MarketData)
    (hdb : env.databaseError (.Save (MarketDataDTO.FromEntity m)) = none)
    (h : ∃ row ∈ st.marketDatas, row.ID = m.ID) :
    MarketDataDTO.FromEntity m ∈ (MarketDataRepository.Update env st m).2.marketDatas := by
  have hany : st.marketDatas.any (fun row => row.ID = (MarketDataDTO.FromEntity m).ID) = true := by
    rw [List.any_eq_true]
    obtain ⟨row, hrow, hid⟩ := h
    exact ⟨row, hrow, by simpa [MarketDataDTO.FromEntity] using hid⟩
  simp only [MarketDataRepository.Update, hdb, hany, if_true, List.mem_map]
  obtain ⟨row, hrow, hid⟩ := h
  exact ⟨row, hrow, if_pos (by simpa [MarketDataDTO.FromEntity] using hid)⟩

/-- The result of gorm `Save` when the database runs the statement. -/
theorem MarketDataRepository_Update_ok (env : MarketEnv) (st : MarketState) (m : MarketData)
    (hdb : env.databaseError (.Save (MarketDataDTO.FromEntity m)) = none) :
    (MarketDataRepository.Update env st m).1 = .ok (MarketDataDTO.FromEntity m).ToEntity := by
  simp only [MarketDataRepository.Update, hdb]
  split <;> rfl

/-- The rows of the symbol and minute bucket of `q`, in storage order. -/
theorem bucketFilters_rows (st : MarketState) (q : MarketData) :
    st.marketDatas.filter (fun row => (bucketFilters q).QueryFromFilter row) =
      st.marketDatas.filter (fun row => decide (row.Symbol = q.Symbol ∧
        Truncate q.Timestamp Minute ≤ row.Timestamp ∧
        row.Timestamp < Truncate q.Timestamp Minute + Minute)) := by
  congr 1
  funext row
  rw [Bool.eq_iff_iff, bucketFilters, Create_filter_holds]
  simp

/-- What `MarketDataService.Create` does with a valid point when the database runs the
lookup, by the rows stored for its symbol and minute bucket, in storage order: none makes it
insert the point; otherwise the first of them is overwritten. -/
theorem MarketDataService_Create_cases (env : MarketEnv) (st : MarketState) (q : MarketData)
    (hv : q.Validate = .ok ())
    (hfind : env.databaseError (.Find (bucketFilters q)) = none) :
    (st.marketDatas.filter (fun row => decide (row.Symbol = q.Symbol ∧
        Truncate q.Timestamp Minute ≤ row.Timestamp ∧
        row.Timestamp < Truncate q.Timestamp Minute + Minute)) = [] →
      MarketDataService.Create env st q = MarketDataRepository.Create env st q) ∧
    (∀ p rest, st.marketDatas.filter (fun row => decide (row.Symbol = q.Symbol ∧
        Truncate q.Timestamp Minute ≤ row.Timestamp ∧
        row.Timestamp < Truncate q.Timestamp Minute + Minute)) = p :: rest →
      MarketDataService.Create env st q =
        MarketDataRepository.Update env st (Clone env.now p.ToEntity q.Timestamp q.Open q.High
          q.Low q.Close q.Volume q.MACD q.MACDSignal q.MACDHist q.RSI6 q.RSI12 q.RSI24 q.SMA20
          q.SMA50 q.SMA200 q.ATR q.BollingerBands q.BollingerBandsWidth q.BollingerBandsUpper
          q.BollingerBandsLower q.OBV q.ADX q.ADXIndex q.ADXPositive q.ADXNegative q.Score)) := by
  have hrows := bucketFilters_rows st q
  have hget : ∀ rows, st.marketDatas.filter (fun row => decide (row.Symbol = q.Symbol ∧
        Truncate q.Timestamp Minute ≤ row.Timestamp ∧
        row.Timestamp < Truncate q.Timestamp Minute + Minute)) = rows →
      MarketDataRepository.GetAll env st (bucketFilters q) =
        .ok (rows.map MarketDataDTO.ToEntity) := by
    intro rows h
    simp only [MarketDataRepository.GetAll, hfind, hrows, h]
  constructor
  · intro h
    have hg := hget [] h
    simp only [bucketFilters] at hg
    simp only [MarketDataService.Create, hv, hg, List.map_nil]
  · intro p rest h
    have hg := hget (p :: rest) h
    simp only [bucketFilters] at hg
    simp only [MarketDataService.Create, hv, hg, List.map_cons, MarketDataService.Update]

/-- A valid point whose lookup the database fails on: `MarketDataService.Create` returns the
error of the lookup and writes nothing. -/
theorem MarketDataService_Create_lookup_error (env : MarketEnv) (st : MarketState)
    (q : MarketData) (e : Err) (hv : q.Validate = .ok ())
    (hfind : env.databaseError (.Find (bucketFilters q)) = some e) :
    MarketDataService.Create env st q = (.error e, st) := by
  simp only [bucketFilters] at hfind
  simp only [MarketDataService.Create, hv, MarketDataRepository.GetAll, hfind]

/-! ## The pushed-candle handler, case by case -/

/-- The idempotency lookup of `HandleMarketDataPushed`, when the database runs it, finds
something exactly when a stored row carries the identifier of the event as its correlation
id. -/
theorem idempotency_lookup (env : MarketEnv) (st : MarketState) (id : UUID)
    (hdb : env.databaseError (.Find (idempotencyFilters id)) = none) :
    ∃ mks, MarketDataService.GetAll env st
        (NewComplexFilter [.correlation_id id] "created_at" "desc" 0 1) = .ok mks ∧
      (mks.length > 0 ↔ ∃ row ∈ st.marketDatas, row.CorrelationID = id) := by
  simp only [idempotencyFilters] at hdb
  refine ⟨(st.marketDatas.filter (fun row => (NewComplexFilter [.correlation_id id] "created_at"
    "desc" 0 1).SetMetaParameters.QueryFromFilter row)).map MarketDataDTO.ToEntity, ?_, ?_⟩
  · simp only [MarketDataService.GetAll, MarketDataRepository.GetAll, hdb]
  · simp [NewComplexFilter, ComplexFilters.SetMetaParameters, ComplexFilters.QueryFromFilter,
      Filter.holds, List.length_pos, List.filter_eq_nil_iff]

/-- The idempotency lookup the database fails on: the handler returns the error and changes
nothing, whatever the event. -/
theorem HandleMarketDataPushed_lookup_error (env : MarketEnv) (st : MarketState)
    (event : MarketDataEvent) (e : Err)
    (hdb : env.databaseError (.Find (idempotencyFilters event.ID)) = some e) :
    HandleMarketDataPushed env st event = (.error e, st) := by
  simp only [idempotencyFilters] at hdb
  simp only [HandleMarketDataPushed, MarketDataService.GetAll, MarketDataRepository.GetAll, hdb]

/-- An event whose identifier is the correlation id of a stored row is skipped. -/
theorem HandleMarketDataPushed_processed (env : MarketEnv) (st : MarketState)
    (event : MarketDataEvent)
    (hdb : env.databaseError (.Find (idempotencyFilters event.ID)) = none)
    (h : ∃ row ∈ st.marketDatas, row.CorrelationID = event.ID) :
    HandleMarketDataPushed env st event = (.ok (), st) := by
  obtain ⟨mks, hget, hiff⟩ := idempotency_lookup env st event.ID hdb
  unfold HandleMarketDataPushed
  simp only [hget, hiff.mpr h, if_true]

/-- A closed, valid candle event that is new to the store and whose minute bucket holds no
point of its symbol, with a database that runs every statement: the point is inserted under
the identifier the factory drew, with the identifier of the event as its correlation id, and,
when the stream accepts the message, one recompute event naming that identifier is
published. -/
theorem HandleMarketDataPushed_inserts (env : MarketEnv) (st : MarketState)
    (event : MarketDataEvent)
    (hdb : ∀ call, env.databaseError call = none)
    (hnew : ∀ row ∈ st.marketDatas, row.CorrelationID ≠ event.ID)
    (hclosed : event.CandleClose = true)
    (hvalid : (NewMarketDataFromEvent st.nextID env.now event.ID event.Symbol
      event.DataTimestamp event.Open event.High event.Low event.Close event.Volume).Validate =
        .ok ())
    (hbucket : ∀ row ∈ st.marketDatas, ¬ (row.Symbol = event.Symbol ∧
      Truncate row.Timestamp Minute ≤ event.DataTimestamp ∧
      event.DataTimestamp < Truncate row.Timestamp Minute + Minute))
    (hpub : env.publishAsync env.NatsMarketDataDomainEventsSubject
      (NewPartialMarketDataEvent (st.nextID + 1) env.now env.MarketDataEventDomain
        env.PartialMarketDataEvent st.nextID) (st.nextID + 2) = .ok ()) :
    HandleMarketDataPushed env st event =
      (.ok (),
        { marketDatas := st.marketDatas ++ [MarketDataDTO.FromEntity
            (NewMarketDataFromEvent st.nextID env.now event.ID event.Symbol
              event.DataTimestamp event.Open event.High event.Low event.Close event.Volume)],
          published := st.published ++
            [{ Subject := env.NatsMarketDataDomainEventsSubject, MsgID := st.nextID + 2,
               Event := NewPartialMarketDataEvent (st.nextID + 1) env.now
                 env.MarketDataEventDomain env.PartialMarketDataEvent st.nextID }],
          nextID := st.nextID + 3 }) := by
  obtain ⟨mks, hget, hiff⟩ := idempotency_lookup env st event.ID (hdb _)
  have hlookup : ¬ mks.length > 0 := by
    rw [hiff]
    rintro ⟨row, hrow, hid⟩
    exact hnew row hrow hid
  have hf : st.newUUID.2.marketDatas.filter (fun row => decide (row.Symbol = event.Symbol ∧
      Truncate event.DataTimestamp Minute ≤ row.Timestamp ∧
      row.Timestamp < Truncate event.DataTimestamp Minute + Minute)) = [] := by
    rw [List.filter_eq_nil_iff]
    intro r hr hdec
    simp only [decide_eq_true_eq] at hdec
    exact hbucket r hr ⟨hdec.1, (Truncate_bucket r.Timestamp event.DataTimestamp).mpr hdec.2⟩
  have hvalid2 : (NewMarketDataFromEvent st.newUUID.1 env.now event.ID event.Symbol
      event.DataTimestamp event.Open event.High event.Low event.Close event.Volume).Validate =
        .ok () := hvalid
  have hcreate : MarketDataService.Create env st.newUUID.2
      (NewMarketDataFromEvent st.newUUID.1 env.now event.ID event.Symbol event.DataTimestamp
        event.Open event.High event.Low event.Close event.Volume) =
      MarketDataRepository.Create env st.newUUID.2
        (NewMarketDataFromEvent st.newUUID.1 env.now event.ID event.Symbol event.DataTimestamp
          event.Open event.High event.Low event.Close event.Volume) :=
    (MarketDataService_Create_cases env st.newUUID.2 _ hvalid2 (hdb _)).1 hf
  unfold HandleMarketDataPushed
  simp only [hget, hlookup, if_false, hclosed, Bool.not_true, Bool.false_eq_true, hvalid2,
    hcreate]
  simp only [MarketDataRepository.Create, hdb, MarketDataEvent.Dispatch, EventsPubSub.Publish,
    MarketState.newUUID, NewMarketDataFromEvent, NewRawMarketData, NewMarketData]
  simp [hpub, add_assoc]

/-- After the insertion of `HandleMarketDataPushed_inserts` the same event is skipped: the
second handling changes nothing. -/
theorem HandleMarketDataPushed_inserts_once (env env2 : MarketEnv) (st : MarketState)
    (event : MarketDataEvent)
    (hdb : ∀ call, env.databaseError call = none)
    (hdb2 : ∀ call, env2.databaseError call = none)
    (hnew : ∀ row ∈ st.marketDatas, row.CorrelationID ≠ event.ID)
    (hclosed : event.CandleClose = true)
    (hvalid : (NewMarketDataFromEvent st.nextID env.now event.ID event.Symbol
      event.DataTimestamp event.Open event.High event.Low event.Close event.Volume).Validate =
        .ok ())
    (hbucket : ∀ row ∈ st.marketDatas, ¬ (row.Symbol = event.Symbol ∧
      Truncate row.Timestamp Minute ≤ event.DataTimestamp ∧
      event.DataTimestamp < Truncate row.Timestamp Minute + Minute))
    (hpub : env.publishAsync env.NatsMarketDataDomainEventsSubject
      (NewPartialMarketDataEvent (st.nextID + 1) env.now env.MarketDataEventDomain
        env.PartialMarketDataEvent st.nextID) (st.nextID + 2) = .ok ()) :
    HandleMarketDataPushed env2 (HandleMarketDataPushed env st event).2 event =
      (.ok (), (HandleMarketDataPushed env st event).2) := by
  apply HandleMarketDataPushed_processed _ _ _ (hdb2 _)
  rw [HandleMarketDataPushed_inserts env st event hdb hnew hclosed hvalid hbucket hpub]
  exact ⟨_, List.mem_append_right _ (List.mem_singleton_self _), rfl⟩

/-- Rows after gorm `Save`: every row is a row stored before or the row written. -/
theorem MarketDataRepository_Update_rows (env : MarketEnv) (st : MarketState) (m : MarketData) :
    ∀ row ∈ (MarketDataRepository.Update env st m).2.marketDatas,
      row ∈ st.marketDatas ∨ row = MarketDataDTO.FromEntity m := by
  intro row hrow
  simp only [MarketDataRepository.Update] at hrow
  split at hrow
  · exact Or.inl hrow
  · split at hrow
    · simp only [List.mem_map] at hrow
      obtain ⟨r, hr, rfl⟩ := hrow
      split_ifs
      · exact Or.inr rfl
      · exact Or.inl hr
    · simp only [List.mem_append, List.mem_singleton] at hrow
      exact hrow

/-- A closed, valid candle event that is new to the store and whose minute bucket already
holds points of its symbol, the first of them `p`, with a database that runs every statement:
the candle is merged into `p` (the row keeps the identifier, correlation id and creation time
of `p`), and the recompute event published names the identifier the factory drew for the
incoming point. -/
theorem HandleMarketDataPushed_merges (env : MarketEnv) (st : MarketState)
    (event : MarketDataEvent) (p : MarketDataDTO) (rest : List MarketDataDTO)
    (hdb : ∀ call, env.databaseError call = none)
    (hnew : ∀ row ∈ st.marketDatas, row.CorrelationID ≠ event.ID)
    (hclosed : event.CandleClose = true)
    (hvalid : (NewMarketDataFromEvent st.nextID env.now event.ID event.Symbol
      event.DataTimestamp event.Open event.High event.Low event.Close event.Volume).Validate =
        .ok ())
    (hbucket : st.marketDatas.filter (fun row => decide (row.Symbol = event.Symbol ∧
      Truncate event.DataTimestamp Minute ≤ row.Timestamp ∧
      row.Timestamp < Truncate event.DataTimestamp Minute + Minute)) = p :: rest)
    (hpub : env.publishAsync env.NatsMarketDataDomainEventsSubject
      (NewPartialMarketDataEvent (st.nextID + 1) env.now env.MarketDataEventDomain
        env.PartialMarketDataEvent st.nextID) (st.nextID + 2) = .ok ()) :
    HandleMarketDataPushed env st event =
      (.ok (),
        { marketDatas := st.marketDatas.map (fun row =>
            if row.ID = p.ID then
              MarketDataDTO.FromEntity (Clone env.now p.ToEntity event.DataTimestamp event.Open
                event.High event.Low event.Close event.Volume none none none none none none
                none none none none none none none none none none none none none none)
            else row),
          published := st.published ++
            [{ Subject := env.NatsMarketDataDomainEventsSubject, MsgID := st.nextID + 2,
               Event := NewPartialMarketDataEvent (st.nextID + 1) env.now
                 env.MarketDataEventDomain env.PartialMarketDataEvent st.nextID }],
          nextID := st.nextID + 3 }) := by
  obtain ⟨mks, hget, hiff⟩ := idempotency_lookup env st event.ID (hdb _)
  have hlookup : ¬ mks.length > 0 := by
    rw [hiff]
    rintro ⟨row, hrow, hid⟩
    exact hnew row hrow hid
  have hp : p ∈ st.marketDatas := by
    have : p ∈ st.marketDatas.filter (fun row => decide (row.Symbol = event.Symbol ∧
        Truncate event.DataTimestamp Minute ≤ row.Timestamp ∧
        row.Timestamp < Truncate event.DataTimestamp Minute + Minute)) := by
      rw [hbucket]; exact List.mem_cons_self p rest
    exact (List.mem_filter.mp this).1
  have hany : st.marketDatas.any (fun row => decide (row.ID = p.ID)) = true := by
    rw [List.any_eq_true]
    exact ⟨p, hp, by simp⟩
  have hvalid2 : (NewMarketDataFromEvent st.newUUID.1 env.now event.ID event.Symbol
      event.DataTimestamp event.Open event.High event.Low event.Close event.Volume).Validate =
        .ok () := hvalid
  have hcreate := (MarketDataService_Create_cases env st.newUUID.2
    (NewMarketDataFromEvent st.newUUID.1 env.now event.ID event.Symbol event.DataTimestamp
      event.Open event.High event.Low event.Close event.Volume) hvalid2 (hdb _)).2 p rest hbucket
  unfold HandleMarketDataPushed
  simp only [hget, hlookup, if_false, hclosed, Bool.not_true, Bool.false_eq_true, hvalid2,
    hcreate]
  simp only [MarketDataRepository.Update, hdb, MarketDataEvent.Dispatch, EventsPubSub.Publish,
    MarketState.newUUID, NewMarketDataFromEvent, NewRawMarketData, NewMarketData, Clone,
    MarketDataDTO.FromEntity, MarketDataDTO.ToEntity, hany, if_true]
  simp [hpub, add_assoc]

/-- After the merge of `HandleMarketDataPushed_merges` the event is as unknown to the store
as before: no row carries its identifier as correlation id. -/
theorem HandleMarketDataPushed_merges_unrecorded (env : MarketEnv) (st : MarketState)
    (event : MarketDataEvent) (p : MarketDataDTO) (rest : List MarketDataDTO)
    (hdb : ∀ call, env.databaseError call = none)
    (hnew : ∀ row ∈ st.marketDatas, row.CorrelationID ≠ event.ID)
    (hclosed : event.CandleClose = true)
    (hvalid : (NewMarketDataFromEvent st.nextID env.now event.ID event.Symbol
      event.DataTimestamp event.Open event.High event.Low event.Close event.Volume).Validate =
        .ok ())
    (hbucket : st.marketDatas.filter (fun row => decide (row.Symbol = event.Symbol ∧
      Truncate event.DataTimestamp Minute ≤ row.Timestamp ∧
      row.Timestamp < Truncate event.DataTimestamp Minute + Minute)) = p :: rest)
    (hpub : env.publishAsync env.NatsMarketDataDomainEventsSubject
      (NewPartialMarketDataEvent (st.nextID + 1) env.now env.MarketDataEventDomain
        env.PartialMarketDataEvent st.nextID) (st.nextID + 2) = .ok ()) :
    ∀ row ∈ (HandleMarketDataPushed env st event).2.marketDatas,
      row.CorrelationID ≠ event.ID := by
  have hp : p ∈ st.marketDatas := by
    have : p ∈ st.marketDatas.filter (fun row => decide (row.Symbol = event.Symbol ∧
        Truncate event.DataTimestamp Minute ≤ row.Timestamp ∧
        row.Timestamp < Truncate event.DataTimestamp Minute + Minute)) := by
      rw [hbucket]; exact List.mem_cons_self p rest
    exact (List.mem_filter.mp this).1
  rw [HandleMarketDataPushed_merges env st event p rest hdb hnew hclosed hvalid hbucket hpub]
  intro row hrow
  simp only [List.mem_map] at hrow
  obtain ⟨r, hr, rfl⟩ := hrow
  split_ifs
  · exact hnew p hp
  · exact hnew r hr

/-! ## C11: handling the same event twice -/

/-- C11 (evaluation of the code at the failing input): the store holds the BTCUSDT point 100
of minute 1000, and the closed, valid event 777 for the same symbol and minute is handled
twice. Both handlings return nil. The first merges the candle into point 100, which keeps
its correlation id 100, and publishes a recompute event; the second finds no point with
correlation id 777, merges the candle again and publishes a second recompute event: two
triggers instead of one, and no stored point carries the correlation id of the event. -/
theorem C11_merged_event_is_handled_twice :
    (HandleMarketDataPushed exMarketEnv (exMarketState [exStoredPoint]) exClosedEvent).1 =
      .ok () ∧
    (HandleMarketDataPushed exMarketEnv (exMarketState [exStoredPoint])
        exClosedEvent).2.published.map (fun m => m.Event.DatapointID) = [5000] ∧
    (HandleMarketDataPushed exMarketEnv
        (HandleMarketDataPushed exMarketEnv (exMarketState [exStoredPoint]) exClosedEvent).2
        exClosedEvent).1 = .ok () ∧
    (HandleMarketDataPushed exMarketEnv
        (HandleMarketDataPushed exMarketEnv (exMarketState [exStoredPoint]) exClosedEvent).2
        exClosedEvent).2.published.map (fun m => m.Event.DatapointID) = [5000, 5003] ∧
    (HandleMarketDataPushed exMarketEnv
        (HandleMarketDataPushed exMarketEnv (exMarketState [exStoredPoint]) exClosedEvent).2
        exClosedEvent).2.marketDatas.map (fun row => (row.ID, row.CorrelationID)) =
      [(100, 100)] := by
  refine ⟨?_, ?_, ?_, ?_, ?_⟩
  all_goals with_unfolding_all rfl

/-! ## C12: the upsert of `Create` -/

/-- The rows whose minute bucket contains the timestamp of `q` are the rows in the minute
bucket of `q`. -/
theorem bucket_rows_symm (st : MarketState) (q : MarketData) :
    st.marketDatas.filter (fun row => decide (row.Symbol = q.Symbol ∧
        Truncate row.Timestamp Minute ≤ q.Timestamp ∧
        q.Timestamp < Truncate row.Timestamp Minute + Minute)) =
      st.marketDatas.filter (fun row => decide (row.Symbol = q.Symbol ∧
        Truncate q.Timestamp Minute ≤ row.Timestamp ∧
        row.Timestamp < Truncate q.Timestamp Minute + Minute)) := by
  congr 1
  funext row
  rw [Bool.eq_iff_iff]
  simp only [decide_eq_true_eq]
  exact and_congr_right (fun _ => Truncate_bucket row.Timestamp q.Timestamp)

/-- C12 (the claim as written fails): the store holds the BTCUSDT points 100 and 101, both
of minute 1000, in this order. Point 101 is a stored point `p` of the symbol and minute
bucket of the valid incoming point 7, yet `Create` yields a point with the identity and
creation time of point 100, the first row the lookup answers, and not those of `p`; row 101
is left as it was. -/
theorem C12_Create_merges_into_first_row_of_bucket :
    exSecondStoredPoint ∈ (exMarketState [exStoredPoint, exSecondStoredPoint]).marketDatas ∧
    exSecondStoredPoint.Symbol = exIncomingPoint.Symbol ∧
    Truncate exSecondStoredPoint.Timestamp Minute ≤ exIncomingPoint.Timestamp ∧
    exIncomingPoint.Timestamp < Truncate exSecondStoredPoint.Timestamp Minute + Minute ∧
    exIncomingPoint.Validate = .ok () ∧
    (∃ created, (MarketDataService.Create exMarketEnv
        (exMarketState [exStoredPoint, exSecondStoredPoint]) exIncomingPoint).1 =
          .ok created ∧
      created.ID = 100 ∧ exSecondStoredPoint.ID = 101 ∧
      created.CreatedAt = 1000 * Minute ∧
      exSecondStoredPoint.CreatedAt = 1000 * Minute + 10000000000) ∧
    (MarketDataService.Create exMarketEnv (exMarketState [exStoredPoint, exSecondStoredPoint])
        exIncomingPoint).2.marketDatas.map (fun row => (row.ID, row.Timestamp, row.Close)) =
      [(100, 1000 * Minute + 30000000000, 102), (101, 1000 * Minute + 10000000000, 1)] := by
  refine ⟨?_, ?_, ?_, ?_, ?_, ⟨(MarketDataDTO.FromEntity (mergedPoint exMarketEnv.now
    exStoredPoint.ToEntity exIncomingPoint)).ToEntity, ?_, ?_, ?_, ?_, ?_⟩, ?_⟩
  · exact List.mem_cons_of_mem _ (List.mem_singleton_self _)
  · rfl
  · with_unfolding_all decide
  · with_unfolding_all decide
  all_goals with_unfolding_all rfl

/-- C12 (amended): let `q` be a valid incoming point. If the database runs the lookup and
the rows of the symbol of `q` whose minute bucket [floor(ts, 1min), floor + 1min) contains
the timestamp of `q` are, in storage order, `p` and then `rest`, and the database runs the
`Save` of the merged point, `Create(q)` returns a point with the identity and creation time
of `p` and the timestamp and OHLCV of `q`, stores it, and inserts no new point (the
identifiers of the rows are the same as before). If the database runs the lookup, no stored
point of the symbol lies in that bucket and the database runs the insert, `Create(q)` inserts
`q` as a new row. If the database fails on the lookup or on the write, `Create(q)` returns
its error and the store is as before. -/
theorem C12_Create_upserts_minute_bucket (env : MarketEnv) (st : MarketState) (q : MarketData)
    (hv : q.Validate = .ok ()) :
    (∀ p rest, st.marketDatas.filter (fun row => decide (row.Symbol = q.Symbol ∧
        Truncate row.Timestamp Minute ≤ q.Timestamp ∧
        q.Timestamp < Truncate row.Timestamp Minute + Minute)) = p :: rest →
      env.databaseError (.Find (bucketFilters q)) = none →
      env.databaseError
        (.Save (MarketDataDTO.FromEntity (mergedPoint env.now p.ToEntity q))) = none →
      ∃ created, (MarketDataService.Create env st q).1 = .ok created ∧
        created.ID = p.ID ∧ created.CreatedAt = p.CreatedAt ∧
        created.Timestamp = q.Timestamp ∧ created.Open = q.Open ∧ created.High = q.High ∧
        created.Low = q.Low ∧ created.Close = q.Close ∧ created.Volume = q.Volume ∧
        MarketDataDTO.FromEntity created ∈
          (MarketDataService.Create env st q).2.marketDatas ∧
        (MarketDataService.Create env st q).2.marketDatas.map (fun row => row.ID) =
          st.marketDatas.map (fun row => row.ID)) ∧
    ((∀ p ∈ st.marketDatas, ¬ (p.Symbol = q.Symbol ∧
        Truncate p.Timestamp Minute ≤ q.Timestamp ∧
        q.Timestamp < Truncate p.Timestamp Minute + Minute)) →
      env.databaseError (.Find (bucketFilters q)) = none →
      env.databaseError (.Create (MarketDataDTO.FromEntity q)) = none →
      (MarketDataService.Create env st q).1 = .ok (MarketDataDTO.FromEntity q).ToEntity ∧
      (MarketDataService.Create env st q).2.marketDatas =
        st.marketDatas ++ [MarketDataDTO.FromEntity q]) ∧
    (∀ e, env.databaseError (.Find (bucketFilters q)) = some e →
      MarketDataService.Create env st q = (.error e, st)) ∧
    (∀ p rest e, st.marketDatas.filter (fun row => decide (row.Symbol = q.Symbol ∧
        Truncate row.Timestamp Minute ≤ q.Timestamp ∧
        q.Timestamp < Truncate row.Timestamp Minute + Minute)) = p :: rest →
      env.databaseError (.Find (bucketFilters q)) = none →
      env.databaseError
        (.Save (MarketDataDTO.FromEntity (mergedPoint env.now p.ToEntity q))) = some e →
      MarketDataService.Create env st q = (.error e, st)) ∧
    (∀ e, (∀ p ∈ st.marketDatas, ¬ (p.Symbol = q.Symbol ∧
        Truncate p.Timestamp Minute ≤ q.Timestamp ∧
        q.Timestamp < Truncate p.Timestamp Minute + Minute)) →
      env.databaseError (.Find (bucketFilters q)) = none →
      env.databaseError (.Create (MarketDataDTO.FromEntity q)) = some e →
      MarketDataService.Create env st q = (.error e, st)) := by
  have hnil : (∀ p ∈ st.marketDatas, ¬ (p.Symbol = q.Symbol ∧
        Truncate p.Timestamp Minute ≤ q.Timestamp ∧
        q.Timestamp < Truncate p.Timestamp Minute + Minute)) →
      st.marketDatas.filter (fun row => decide (row.Symbol = q.Symbol ∧
        Truncate q.Timestamp Minute ≤ row.Timestamp ∧
        row.Timestamp < Truncate q.Timestamp Minute + Minute)) = [] := by
    intro hnone
    rw [List.filter_eq_nil_iff]
    intro r hr hdec
    simp only [decide_eq_true_eq] at hdec
    exact hnone r hr ⟨hdec.1, (Truncate_bucket r.Timestamp q.Timestamp).mpr hdec.2⟩
  refine ⟨?_, ?_, ?_, ?_, ?_⟩
  · intro p rest hf hfind hsave
    rw [bucket_rows_symm] at hf
    have hp : p ∈ st.marketDatas := by
      have : p ∈ st.marketDatas.filter (fun row => decide (row.Symbol = q.Symbol ∧
          Truncate q.Timestamp Minute ≤ row.Timestamp ∧
          row.Timestamp < Truncate q.Timestamp Minute + Minute)) := by
        rw [hf]; exact List.mem_cons_self p rest
      exact (List.mem_filter.mp this).1
    have hex : ∃ row ∈ st.marketDatas, row.ID = (mergedPoint env.now p.ToEntity q).ID :=
      ⟨p, hp, rfl⟩
    have hc : MarketDataService.Create env st q =
        MarketDataRepository.Update env st (mergedPoint env.now p.ToEntity q) :=
      (MarketDataService_Create_cases env st q hv hfind).2 p rest hf
    rw [hc]
    exact ⟨(MarketDataDTO.FromEntity (mergedPoint env.now p.ToEntity q)).ToEntity,
      MarketDataRepository_Update_ok env st _ hsave, rfl, rfl, rfl, rfl, rfl, rfl, rfl, rfl,
      MarketDataRepository_Update_mem env st _ hsave hex,
      MarketDataRepository_Update_ids env st _ hex⟩
  · intro hnone hfind hcreate
    rw [(MarketDataService_Create_cases env st q hv hfind).1 (hnil hnone)]
    simp only [MarketDataRepository.Create, hcreate, and_self]
  · intro e hfind
    exact MarketDataService_Create_lookup_error env st q e hv hfind
  · intro p rest e hf hfind hsave
    rw [bucket_rows_symm] at hf
    have hc : MarketDataService.Create env st q =
        MarketDataRepository.Update env st (mergedPoint env.now p.ToEntity q) :=
      (MarketDataService_Create_cases env st q hv hfind).2 p rest hf
    rw [hc]
    simp only [MarketDataRepository.Update, hsave]
  · intro e hnone hfind hcreate
    rw [(MarketDataService_Create_cases env st q hv hfind).1 (hnil hnone)]
    simp only [MarketDataRepository.Create, hcreate]

/-- Witness of C12: the store holds the BTCUSDT points 100 and 101 of minute 1000, in this
order; the valid point 7, thirty seconds into that minute, is merged into point 100. -/
theorem C12_Create_upserts_minute_bucket_witness :
    ∃ created, (MarketDataService.Create exMarketEnv
        (exMarketState [exStoredPoint, exSecondStoredPoint]) exIncomingPoint).1 =
          .ok created ∧
      created.ID = exStoredPoint.ID ∧ created.CreatedAt = exStoredPoint.CreatedAt ∧
      created.Timestamp = exIncomingPoint.Timestamp ∧ created.Open = exIncomingPoint.Open ∧
      created.High = exIncomingPoint.High ∧ created.Low = exIncomingPoint.Low ∧
      created.Close = exIncomingPoint.Close ∧ created.Volume = exIncomingPoint.Volume ∧
      MarketDataDTO.FromEntity created ∈
        (MarketDataService.Create exMarketEnv
          (exMarketState [exStoredPoint, exSecondStoredPoint])
          exIncomingPoint).2.marketDatas ∧
      (MarketDataService.Create exMarketEnv
          (exMarketState [exStoredPoint, exSecondStoredPoint])
          exIncomingPoint).2.marketDatas.map (fun row => row.ID) =
        (exMarketState [exStoredPoint, exSecondStoredPoint]).marketDatas.map
          (fun row => row.ID) :=
  (C12_Create_upserts_minute_bucket exMarketEnv
    (exMarketState [exStoredPoint, exSecondStoredPoint]) exIncomingPoint
    (by with_unfolding_all decide)).1 exStoredPoint [exSecondStoredPoint]
    (by with_unfolding_all rfl) rfl rfl

/-! ## C13: the identifier the recompute event carries -/

/-- C13 (evaluation of the code at the failing input): the store holds the BTCUSDT point 100
of minute 1000 and the closed, valid event 777 for the same symbol and minute arrives. The
handler accepts it and the candle is persisted in point 100 (close 102), but the recompute
event it publishes carries the identifier 5000 the factory drew for the incoming point, and
no stored point has that identifier. -/
theorem C13_recompute_event_names_unstored_point :
    (HandleMarketDataPushed exMarketEnv (exMarketState [exStoredPoint]) exClosedEvent).1 =
      .ok () ∧
    (HandleMarketDataPushed exMarketEnv (exMarketState [exStoredPoint])
        exClosedEvent).2.marketDatas.map (fun row => (row.ID, row.Timestamp, row.Close)) =
      [(100, 1000 * Minute + 30000000000, 102)] ∧
    (HandleMarketDataPushed exMarketEnv (exMarketState [exStoredPoint])
        exClosedEvent).2.published.map (fun m => (m.Event.EventType, m.Event.DatapointID)) =
      [("partial_market_data", 5000)] ∧
    MarketDataService.GetByID exMarketEnv
        (HandleMarketDataPushed exMarketEnv (exMarketState [exStoredPoint]) exClosedEvent).2
        5000 = .error .ErrRecordNotFound := by
  refine ⟨?_, ?_, ?_, ?_⟩
  all_goals with_unfolding_all rfl

/-! ## C14: validation of a point -/

/-- An error of `MarketDataService.Create` is the error of the validation of the point or an
error of the database. -/
theorem MarketDataService_Create_error (env : MarketEnv) (st : MarketState) (m : MarketData)
    (e : Err) (h : (MarketDataService.Create env st m).1 = .error e) :
    m.Validate = .error e ∨ ∃ call, env.databaseError call = some e := by
  unfold MarketDataService.Create at h
  cases hv : m.Validate with
  | error e0 =>
    rw [hv] at h
    simp only [Except.error.injEq] at h
    exact Or.inl (by rw [h])
  | ok u =>
    right
    rw [hv] at h
    simp only [MarketDataRepository.GetAll] at h
    cases hfind : env.databaseError (.Find (NewComplexFilter
        [.symbol m.Symbol, .timestamp__gte (Truncate m.Timestamp Minute),
          .timestamp__lt (Truncate m.Timestamp Minute + Minute)] "created_at" "desc" 1 100)) with
    | some e0 =>
      rw [hfind] at h
      simp only [Except.error.injEq] at h
      exact ⟨_, by rw [hfind, h]⟩
    | none =>
      rw [hfind] at h
      simp only [] at h
      split at h
      · rename_i heq
        cases heq
      · simp only [MarketDataService.Update, MarketDataRepository.Update] at h
        split at h
        · rename_i e0 hsave
          simp only [Except.error.injEq] at h
          exact ⟨_, by rw [hsave, h]⟩
        · split at h <;> cases h
      · simp only [MarketDataRepository.Create] at h
        split at h
        · rename_i e0 hcreate
          simp only [Except.error.injEq] at h
          exact ⟨_, by rw [hcreate, h]⟩
        · cases h

/-- C14: `MarketData.Validate` fails, with one of the validation errors of the market
domain, if and only if the symbol does not end in "USDT", or the timestamp is the zero
time, or one of open, high, low, close, volume is negative; it returns nothing else than
nil or one of these errors. When `Validate` fails, `Create` fails with the same error and
the store is as before. An error of `Create` is the error of `Validate` or an error the
database returned; with a database that runs every statement `Create` fails exactly when
`Validate` does, with the same error. -/
theorem C14_Validate_rejects_exactly (env : MarketEnv) (st : MarketState) (m : MarketData) :
    ((∃ e ∈ [Err.ErrInvalidMarketSymbol, Err.ErrInvalidMarketTimestamp,
          Err.ErrInvalidMarketOpen, Err.ErrInvalidMarketHigh, Err.ErrInvalidMarketLow,
          Err.ErrInvalidMarketClose, Err.ErrInvalidMarketVolume], m.Validate = .error e) ↔
      (HasSuffix m.Symbol "USDT" = false ∨ m.Timestamp = 0 ∨ m.Open < 0 ∨ m.High < 0 ∨
        m.Low < 0 ∨ m.Close < 0 ∨ m.Volume < 0)) ∧
    (m.Validate = .ok () ∨
      ∃ e ∈ [Err.ErrInvalidMarketSymbol, Err.ErrInvalidMarketTimestamp,
          Err.ErrInvalidMarketOpen, Err.ErrInvalidMarketHigh, Err.ErrInvalidMarketLow,
          Err.ErrInvalidMarketClose, Err.ErrInvalidMarketVolume], m.Validate = .error e) ∧
    (∀ e, (MarketDataService.Create env st m).1 = .error e →
      m.Validate = .error e ∨ ∃ call, env.databaseError call = some e) ∧
    ((∀ call, env.databaseError call = none) →
      ∀ e, (MarketDataService.Create env st m).1 = .error e ↔ m.Validate = .error e) ∧
    (∀ e, m.Validate = .error e → MarketDataService.Create env st m = (.error e, st)) := by
  refine ⟨?_, ?_, MarketDataService_Create_error env st m, ?_, ?_⟩
  · unfold MarketData.Validate
    split_ifs <;> simp_all
  · unfold MarketData.Validate
    split_ifs <;> simp
  · intro hdb e
    constructor
    · intro h
      rcases MarketDataService_Create_error env st m e h with hval | ⟨call, hcall⟩
      · exact hval
      · rw [hdb call] at hcall
        cases hcall
    · intro he
      simp [MarketDataService.Create, he]
  · intro e he
    simp [MarketDataService.Create, he]

/-- Witness of C14: a point for the symbol `BTC` fails the validation with the
invalid-symbol error, and `Create` returns that error and leaves the store as it was. -/
theorem C14_Validate_rejects_exactly_witness :
    MarketDataService.Create exMarketEnv (exMarketState [exStoredPoint])
        { exIncomingPoint with Symbol := "BTC" } =
      (.error .ErrInvalidMarketSymbol, exMarketState [exStoredPoint]) :=
  (C14_Validate_rejects_exactly exMarketEnv (exMarketState [exStoredPoint])
    { exIncomingPoint with Symbol := "BTC" }).2.2.2.2 .ErrInvalidMarketSymbol
    (by with_unfolding_all decide)

/-! ## C15: candles that are not closed -/

/-- C15 (the claim as written fails): the database fails on `Find`, and an open BTCUSDT
candle arrives. The handler runs the idempotency lookup before it looks at the closed flag,
so it returns the error of the database instead of nil. -/
theorem C15_open_candle_fails_on_lookup_error :
    (exCandleEvent 777 "BTCUSDT" (1000 * Minute + 30000000000) false).CandleClose = false ∧
    HandleMarketDataPushed exFailingMarketEnv (exMarketState [exStoredPoint])
        (exCandleEvent 777 "BTCUSDT" (1000 * Minute + 30000000000) false) =
      (.error ⟨"driver: bad connection"⟩, exMarketState [exStoredPoint]) := by
  refine ⟨rfl, ?_⟩
  with_unfolding_all rfl

/-- C15 (amended): for every candle-pushed event whose closed flag is false,
`HandleMarketDataPushed` leaves the state as it was: no point is persisted or changed and no
event is dispatched. It returns nil when the database runs the idempotency lookup, and the
error of the database when the lookup fails. -/
theorem C15_open_candle_is_dropped (env : MarketEnv) (st : MarketState)
    (event : MarketDataEvent) (h : event.CandleClose = false) :
    (HandleMarketDataPushed env st event).2 = st ∧
    (env.databaseError (.Find (idempotencyFilters event.ID)) = none →
      HandleMarketDataPushed env st event = (.ok (), st)) ∧
    (∀ e, env.databaseError (.Find (idempotencyFilters event.ID)) = some e →
      HandleMarketDataPushed env st event = (.error e, st)) := by
  have hok : env.databaseError (.Find (idempotencyFilters event.ID)) = none →
      HandleMarketDataPushed env st event = (.ok (), st) := by
    intro hdb
    obtain ⟨mks, hget, _⟩ := idempotency_lookup env st event.ID hdb
    unfold HandleMarketDataPushed
    simp only [hget, h]
    split_ifs <;> simp_all
  refine ⟨?_, hok, fun e he => HandleMarketDataPushed_lookup_error env st event e he⟩
  cases hdb : env.databaseError (.Find (idempotencyFilters event.ID)) with
  | none => rw [hok hdb]
  | some e => rw [HandleMarketDataPushed_lookup_error env st event e hdb]

/-- Witness of C15: an open BTCUSDT candle arrives at the store that holds point 100, with
a database that runs every statement. -/
theorem C15_open_candle_is_dropped_witness :
    HandleMarketDataPushed exMarketEnv (exMarketState [exStoredPoint])
        (exCandleEvent 777 "BTCUSDT" (1000 * Minute + 30000000000) false) =
      (.ok (), exMarketState [exStoredPoint]) :=
  (C15_open_candle_is_dropped exMarketEnv (exMarketState [exStoredPoint])
    (exCandleEvent 777 "BTCUSDT" (1000 * Minute + 30000000000) false) rfl).2.1 rfl

/-! ## Indicator families: helper lemmas -/

theorem length_sortByCreatedAtDesc (marketDatas : List MarketData) :
    (sortByCreatedAtDesc marketDatas).length = marketDatas.length :=
  List.length_insertionSort _ marketDatas

theorem length_chronological (marketDatas : List MarketData) :
    (chronological marketDatas).length = marketDatas.length := by
  simp [chronological, length_sortByCreatedAtDesc]

theorem mem_chronological (marketDatas : List MarketData) (x : MarketData) :
    x ∈ chronological marketDatas ↔ x ∈ marketDatas := by
  simp [chronological, sortByCreatedAtDesc, List.mem_insertionSort]

/-- A non-empty slice has a last element after the sort and the reversal. -/
theorem chronological_getLast (marketDatas : List MarketData) (h : 0 < marketDatas.length) :
    ∃ latest, (chronological marketDatas).getLast? = some latest := by
  have hne : chronological marketDatas ≠ [] := by
    intro hnil
    have := length_chronological marketDatas
    rw [hnil] at this
    simp at this
    omega
  exact ⟨_, List.getLast?_eq_getLast _ hne⟩

/-- With enough points `CalculateMACD` returns a point and leaves the slice oldest first. -/
theorem CalculateMACD_ok (t : Techan) (marketDatas : List MarketData)
    (h : 26 ≤ marketDatas.length) :
    ∃ p, CalculateMACD t marketDatas = (.ok p, chronological marketDatas) := by
  obtain ⟨latest, hl⟩ := chronological_getLast marketDatas (by omega)
  simp only [CalculateMACD, not_lt.mpr h, if_false, hl]
  exact ⟨_, rfl⟩

theorem CalculateRSI_ok (t : Techan) (marketDatas : List MarketData)
    (h : 24 ≤ marketDatas.length) :
    ∃ p, CalculateRSI t marketDatas = (.ok p, chronological marketDatas) := by
  obtain ⟨latest, hl⟩ := chronological_getLast marketDatas (by omega)
  simp only [CalculateRSI, not_lt.mpr h, if_false, hl]
  exact ⟨_, rfl⟩

theorem CalculateSMA_ok (t : Techan) (marketDatas : List MarketData)
    (h : 200 ≤ marketDatas.length) :
    ∃ p, CalculateSMA t marketDatas = (.ok p, chronological marketDatas) := by
  obtain ⟨latest, hl⟩ := chronological_getLast marketDatas (by omega)
  simp only [CalculateSMA, not_lt.mpr h, if_false, hl]
  exact ⟨_, rfl⟩

theorem CalculateATR_ok (t : Techan) (marketDatas : List MarketData)
    (h : 14 ≤ marketDatas.length) :
    ∃ p, CalculateATR t marketDatas = (.ok p, chronological marketDatas) := by
  obtain ⟨latest, hl⟩ := chronological_getLast marketDatas (by omega)
  simp only [CalculateATR, not_lt.mpr h, if_false, hl]
  exact ⟨_, rfl⟩

theorem CalculateBollingerBands_ok (t : Techan) (marketDatas : List MarketData)
    (h : 20 ≤ marketDatas.length) :
    ∃ p, CalculateBollingerBands t marketDatas = (.ok p, chronological marketDatas) := by
  obtain ⟨latest, hl⟩ := chronological_getLast marketDatas (by omega)
  simp only [CalculateBollingerBands, not_lt.mpr h, if_false, hl]
  exact ⟨_, rfl⟩

theorem CalculateOBV_ok (t : Techan) (marketDatas : List MarketData)
    (h : 14 ≤ marketDatas.length) :
    ∃ p, CalculateOBV t marketDatas = (.ok p, chronological marketDatas) := by
  obtain ⟨latest, hl⟩ := chronological_getLast marketDatas (by omega)
  simp only [CalculateOBV, not_lt.mpr h, if_false, hl]
  exact ⟨_, rfl⟩

theorem CalculateADX_ok (marketDatas : List MarketData) (h : 14 ≤ marketDatas.length) :
    ∃ p, CalculateADX marketDatas = (.ok p, chronological marketDatas) := by
  obtain ⟨latest, hl⟩ := chronological_getLast marketDatas (by omega)
  simp only [CalculateADX, not_lt.mpr h, if_false, hl]
  exact ⟨_, rfl⟩

/-! ## C16: the minimum window of every family -/

/-- C16: for each of the seven indicator families with its minimum window m (MACD 26, RSI 24,
SMA 200, ATR 14, Bollinger 20, OBV 14, ADX 14) and every window of candle points, the
Calculate operation of the family fails with the InsufficientData error of that family, and
so returns no point, when the window has fewer than m points, and returns a point with no
error when the window has m points or more (in particular exactly m). -/
theorem C16_minimum_window (t : Techan) (marketDatas : List MarketData) :
    ∀ family ∈ [(CalculateMACD t, 26, Err.ErrInsufficientDataForMACDCalculation),
        (CalculateRSI t, 24, Err.ErrInsufficientDataForRSI),
        (CalculateSMA t, 200, Err.ErrInsufficientDataForSMA),
        (CalculateATR t, 14, Err.ErrInsufficientDataForATR),
        (CalculateBollingerBands t, 20, Err.ErrInsufficientDataForBollingerBands),
        (CalculateOBV t, 14, Err.ErrInsufficientDataForOBV),
        (CalculateADX, 14, Err.ErrInsufficientDataForADX)],
      (marketDatas.length < family.2.1 → (family.1 marketDatas).1 = .fail family.2.2) ∧
      (family.2.1 ≤ marketDatas.length → ∃ p, (family.1 marketDatas).1 = .ok p) := by
  intro family hf
  simp only [List.mem_cons, List.mem_singleton, List.not_mem_nil, or_false] at hf
  rcases hf with rfl | rfl | rfl | rfl | rfl | rfl | rfl
  · refine ⟨fun h => by simp [CalculateMACD, h], fun h => ?_⟩
    obtain ⟨p, hp⟩ := CalculateMACD_ok t marketDatas h
    exact ⟨p, congrArg Prod.fst hp⟩
  · refine ⟨fun h => by simp [CalculateRSI, h], fun h => ?_⟩
    obtain ⟨p, hp⟩ := CalculateRSI_ok t marketDatas h
    exact ⟨p, congrArg Prod.fst hp⟩
  · refine ⟨fun h => by simp [CalculateSMA, h], fun h => ?_⟩
    obtain ⟨p, hp⟩ := CalculateSMA_ok t marketDatas h
    exact ⟨p, congrArg Prod.fst hp⟩
  · refine ⟨fun h => by simp [CalculateATR, h], fun h => ?_⟩
    obtain ⟨p, hp⟩ := CalculateATR_ok t marketDatas h
    exact ⟨p, congrArg Prod.fst hp⟩
  · refine ⟨fun h => by simp [CalculateBollingerBands, h], fun h => ?_⟩
    obtain ⟨p, hp⟩ := CalculateBollingerBands_ok t marketDatas h
    exact ⟨p, congrArg Prod.fst hp⟩
  · refine ⟨fun h => by simp [CalculateOBV, h], fun h => ?_⟩
    obtain ⟨p, hp⟩ := CalculateOBV_ok t marketDatas h
    exact ⟨p, congrArg Prod.fst hp⟩
  · refine ⟨fun h => by simp [CalculateADX, h], fun h => ?_⟩
    obtain ⟨p, hp⟩ := CalculateADX_ok marketDatas h
    exact ⟨p, congrArg Prod.fst hp⟩

/-- Witness of C16: thirteen points are too few for the ADX family, fourteen are enough. -/
theorem C16_minimum_window_witness :
    (CalculateADX (exRisingWindow 13)).1 = .fail .ErrInsufficientDataForADX ∧
    ∃ p, (CalculateADX (exRisingWindow 14)).1 = .ok p :=
  ⟨(C16_minimum_window exTechan (exRisingWindow 13)
      (CalculateADX, 14, Err.ErrInsufficientDataForADX) (by simp)).1
      (by simp [exRisingWindow]),
   (C16_minimum_window exTechan (exRisingWindow 14)
      (CalculateADX, 14, Err.ErrInsufficientDataForADX) (by simp)).2
      (by simp [exRisingWindow])⟩

/-! ## C17: the order of the families -/

theorem chronological_perm (marketDatas : List MarketData) :
    (chronological marketDatas).Perm marketDatas :=
  (List.reverse_perm _).trans (List.perm_insertionSort _ marketDatas)

/-- The last element of the slice sorted by creation time, latest first, is a point of the
slice that no point of it was created before. -/
theorem sortByCreatedAtDesc_getLast (marketDatas : List MarketData) (m : MarketData)
    (h : (sortByCreatedAtDesc marketDatas).getLast? = some m) :
    m ∈ marketDatas ∧ ∀ x ∈ marketDatas, m.CreatedAt ≤ x.CreatedAt := by
  haveI : IsTotal MarketData (fun a b => a.CreatedAt ≥ b.CreatedAt) :=
    ⟨fun a b => le_total b.CreatedAt a.CreatedAt⟩
  haveI : IsTrans MarketData (fun a b => a.CreatedAt ≥ b.CreatedAt) :=
    ⟨fun a b c hab hbc => le_trans hbc hab⟩
  have hsorted : (sortByCreatedAtDesc marketDatas).Sorted (fun a b => a.CreatedAt ≥ b.CreatedAt) :=
    List.sorted_insertionSort _ marketDatas
  have hmem : ∀ x, x ∈ sortByCreatedAtDesc marketDatas ↔ x ∈ marketDatas := fun x =>
    List.mem_insertionSort _
  have hsplit := List.dropLast_append_getLast? m h
  rw [← hsplit] at hsorted
  have hpair := List.pairwise_append.mp hsorted
  constructor
  · rw [← hmem, ← hsplit]
    simp
  · intro x hx
    rw [← hmem, ← hsplit] at hx
    rcases List.mem_append.mp hx with hx | hx
    · exact hpair.2.2 x hx m (List.mem_singleton_self m)
    · rw [List.mem_singleton.mp hx]

/-- The last step of `CalculateGeneralTechnicalIndicators` when the seven families have
returned their points. -/
theorem CalculateGeneralTechnicalIndicators_of_ok (t : Techan)
    (s0 s1 s2 s3 s4 s5 s6 s7 : List MarketData)
    (macd rsi sma atr bollingerBands obv adx latest : MarketData)
    (h1 : CalculateMACD t s0 = (.ok macd, s1)) (h2 : CalculateRSI t s1 = (.ok rsi, s2))
    (h3 : CalculateSMA t s2 = (.ok sma, s3)) (h4 : CalculateATR t s3 = (.ok atr, s4))
    (h5 : CalculateBollingerBands t s4 = (.ok bollingerBands, s5))
    (h6 : CalculateOBV t s5 = (.ok obv, s6)) (h7 : CalculateADX s6 = (.ok adx, s7))
    (hl : (sortByCreatedAtDesc s7).getLast? = some latest) :
    ∃ p, (CalculateGeneralTechnicalIndicators t s0).1 = .ok p ∧
      p.ID = latest.ID ∧ p.Symbol = latest.Symbol ∧ p.Timestamp = latest.Timestamp ∧
      p.Open = latest.Open ∧ p.High = latest.High ∧ p.Low = latest.Low ∧
      p.Close = latest.Close ∧ p.Volume = latest.Volume ∧ p.CreatedAt = latest.CreatedAt ∧
      p.MACD = macd.MACD ∧ p.MACDSignal = macd.MACDSignal ∧ p.MACDHist = macd.MACDHist ∧
      p.RSI6 = rsi.RSI6 ∧ p.RSI12 = rsi.RSI12 ∧ p.RSI24 = rsi.RSI24 ∧
      p.SMA20 = sma.SMA20 ∧ p.SMA50 = sma.SMA50 ∧ p.SMA200 = sma.SMA200 ∧ p.ATR = atr.ATR ∧
      p.BollingerBands = bollingerBands.BollingerBands ∧
      p.BollingerBandsUpper = bollingerBands.BollingerBandsUpper ∧
      p.BollingerBandsLower = bollingerBands.BollingerBandsLower ∧
      p.BollingerBandsWidth = bollingerBands.BollingerBandsWidth ∧ p.OBV = obv.OBV ∧
      p.ADX = adx.ADX ∧ p.ADXIndex = adx.ADXIndex ∧ p.ADXPositive = adx.ADXPositive ∧
      p.ADXNegative = adx.ADXNegative := by
  simp only [CalculateGeneralTechnicalIndicators, h1, h2, h3, h4, h5, h6, h7, hl]
  exact ⟨_, rfl, rfl, rfl, rfl, rfl, rfl, rfl, rfl, rfl, rfl, rfl, rfl, rfl, rfl, rfl, rfl,
    rfl, rfl, rfl, rfl, rfl, rfl, rfl, rfl, rfl, rfl, rfl, rfl, rfl⟩

/-- With 200 points or more every family succeeds and `CalculateGeneralTechnicalIndicators`
returns the last element of the slice sorted latest first, with the indicator fields
overwritten: identity, symbol, timestamp, OHLCV and creation time are those of a point of the
window that no point of the window was created before. -/
theorem CalculateGeneralTechnicalIndicators_ok (t : Techan) (marketDatas : List MarketData)
    (h : 200 ≤ marketDatas.length) :
    ∃ p oldest, (CalculateGeneralTechnicalIndicators t marketDatas).1 = .ok p ∧
      oldest ∈ marketDatas ∧ (∀ x ∈ marketDatas, oldest.CreatedAt ≤ x.CreatedAt) ∧
      p.ID = oldest.ID ∧ p.Symbol = oldest.Symbol ∧ p.Timestamp = oldest.Timestamp ∧
      p.Open = oldest.Open ∧ p.High = oldest.High ∧ p.Low = oldest.Low ∧
      p.Close = oldest.Close ∧ p.Volume = oldest.Volume ∧ p.CreatedAt = oldest.CreatedAt := by
  obtain ⟨s1, hs1⟩ : ∃ s, s = chronological marketDatas := ⟨_, rfl⟩
  obtain ⟨s2, hs2⟩ : ∃ s, s = chronological s1 := ⟨_, rfl⟩
  obtain ⟨s3, hs3⟩ : ∃ s, s = chronological s2 := ⟨_, rfl⟩
  obtain ⟨s4, hs4⟩ : ∃ s, s = chronological s3 := ⟨_, rfl⟩
  obtain ⟨s5, hs5⟩ : ∃ s, s = chronological s4 := ⟨_, rfl⟩
  obtain ⟨s6, hs6⟩ : ∃ s, s = chronological s5 := ⟨_, rfl⟩
  obtain ⟨s7, hs7⟩ : ∃ s, s = chronological s6 := ⟨_, rfl⟩
  have l1 : s1.length = marketDatas.length := hs1 ▸ length_chronological marketDatas
  have l2 : s2.length = s1.length := hs2 ▸ length_chronological s1
  have l3 : s3.length = s2.length := hs3 ▸ length_chronological s2
  have l4 : s4.length = s3.length := hs4 ▸ length_chronological s3
  have l5 : s5.length = s4.length := hs5 ▸ length_chronological s4
  have l6 : s6.length = s5.length := hs6 ▸ length_chronological s5
  have l7 : s7.length = s6.length := hs7 ▸ length_chronological s6
  obtain ⟨macd, h1⟩ := CalculateMACD_ok t marketDatas (by omega)
  obtain ⟨rsi, h2⟩ := CalculateRSI_ok t s1 (by omega)
  obtain ⟨sma, h3⟩ := CalculateSMA_ok t s2 (by omega)
  obtain ⟨atr, h4⟩ := CalculateATR_ok t s3 (by omega)
  obtain ⟨bollingerBands, h5⟩ := CalculateBollingerBands_ok t s4 (by omega)
  obtain ⟨obv, h6⟩ := CalculateOBV_ok t s5 (by omega)
  obtain ⟨adx, h7⟩ := CalculateADX_ok s6 (by omega)
  rw [← hs1] at h1
  rw [← hs2] at h2
  rw [← hs3] at h3
  rw [← hs4] at h4
  rw [← hs5] at h5
  rw [← hs6] at h6
  rw [← hs7] at h7
  have hperm : s7.Perm marketDatas :=
    (hs7 ▸ chronological_perm s6).trans <| (hs6 ▸ chronological_perm s5).trans <|
      (hs5 ▸ chronological_perm s4).trans <| (hs4 ▸ chronological_perm s3).trans <|
      (hs3 ▸ chronological_perm s2).trans <| (hs2 ▸ chronological_perm s1).trans
        (hs1 ▸ chronological_perm marketDatas)
  have hne : sortByCreatedAtDesc s7 ≠ [] := by
    intro hnil
    have := length_sortByCreatedAtDesc s7
    rw [hnil] at this
    simp at this
    omega
  have hl := List.getLast?_eq_getLast _ hne
  obtain ⟨hmem, hmin⟩ := sortByCreatedAtDesc_getLast _ _ hl
  obtain ⟨p, hp, hid, hsym, hts, ho, hh, hlw, hc, hv, hca, _⟩ :=
    CalculateGeneralTechnicalIndicators_of_ok t marketDatas s1 s2 s3 s4 s5 s6 s7 macd rsi sma atr
      bollingerBands obv adx _ h1 h2 h3 h4 h5 h6 h7 hl
  exact ⟨p, _, hp, hperm.mem_iff.mp hmem, fun x hx => hmin x (hperm.mem_iff.mpr hx),
    hid, hsym, hts, ho, hh, hlw, hc, hv, hca⟩

/-- C17: for a window of n candle points `CalculateGeneralTechnicalIndicators` runs the
families in the order MACD, RSI, SMA, ATR, Bollinger, OBV, ADX and stops at the first that
fails: it fails with the InsufficientData error of MACD when n < 26, with that of SMA when
26 <= n < 200 (MACD and RSI having passed), and it returns a point when n >= 200. -/
theorem C17_general_indicators_fail_fast (t : Techan) (marketDatas : List MarketData) :
    (marketDatas.length < 26 →
      (CalculateGeneralTechnicalIndicators t marketDatas).1 =
        .fail .ErrInsufficientDataForMACDCalculation) ∧
    (26 ≤ marketDatas.length → marketDatas.length < 200 →
      (CalculateGeneralTechnicalIndicators t marketDatas).1 =
        .fail .ErrInsufficientDataForSMA) ∧
    (200 ≤ marketDatas.length →
      ∃ p, (CalculateGeneralTechnicalIndicators t marketDatas).1 = .ok p) := by
  refine ⟨?_, ?_, ?_⟩
  · intro h
    simp [CalculateGeneralTechnicalIndicators, CalculateMACD, h]
  · intro hlo hhi
    have l1 := length_chronological marketDatas
    obtain ⟨macd, h1⟩ := CalculateMACD_ok t marketDatas hlo
    have l2 := length_chronological (chronological marketDatas)
    obtain ⟨rsi, h2⟩ := CalculateRSI_ok t (chronological marketDatas) (by omega)
    have h3 : CalculateSMA t (chronological (chronological marketDatas)) =
        (.fail .ErrInsufficientDataForSMA, chronological (chronological marketDatas)) := by
      have : (chronological (chronological marketDatas)).length < 200 := by omega
      simp [CalculateSMA, this]
    simp only [CalculateGeneralTechnicalIndicators, h1, h2, h3]
  · intro h
    obtain ⟨p, _, hp, _⟩ := CalculateGeneralTechnicalIndicators_ok t marketDatas h
    exact ⟨p, hp⟩

/-- Witness of C17: 25 points fail at MACD, 26 points at SMA, 200 points succeed. -/
theorem C17_general_indicators_fail_fast_witness :
    (CalculateGeneralTechnicalIndicators exTechan (exRisingWindow 25)).1 =
      .fail .ErrInsufficientDataForMACDCalculation ∧
    (CalculateGeneralTechnicalIndicators exTechan (exRisingWindow 26)).1 =
      .fail .ErrInsufficientDataForSMA ∧
    ∃ p, (CalculateGeneralTechnicalIndicators exTechan (exRisingWindow 200)).1 = .ok p :=
  ⟨(C17_general_indicators_fail_fast exTechan (exRisingWindow 25)).1
      (by simp [exRisingWindow]),
   (C17_general_indicators_fail_fast exTechan (exRisingWindow 26)).2.1
      (by simp [exRisingWindow]) (by simp [exRisingWindow]),
   (C17_general_indicators_fail_fast exTechan (exRisingWindow 200)).2.2
      (by simp [exRisingWindow])⟩

/-! ## C18: the point `CalculateGeneralTechnicalIndicators` returns -/

/-- C18 (evaluation of the code at the failing input): the window is 200 minute-spaced
BTCUSDT candles, point `i` created at minute `1000 + i`. Whatever the library computes,
`CalculateGeneralTechnicalIndicators` returns a point with the identity, timestamp and OHLCV
of point 0, the chronologically first one, not of point 199, the chronologically last one:
the last step sorts the slice latest first and reads its last element. -/
theorem C18_general_indicators_return_oldest_point :
    ∀ t : Techan, ∃ p,
      (CalculateGeneralTechnicalIndicators t (exRisingWindow 200)).1 = .ok p ∧
      p.ID = 0 ∧ p.Symbol = "BTCUSDT" ∧ p.Timestamp = 1000 * Minute ∧ p.Open = 95 ∧
      p.High = 100 ∧ p.Low = 90 ∧ p.Close = 95 ∧ p.Volume = 1 ∧
      p.ID ≠ (exPoint 199 299 289 294).ID ∧
      exPoint 199 299 289 294 ∈ exRisingWindow 200 ∧
      ∀ x ∈ exRisingWindow 200, x.CreatedAt ≤ (exPoint 199 299 289 294).CreatedAt := by
  intro t
  obtain ⟨p, oldest, hp, hmem, hmin, hid, hsym, hts, ho, hh, hlw, hc, hv, _⟩ :=
    CalculateGeneralTechnicalIndicators_ok t (exRisingWindow 200) (by simp [exRisingWindow])
  have h0 : exPoint 0 100 90 95 ∈ exRisingWindow 200 := by
    simp only [exRisingWindow, List.mem_map, List.mem_range]
    exact ⟨0, by norm_num, by norm_num⟩
  have hle := hmin _ h0
  simp only [exRisingWindow, List.mem_map, List.mem_range] at hmem
  obtain ⟨i, hi, rfl⟩ := hmem
  have hi0 : i = 0 := by
    simp only [exPoint, exMarketData, Minute] at hle
    have : ((1000 + (i : Int)) * 60000000000 : Int) ≤ (1000 + ((0 : Nat) : Int)) * 60000000000 :=
      hle
    omega
  subst hi0
  refine ⟨p, hp, ?_, ?_, ?_, ?_, ?_, ?_, ?_, ?_, ?_, ?_, ?_⟩
  · rw [hid]; rfl
  · rw [hsym]; rfl
  · rw [hts]; simp [exPoint, exMarketData]
  · rw [ho]; simp [exPoint]
  · rw [hh]; simp [exPoint]
  · rw [hlw]; simp [exPoint]
  · rw [hc]; simp [exPoint]
  · rw [hv]; rfl
  · rw [hid]; simp [exPoint, exMarketData]
  · simp only [exRisingWindow, List.mem_map, List.mem_range]
    exact ⟨199, by norm_num, by norm_num⟩
  · intro x hx
    simp only [exRisingWindow, List.mem_map, List.mem_range] at hx
    obtain ⟨j, hj, rfl⟩ := hx
    simp only [exPoint, exMarketData, Minute]
    have : ((1000 + (j : Int)) * 60000000000 : Int) ≤ (1000 + ((199 : Nat) : Int)) * 60000000000 := by
      omega
    exact this

/-! ## C19: which fields a family writes -/

/-- The point `CalculateADX` returns and the slice it leaves: the four fields are written
whatever the values computed. -/
theorem CalculateADX_eq (marketDatas : List MarketData) (latest : MarketData)
    (hlen : 14 ≤ marketDatas.length)
    (hlast : (chronological marketDatas).getLast? = some latest) :
    CalculateADX marketDatas =
      (.ok { latest with
          ADX := some (directionalIndex (chronological marketDatas))
          ADXIndex := some (directionalIndex (chronological marketDatas))
          ADXPositive := some (plusDIPercent (chronological marketDatas))
          ADXNegative := some (minusDIPercent (chronological marketDatas)) },
        chronological marketDatas) := by
  simp only [CalculateADX, not_lt.mpr hlen, if_false, hlast, List.drop_succ_cons, List.drop_zero,
    directionalIndex, plusDIPercent, minusDIPercent, smoothedTrueRange]

set_option maxRecDepth 100000 in
/-- The last of 14 falling candles, oldest first, is candle 13. -/
theorem exFallingWindow_14_getLast :
    (chronological (exFallingWindow 14)).getLast? = some (exPoint 13 87 77 82) := by
  with_unfolding_all rfl

set_option maxRecDepth 100000 in
/-- The last of 26 falling candles, oldest first, is candle 25. -/
theorem exFallingWindow_26_getLast :
    (chronological (exFallingWindow 26)).getLast? = some (exPoint 25 75 65 70) := by
  with_unfolding_all rfl

set_option maxRecDepth 100000 in
/-- The values `CalculateADX` computes on 14 and on 26 falling candles. -/
theorem exFallingWindow_values :
    plusDIPercent (chronological (exFallingWindow 14)) = 0 ∧
    directionalIndex (chronological (exFallingWindow 26)) = 100 ∧
    plusDIPercent (chronological (exFallingWindow 26)) = 0 ∧
    minusDIPercent (chronological (exFallingWindow 26)) = 10 := by
  refine ⟨?_, ?_, ?_, ?_⟩ <;> with_unfolding_all rfl

set_option maxRecDepth 100000 in
/-- The example library on 26 falling candles: the moving averages are zero, the volume
indicator is 1. -/
theorem exFallingWindow_26_exTechan :
    (CalculateMACD exTechan (exFallingWindow 26)).1 = .ok (exPoint 25 75 65 70) ∧
    (CalculateOBV exTechan (exFallingWindow 26)).1 =
      .ok { exPoint 25 75 65 70 with OBV := some 1 } := by
  constructor <;> with_unfolding_all rfl

/-- C19 (counterexample): on 14 falling candles, none of which has an indicator, the value
`plusDIPercent` that `CalculateADX` computes is zero, and the returned point has the field
`ADXPositive` written, with the value zero. -/
theorem C19_zero_value_is_written :
    (exFallingWindow 14).length = 14 ∧
    (∀ x ∈ exFallingWindow 14, x.ADXPositive = none) ∧
    plusDIPercent (chronological (exFallingWindow 14)) = 0 ∧
    ∃ p, (CalculateADX (exFallingWindow 14)).1 = .ok p ∧ p.ADXPositive = some 0 := by
  have hlast := exFallingWindow_14_getLast
  have hzero := exFallingWindow_values.1
  refine ⟨by simp [exFallingWindow], ?_, hzero, ?_⟩
  · intro x hx
    simp only [exFallingWindow, List.mem_map] at hx
    obtain ⟨i, _, rfl⟩ := hx
    rfl
  · rw [CalculateADX_eq _ _ (by simp [exFallingWindow]) hlast, hzero]
    exact ⟨_, rfl, rfl⟩

/-- C19 (as amended): let `latest` be the last point of the window sorted oldest first. A
family that has enough points returns `latest` with its own fields changed, as follows.
MACD, RSI, SMA, ATR and OBV write each field when the value computed for it is not zero and
leave it as it is on `latest` otherwise. Bollinger writes its four fields together when the
lower band is not zero, and none of them otherwise. ADX writes its four fields whatever the
values. -/
theorem C19_fields_written_by_family (t : Techan) (marketDatas : List MarketData)
    (latest : MarketData) (hlast : (chronological marketDatas).getLast? = some latest) :
    let series := candles (chronological marketDatas)
    let lastIndex := (chronological marketDatas).length - 1
    let lower := t.BollingerLowerBandIndicator series 20 2 lastIndex
    let upper := t.BollingerUpperBandIndicator series 20 2 lastIndex
    (26 ≤ marketDatas.length →
      (CalculateMACD t marketDatas).1 = .ok { latest with
        MACD := writeNonZero (t.MACDIndicator series 12 26 lastIndex) latest.MACD
        MACDSignal := writeNonZero (t.MACDSignal series 12 26 9 lastIndex) latest.MACDSignal
        MACDHist := writeNonZero (t.MACDIndicator series 12 26 lastIndex -
          t.MACDSignal series 12 26 9 lastIndex) latest.MACDHist }) ∧
    (24 ≤ marketDatas.length →
      (CalculateRSI t marketDatas).1 = .ok { latest with
        RSI6 := writeNonZero (t.RelativeStrengthIndexIndicator series 6 lastIndex) latest.RSI6
        RSI12 := writeNonZero (t.RelativeStrengthIndexIndicator series 12 lastIndex) latest.RSI12
        RSI24 := writeNonZero (t.RelativeStrengthIndexIndicator series 24 lastIndex)
          latest.RSI24 }) ∧
    (200 ≤ marketDatas.length →
      (CalculateSMA t marketDatas).1 = .ok { latest with
        SMA20 := writeNonZero (t.SimpleMovingAverage series 20 lastIndex) latest.SMA20
        SMA50 := writeNonZero (t.SimpleMovingAverage series 50 lastIndex) latest.SMA50
        SMA200 := writeNonZero (t.SimpleMovingAverage series 200 lastIndex) latest.SMA200 }) ∧
    (14 ≤ marketDatas.length →
      (CalculateATR t marketDatas).1 = .ok { latest with
        ATR := writeNonZero (t.AverageTrueRangeIndicator series 14 lastIndex) latest.ATR }) ∧
    (20 ≤ marketDatas.length →
      (CalculateBollingerBands t marketDatas).1 = .ok { latest with
        BollingerBands := if lower ≠ 0 then some ((lower + upper) / 2) else latest.BollingerBands
        BollingerBandsUpper := if lower ≠ 0 then some upper else latest.BollingerBandsUpper
        BollingerBandsLower := if lower ≠ 0 then some lower else latest.BollingerBandsLower
        BollingerBandsWidth := if lower ≠ 0 then some (upper - lower)
          else latest.BollingerBandsWidth }) ∧
    (14 ≤ marketDatas.length →
      (CalculateOBV t marketDatas).1 = .ok { latest with
        OBV := writeNonZero (t.VolumeIndicator series lastIndex) latest.OBV }) ∧
    (14 ≤ marketDatas.length →
      (CalculateADX marketDatas).1 = .ok { latest with
        ADX := some (directionalIndex (chronological marketDatas))
        ADXIndex := some (directionalIndex (chronological marketDatas))
        ADXPositive := some (plusDIPercent (chronological marketDatas))
        ADXNegative := some (minusDIPercent (chronological marketDatas)) }) := by
  intro series lastIndex lower upper
  refine ⟨?_, ?_, ?_, ?_, ?_, ?_, ?_⟩
  · intro h
    simp only [CalculateMACD, not_lt.mpr h, if_false, hlast, writeNonZero]
    split_ifs <;> rfl
  · intro h
    simp only [CalculateRSI, not_lt.mpr h, if_false, hlast, writeNonZero]
    split_ifs <;> rfl
  · intro h
    simp only [CalculateSMA, not_lt.mpr h, if_false, hlast, writeNonZero]
    split_ifs <;> rfl
  · intro h
    simp only [CalculateATR, not_lt.mpr h, if_false, hlast, writeNonZero]
    split_ifs <;> rfl
  · intro h
    simp only [CalculateBollingerBands, not_lt.mpr h, if_false, hlast]
    split_ifs <;> rfl
  · intro h
    simp only [CalculateOBV, not_lt.mpr h, if_false, hlast, writeNonZero]
    split_ifs <;> rfl
  · intro h
    rw [CalculateADX_eq marketDatas latest h hlast]

/-- Witness of C19: 26 falling candles with the example library, whose moving averages are
all zero and whose volume indicator is 1. MACD returns the last point unchanged, OBV writes
the volume, ADX writes its four fields. -/
theorem C19_fields_written_by_family_witness :
    (chronological (exFallingWindow 26)).getLast? = some (exPoint 25 75 65 70) ∧
    (CalculateMACD exTechan (exFallingWindow 26)).1 = .ok (exPoint 25 75 65 70) ∧
    (CalculateOBV exTechan (exFallingWindow 26)).1 =
      .ok { exPoint 25 75 65 70 with OBV := some 1 } ∧
    (CalculateADX (exFallingWindow 26)).1 = .ok { exPoint 25 75 65 70 with
      ADX := some 100
      ADXIndex := some 100
      ADXPositive := some 0
      ADXNegative := some 10 } := by
  have hlast := exFallingWindow_26_getLast
  have h := C19_fields_written_by_family exTechan (exFallingWindow 26) _ hlast
  refine ⟨hlast, exFallingWindow_26_exTechan.1, exFallingWindow_26_exTechan.2, ?_⟩
  rw [h.2.2.2.2.2.2 (by simp [exFallingWindow]), exFallingWindow_values.2.1,
    exFallingWindow_values.2.2.1, exFallingWindow_values.2.2.2]

/-! ## C20: the range of the ADX values -/

/-- One step of the loop of `calculateEMA` keeps the order, for a multiplier between 0 and
1. -/
theorem foldl_ema_le (m : ℚ) (h0 : 0 ≤ m) (h1 : m ≤ 1) (xs ys : List ℚ)
    (h : List.Forall₂ (fun x y => x ≤ y) xs ys) :
    ∀ a b : ℚ, a ≤ b →
      xs.foldl (fun ema value => value * m + ema * (1 - m)) a ≤
        ys.foldl (fun ema value => value * m + ema * (1 - m)) b := by
  induction h with
  | nil => intro a b hab; exact hab
  | cons hxy _ ih =>
    intro a b hab
    simp only [List.foldl_cons]
    apply ih
    have h2 : 0 ≤ 1 - m := by linarith
    nlinarith [mul_le_mul_of_nonneg_right hxy h0, mul_le_mul_of_nonneg_right hab h2]

/-- Go `calculateEMA` with period 14 is monotone in its values. -/
theorem calculateEMA_le (xs ys : List ℚ) (h : List.Forall₂ (fun x y => x ≤ y) xs ys) :
    calculateEMA xs 14 ≤ calculateEMA ys 14 := by
  cases h with
  | nil => simp [calculateEMA]
  | cons hxy hrest =>
    simp only [calculateEMA]
    exact foldl_ema_le _ (by norm_num) (by norm_num) _ _ hrest _ _ hxy

/-- The loop of `calculateEMA` stays non-negative on non-negative values. -/
theorem foldl_ema_nonneg (m : ℚ) (h0 : 0 ≤ m) (h1 : m ≤ 1) :
    ∀ (xs : List ℚ), (∀ x ∈ xs, 0 ≤ x) → ∀ a : ℚ, 0 ≤ a →
      0 ≤ xs.foldl (fun ema value => value * m + ema * (1 - m)) a
  | [], _, a, ha => ha
  | x :: xs, h, a, ha => by
    simp only [List.foldl_cons]
    apply foldl_ema_nonneg m h0 h1 xs (fun y hy => h y (List.mem_cons_of_mem _ hy))
    have h2 : 0 ≤ 1 - m := by linarith
    have hx : 0 ≤ x := h x (List.mem_cons_self _ _)
    positivity

/-- Go `calculateEMA` with period 14 is non-negative on non-negative values. -/
theorem calculateEMA_nonneg (xs : List ℚ) (h : ∀ x ∈ xs, 0 ≤ x) : 0 ≤ calculateEMA xs 14 := by
  cases xs with
  | nil => simp [calculateEMA]
  | cons x xs =>
    simp only [calculateEMA]
    exact foldl_ema_nonneg _ (by norm_num) (by norm_num) xs
      (fun y hy => h y (List.mem_cons_of_mem _ hy)) x (h x (List.mem_cons_self _ _))

theorem trueRangesFrom_nonneg : ∀ (marketDatas : List MarketData),
    ∀ x ∈ trueRangesFrom marketDatas, 0 ≤ x
  | [], x, hx => by simp [trueRangesFrom] at hx
  | [_], x, hx => by simp [trueRangesFrom] at hx
  | previous :: current :: rest, x, hx => by
    simp only [trueRangesFrom, List.mem_cons] at hx
    rcases hx with rfl | hx
    · exact le_max_of_le_right (le_max_of_le_left (abs_nonneg _))
    · exact trueRangesFrom_nonneg (current :: rest) x hx

theorem directionalMovesFrom_nonneg : ∀ (marketDatas : List MarketData),
    ∀ x ∈ directionalMovesFrom marketDatas, 0 ≤ x
  | [], x, hx => by simp [directionalMovesFrom] at hx
  | [_], x, hx => by simp [directionalMovesFrom] at hx
  | previous :: current :: rest, x, hx => by
    simp only [directionalMovesFrom, List.mem_cons] at hx
    rcases hx with rfl | hx
    · split_ifs with h1 h2
      · exact le_of_lt h1.2
      · exact le_refl _
      · exact le_refl _
    · exact directionalMovesFrom_nonneg (current :: rest) x hx

theorem directionalMovesMinusFrom_nonneg : ∀ (marketDatas : List MarketData),
    ∀ x ∈ directionalMovesMinusFrom marketDatas, 0 ≤ x
  | [], x, hx => by simp [directionalMovesMinusFrom] at hx
  | [_], x, hx => by simp [directionalMovesMinusFrom] at hx
  | previous :: current :: rest, x, hx => by
    simp only [directionalMovesMinusFrom, List.mem_cons] at hx
    rcases hx with rfl | hx
    · split_ifs with h1 h2
      · exact le_refl _
      · exact le_of_lt h2.2
      · exact le_refl _
    · exact directionalMovesMinusFrom_nonneg (current :: rest) x hx

/-- An upward move is at most the true range, when every close is at most the high. -/
theorem directionalMovesFrom_le_trueRangesFrom : ∀ (marketDatas : List MarketData),
    (∀ x ∈ marketDatas, x.Low ≤ x.Close ∧ x.Close ≤ x.High) →
    List.Forall₂ (fun x y => x ≤ y) (directionalMovesFrom marketDatas)
      (trueRangesFrom marketDatas)
  | [], _ => by simp [directionalMovesFrom, trueRangesFrom]
  | [_], _ => by simp [directionalMovesFrom, trueRangesFrom]
  | previous :: current :: rest, h => by
    simp only [directionalMovesFrom, trueRangesFrom]
    refine List.Forall₂.cons ?_ (directionalMovesFrom_le_trueRangesFrom (current :: rest)
      (fun x hx => h x (List.mem_cons_of_mem _ hx)))
    have hp := (h previous (List.mem_cons_self _ _)).2
    have htr : 0 ≤ max (current.High - current.Low)
        (max |current.High - previous.Close| |current.Low - previous.Close|) :=
      le_max_of_le_right (le_max_of_le_left (abs_nonneg _))
    split_ifs
    · refine le_max_of_le_right (le_max_of_le_left ?_)
      exact le_trans (by linarith) (le_abs_self _)
    · exact htr
    · exact htr

/-- A downward move is at most the true range, when every low is at most the close. -/
theorem directionalMovesMinusFrom_le_trueRangesFrom : ∀ (marketDatas : List MarketData),
    (∀ x ∈ marketDatas, x.Low ≤ x.Close ∧ x.Close ≤ x.High) →
    List.Forall₂ (fun x y => x ≤ y) (directionalMovesMinusFrom marketDatas)
      (trueRangesFrom marketDatas)
  | [], _ => by simp [directionalMovesMinusFrom, trueRangesFrom]
  | [_], _ => by simp [directionalMovesMinusFrom, trueRangesFrom]
  | previous :: current :: rest, h => by
    simp only [directionalMovesMinusFrom, trueRangesFrom]
    refine List.Forall₂.cons ?_ (directionalMovesMinusFrom_le_trueRangesFrom (current :: rest)
      (fun x hx => h x (List.mem_cons_of_mem _ hx)))
    have hp := (h previous (List.mem_cons_self _ _)).1
    have htr : 0 ≤ max (current.High - current.Low)
        (max |current.High - previous.Close| |current.Low - previous.Close|) :=
      le_max_of_le_right (le_max_of_le_left (abs_nonneg _))
    split_ifs
    · exact htr
    · refine le_max_of_le_right (le_max_of_le_right ?_)
      exact le_trans (by linarith) (neg_le_abs _)
    · exact htr

/-- The two percentages lie between 0 and 100 when the candles are consistent and the
smoothed true range is not zero. -/
theorem plusDIPercent_minusDIPercent_range (marketDatas : List MarketData)
    (hcandle : ∀ x ∈ marketDatas, x.Low ≤ x.Close ∧ x.Close ≤ x.High)
    (hatr : smoothedTrueRange marketDatas ≠ 0) :
    (0 ≤ plusDIPercent marketDatas ∧ plusDIPercent marketDatas ≤ 100) ∧
    (0 ≤ minusDIPercent marketDatas ∧ minusDIPercent marketDatas ≤ 100) := by
  have hA : 0 < smoothedTrueRange marketDatas :=
    lt_of_le_of_ne (calculateEMA_nonneg _ (trueRangesFrom_nonneg marketDatas)) (Ne.symm hatr)
  have hP0 := calculateEMA_nonneg _ (directionalMovesFrom_nonneg marketDatas)
  have hM0 := calculateEMA_nonneg _ (directionalMovesMinusFrom_nonneg marketDatas)
  have hP1 : calculateEMA (directionalMovesFrom marketDatas) 14 ≤ smoothedTrueRange marketDatas :=
    calculateEMA_le _ _ (directionalMovesFrom_le_trueRangesFrom marketDatas hcandle)
  have hM1 : calculateEMA (directionalMovesMinusFrom marketDatas) 14 ≤
      smoothedTrueRange marketDatas :=
    calculateEMA_le _ _ (directionalMovesMinusFrom_le_trueRangesFrom marketDatas hcandle)
  refine ⟨⟨?_, ?_⟩, ⟨?_, ?_⟩⟩
  · unfold plusDIPercent
    positivity
  · unfold plusDIPercent
    have := (div_le_one hA).mpr hP1
    linarith
  · unfold minusDIPercent
    positivity
  · unfold minusDIPercent
    have := (div_le_one hA).mpr hM1
    linarith

/-- The directional index lies between 0 and 100 when its two terms are non-negative and
their sum is not zero. -/
theorem directionalIndex_range (marketDatas : List MarketData)
    (hp : 0 ≤ plusDIPercent marketDatas) (hm : 0 ≤ minusDIPercent marketDatas)
    (hsum : plusDIPercent marketDatas + minusDIPercent marketDatas ≠ 0) :
    0 ≤ directionalIndex marketDatas ∧ directionalIndex marketDatas ≤ 100 := by
  have hpos : 0 < plusDIPercent marketDatas + minusDIPercent marketDatas :=
    lt_of_le_of_ne (add_nonneg hp hm) (Ne.symm hsum)
  have habs : |plusDIPercent marketDatas - minusDIPercent marketDatas| ≤
      plusDIPercent marketDatas + minusDIPercent marketDatas := by
    rw [abs_le]
    constructor <;> linarith
  unfold directionalIndex
  constructor
  · positivity
  · have := (div_le_one hpos).mpr habs
    linarith

set_option maxRecDepth 100000 in
/-- The last of the 14 candles that close above their high, oldest first, is candle 13. -/
theorem exCloseAboveHighWindow_14_getLast :
    (chronological (exCloseAboveHighWindow 14)).getLast? =
      some (exPoint 13 113 113 (113 + 1 / 2)) := by
  with_unfolding_all rfl

set_option maxRecDepth 100000 in
/-- The two denominators of `CalculateADX` on 14 rising candles are not zero. -/
theorem exRisingWindow_14_smoothedTrueRange :
    smoothedTrueRange (chronological (exRisingWindow 14)) ≠ 0 ∧
    plusDIPercent (chronological (exRisingWindow 14)) +
      minusDIPercent (chronological (exRisingWindow 14)) ≠ 0 := by
  have h1 : smoothedTrueRange (chronological (exRisingWindow 14)) = 10 := by
    with_unfolding_all rfl
  have h2 : plusDIPercent (chronological (exRisingWindow 14)) = 10 := by
    with_unfolding_all rfl
  have h3 : minusDIPercent (chronological (exRisingWindow 14)) = 0 := by
    with_unfolding_all rfl
  rw [h1, h2, h3]
  norm_num

set_option maxRecDepth 100000 in
/-- The +DI `CalculateADX` computes on the 14 candles that close above their high. -/
theorem exCloseAboveHighWindow_14_plusDIPercent :
    plusDIPercent (chronological (exCloseAboveHighWindow 14)) = 200 := by
  with_unfolding_all rfl

/-- C20 (counterexample): 14 candles that pass validation, candle `i` with high and low
`100 + i` and close `100 + i + 1/2`. The +DI that `CalculateADX` returns is 200. -/
theorem C20_plus_di_above_100 :
    (exCloseAboveHighWindow 14).length = 14 ∧
    (∀ x ∈ exCloseAboveHighWindow 14, x.Validate = .ok ()) ∧
    ∃ p, (CalculateADX (exCloseAboveHighWindow 14)).1 = .ok p ∧ p.ADXPositive = some 200 ∧
      ¬ ((200 : ℚ) ≤ 100) := by
  refine ⟨by simp [exCloseAboveHighWindow], ?_, ?_⟩
  · intro x hx
    simp only [exCloseAboveHighWindow, List.mem_map, List.mem_range] at hx
    obtain ⟨i, _, rfl⟩ := hx
    have hi : (0 : ℚ) ≤ (i : ℚ) := Nat.cast_nonneg i
    have h1 : ¬ ((100 : ℚ) + (i : ℚ) + 2⁻¹ < 0) := by
      have : (0 : ℚ) < 2⁻¹ := by norm_num
      linarith
    have h2 : ¬ ((100 : ℚ) + (i : ℚ) < 0) := by linarith
    have h3 : ¬ ((1000 + (i : Int)) * Minute = 0) := by
      have : (0 : Int) ≤ (i : Int) := Int.natCast_nonneg i
      simp only [Minute]
      omega
    have h4 : HasSuffix "BTCUSDT" "USDT" = true := by decide
    simp [MarketData.Validate, exPoint, exMarketData, h1, h2, h3, h4]
  · rw [CalculateADX_eq _ _ (by simp [exCloseAboveHighWindow]) exCloseAboveHighWindow_14_getLast]
    refine ⟨_, rfl, ?_, by norm_num⟩
    show some (plusDIPercent (chronological (exCloseAboveHighWindow 14))) = some 200
    rw [exCloseAboveHighWindow_14_plusDIPercent]

/-- C20 (as amended): for a window of at least 14 points in which every point has
low <= close <= high, and for which the two denominators of `CalculateADX`, the smoothed
true range and the sum of the two percentages, are not zero, `CalculateADX` returns a point
whose ADX, ADXIndex, +DI and -DI are set, ADX and ADXIndex are equal, and ADX, +DI and -DI
lie in [0, 100]. -/
theorem C20_adx_values_in_range (marketDatas : List MarketData)
    (hlen : 14 ≤ marketDatas.length)
    (hcandle : ∀ x ∈ marketDatas, x.Low ≤ x.Close ∧ x.Close ≤ x.High)
    (hatr : smoothedTrueRange (chronological marketDatas) ≠ 0)
    (hsum : plusDIPercent (chronological marketDatas) +
      minusDIPercent (chronological marketDatas) ≠ 0) :
    ∃ p adx plusDI minusDI, (CalculateADX marketDatas).1 = .ok p ∧
      p.ADX = some adx ∧ p.ADXIndex = some adx ∧ p.ADXPositive = some plusDI ∧
      p.ADXNegative = some minusDI ∧
      0 ≤ adx ∧ adx ≤ 100 ∧ 0 ≤ plusDI ∧ plusDI ≤ 100 ∧ 0 ≤ minusDI ∧ minusDI ≤ 100 := by
  obtain ⟨latest, hlast⟩ := chronological_getLast marketDatas (by omega)
  have hc : ∀ x ∈ chronological marketDatas, x.Low ≤ x.Close ∧ x.Close ≤ x.High :=
    fun x hx => hcandle x ((mem_chronological marketDatas x).mp hx)
  obtain ⟨⟨hp0, hp1⟩, ⟨hm0, hm1⟩⟩ := plusDIPercent_minusDIPercent_range _ hc hatr
  obtain ⟨hd0, hd1⟩ := directionalIndex_range _ hp0 hm0 hsum
  rw [CalculateADX_eq marketDatas latest hlen hlast]
  exact ⟨_, _, _, _, rfl, rfl, rfl, rfl, rfl, hd0, hd1, hp0, hp1, hm0, hm1⟩

/-- Witness of C20: 14 rising candles, candle `i` spanning `[90 + i, 100 + i]` and closing
at `95 + i`. -/
theorem C20_adx_values_in_range_witness :
    ∃ p adx plusDI minusDI, (CalculateADX (exRisingWindow 14)).1 = .ok p ∧
      p.ADX = some adx ∧ p.ADXIndex = some adx ∧ p.ADXPositive = some plusDI ∧
      p.ADXNegative = some minusDI ∧
      0 ≤ adx ∧ adx ≤ 100 ∧ 0 ≤ plusDI ∧ plusDI ≤ 100 ∧ 0 ≤ minusDI ∧ minusDI ≤ 100 :=
  C20_adx_values_in_range (exRisingWindow 14) (by simp [exRisingWindow])
    (by
      intro x hx
      simp only [exRisingWindow, List.mem_map, List.mem_range] at hx
      obtain ⟨i, _, rfl⟩ := hx
      simp [exPoint]
      norm_num)
    exRisingWindow_14_smoothedTrueRange.1 exRisingWindow_14_smoothedTrueRange.2


/-! ## C21: the Bollinger bands -/

/-- The point `CalculateBollingerBands` returns when the lower band is not zero. -/
theorem CalculateBollingerBands_written (t : Techan) (marketDatas : List MarketData)
    (latest : MarketData) (hlen : 20 ≤ marketDatas.length)
    (hlast : (chronological marketDatas).getLast? = some latest)
    (hlower : t.BollingerLowerBandIndicator (candles (chronological marketDatas)) 20 2
      ((chronological marketDatas).length - 1) ≠ 0) :
    (CalculateBollingerBands t marketDatas).1 = .ok { latest with
      BollingerBands := some
        ((t.BollingerLowerBandIndicator (candles (chronological marketDatas)) 20 2
            ((chronological marketDatas).length - 1) +
          t.BollingerUpperBandIndicator (candles (chronological marketDatas)) 20 2
            ((chronological marketDatas).length - 1)) / 2)
      BollingerBandsUpper := some
        (t.BollingerUpperBandIndicator (candles (chronological marketDatas)) 20 2
          ((chronological marketDatas).length - 1))
      BollingerBandsLower := some
        (t.BollingerLowerBandIndicator (candles (chronological marketDatas)) 20 2
          ((chronological marketDatas).length - 1))
      BollingerBandsWidth := some
        (t.BollingerUpperBandIndicator (candles (chronological marketDatas)) 20 2
            ((chronological marketDatas).length - 1) -
          t.BollingerLowerBandIndicator (candles (chronological marketDatas)) 20 2
            ((chronological marketDatas).length - 1)) } := by
  simp only [CalculateBollingerBands, not_lt.mpr hlen, if_false, hlast, if_pos hlower]

/-- The point `CalculateBollingerBands` returns when the lower band is zero: the latest
point as it was. -/
theorem CalculateBollingerBands_unwritten (t : Techan) (marketDatas : List MarketData)
    (latest : MarketData) (hlen : 20 ≤ marketDatas.length)
    (hlast : (chronological marketDatas).getLast? = some latest)
    (hlower : t.BollingerLowerBandIndicator (candles (chronological marketDatas)) 20 2
      ((chronological marketDatas).length - 1) = 0) :
    (CalculateBollingerBands t marketDatas).1 = .ok latest := by
  simp only [CalculateBollingerBands, not_lt.mpr hlen, if_false, hlast, hlower, ne_eq,
    not_true_eq_false]

/-- The closes the bands of the last candle are computed on are the closes of the last 20
points of the slice. -/
theorem windowCloses_last (marketDatas : List MarketData) (h : 1 ≤ marketDatas.length) :
    windowCloses (candles marketDatas) 20 (marketDatas.length - 1) =
      (marketDatas.drop (marketDatas.length - 20)).map (fun m => m.Close) := by
  have h1 : marketDatas.length - 1 + 1 = marketDatas.length := by omega
  simp only [windowCloses, candles, h1, List.take_of_length_le (le_of_eq (List.length_map _ _)),
    List.map_drop, List.map_map]
  rfl

/-- A list of non-negative rationals one of which is positive has a positive sum. -/
theorem sum_pos_of_mem_pos : ∀ (values : List ℚ), (∀ x ∈ values, 0 ≤ x) →
    (∃ x ∈ values, 0 < x) → 0 < values.sum
  | [], _, h => by
    obtain ⟨x, hx, _⟩ := h
    exact absurd hx (List.not_mem_nil x)
  | a :: rest, hnonneg, h => by
    have hrest : 0 ≤ rest.sum :=
      List.sum_nonneg (fun x hx => hnonneg x (List.mem_cons_of_mem a hx))
    have ha : 0 ≤ a := hnonneg a (List.mem_cons_self a rest)
    rw [List.sum_cons]
    obtain ⟨x, hx, hpos⟩ := h
    rcases List.mem_cons.mp hx with rfl | hmem
    · linarith
    · have := sum_pos_of_mem_pos rest
        (fun y hy => hnonneg y (List.mem_cons_of_mem a hy)) ⟨x, hmem, hpos⟩
      linarith

/-- The sum of a list whose entries all equal `c`. -/
theorem sum_of_all_eq (c : ℚ) : ∀ (values : List ℚ), (∀ x ∈ values, x = c) →
    values.sum = (values.length : ℚ) * c
  | [], _ => by simp
  | a :: rest, h => by
    have ha : a = c := h a (List.mem_cons_self a rest)
    have hrest := sum_of_all_eq c rest (fun x hx => h x (List.mem_cons_of_mem a hx))
    rw [List.sum_cons, hrest, ha, List.length_cons]
    push_cast
    ring

/-- The variance of closes that are not all equal is positive. -/
theorem windowVariance_pos (values : List ℚ) (h : ∃ a ∈ values, ∃ b ∈ values, a ≠ b) :
    0 < windowVariance values := by
  obtain ⟨a, ha, b, hb, hab⟩ := h
  have hx : ∃ x ∈ values, x ≠ windowMean values := by
    by_cases hma : a = windowMean values
    · exact ⟨b, hb, fun hmb => hab (hma.trans hmb.symm)⟩
    · exact ⟨a, ha, hma⟩
  obtain ⟨x, hxmem, hxne⟩ := hx
  have hlen : (0 : ℚ) < ((values.map
      (fun value => (value - windowMean values) ^ 2)).length : ℚ) := by
    rw [List.length_map]
    exact_mod_cast List.length_pos_of_mem hxmem
  have hsum : 0 < (values.map (fun value => (value - windowMean values) ^ 2)).sum := by
    apply sum_pos_of_mem_pos
    · intro y hy
      obtain ⟨z, _, rfl⟩ := List.mem_map.mp hy
      exact sq_nonneg _
    · exact ⟨(x - windowMean values) ^ 2, List.mem_map.mpr ⟨x, hxmem, rfl⟩,
        lt_of_le_of_ne (sq_nonneg _) (Ne.symm (pow_ne_zero 2 (sub_ne_zero.mpr hxne)))⟩
  exact div_pos hsum hlen


/-- The variance of closes that are all equal is zero. -/
theorem windowVariance_flat (values : List ℚ) (h : ∀ a ∈ values, ∀ b ∈ values, a = b) :
    windowVariance values = 0 := by
  cases values with
  | nil => simp [windowVariance, windowMean]
  | cons c rest =>
    have hall : ∀ x ∈ c :: rest, x = c := fun x hx => h x hx c (List.mem_cons_self c rest)
    have hlen : ((c :: rest).length : ℚ) ≠ 0 := Nat.cast_ne_zero.mpr (by simp)
    have hmean : windowMean (c :: rest) = c := by
      unfold windowMean
      rw [sum_of_all_eq c (c :: rest) hall]
      field_simp
    unfold windowVariance
    rw [hmean]
    unfold windowMean
    rw [sum_of_all_eq 0 ((c :: rest).map (fun value => (value - c) ^ 2))]
    · simp
    · intro y hy
      obtain ⟨z, hz, rfl⟩ := List.mem_map.mp hy
      rw [hall z hz]
      simp

set_option maxRecDepth 100000 in
/-- The last of 20 flat candles, oldest first, is candle 19, and the two bands of the example
library on them are 100. -/
theorem exFlatWindow_20_bands :
    (chronological (exFlatWindow 20)).getLast? = some (exPoint 19 100 100 100) ∧
    exBollingerTechan.BollingerLowerBandIndicator (candles (chronological (exFlatWindow 20)))
      20 2 ((chronological (exFlatWindow 20)).length - 1) = 100 ∧
    exBollingerTechan.BollingerUpperBandIndicator (candles (chronological (exFlatWindow 20)))
      20 2 ((chronological (exFlatWindow 20)).length - 1) = 100 := by
  refine ⟨?_, ?_, ?_⟩ <;> with_unfolding_all rfl

set_option maxRecDepth 100000 in
/-- The last of 20 candles closing at 1 and 3 in turn, oldest first, is candle 19, and the
bands of the example library on them are 0 and 4. -/
theorem exLowWindow_20_bands :
    (chronological (exLowWindow 20)).getLast? = some (exPoint 19 4 0 3) ∧
    exBollingerTechan.BollingerLowerBandIndicator (candles (chronological (exLowWindow 20)))
      20 2 ((chronological (exLowWindow 20)).length - 1) = 0 ∧
    exBollingerTechan.BollingerUpperBandIndicator (candles (chronological (exLowWindow 20)))
      20 2 ((chronological (exLowWindow 20)).length - 1) = 4 := by
  refine ⟨?_, ?_, ?_⟩ <;> with_unfolding_all rfl

set_option maxRecDepth 100000 in
/-- The closes of the 20 alternating candles, their mean and their variance. -/
theorem exAlternatingWindow_20_closes :
    windowCloses (candles (chronological (exAlternatingWindow 20))) 20
        ((chronological (exAlternatingWindow 20)).length - 1) =
      (List.range 20).map (fun i => if i % 2 = 0 then (99 : ℚ) else 101) ∧
    windowMean ((List.range 20).map (fun i => if i % 2 = 0 then (99 : ℚ) else 101)) = 100 ∧
    windowVariance ((List.range 20).map (fun i => if i % 2 = 0 then (99 : ℚ) else 101)) = 1 ∧
    exSqrt 1 = 1 := by
  refine ⟨?_, ?_, ?_, ?_⟩ <;> with_unfolding_all rfl

/-- C21 (the claim as written fails): with the library whose bands are the mean of the
closes plus and minus two standard deviations, 20 candles that all close at 100 have the
deviation zero: the three bands returned are all 100 and the width is 0, so upper is not
above middle and middle is not above lower. And 20 candles that close at 1 and 3 in turn
have the mean 2 and the deviation 1: the lower band is 0, and the point returned carries no
band at all. -/
theorem C21_flat_window_bands_coincide :
    (exFlatWindow 20).length = 20 ∧
    (∃ p, (CalculateBollingerBands exBollingerTechan (exFlatWindow 20)).1 = .ok p ∧
      p.BollingerBandsUpper = some 100 ∧ p.BollingerBands = some 100 ∧
      p.BollingerBandsLower = some 100 ∧ p.BollingerBandsWidth = some 0 ∧
      ¬ ((100 : ℚ) > 100)) ∧
    (exLowWindow 20).length = 20 ∧
    (∃ p, (CalculateBollingerBands exBollingerTechan (exLowWindow 20)).1 = .ok p ∧
      p.BollingerBandsUpper = none ∧ p.BollingerBands = none ∧
      p.BollingerBandsLower = none ∧ p.BollingerBandsWidth = none) := by
  refine ⟨by simp [exFlatWindow], ?_, by simp [exLowWindow], ?_⟩
  · have h := CalculateBollingerBands_written exBollingerTechan (exFlatWindow 20) _
      (by simp [exFlatWindow]) exFlatWindow_20_bands.1
      (by rw [exFlatWindow_20_bands.2.1]; norm_num)
    rw [exFlatWindow_20_bands.2.1, exFlatWindow_20_bands.2.2] at h
    refine ⟨_, h, rfl, ?_, rfl, ?_, by norm_num⟩
    · show some (((100 : ℚ) + 100) / 2) = some 100
      norm_num
    · show some ((100 : ℚ) - 100) = some 0
      norm_num
  · exact ⟨_, CalculateBollingerBands_unwritten exBollingerTechan (exLowWindow 20) _
      (by simp [exLowWindow]) exLowWindow_20_bands.1 exLowWindow_20_bands.2.1,
      rfl, rfl, rfl, rfl⟩

/-- Modelled from the spec: C21 (as amended). The library computes the bands the spec
describes, with `sqrt` as its square root (`bollingerTechan`). For a window of at least 20
points let `closes` be the closes of the last 20 points, oldest first, and `latest` the last
point. When the lower band, the mean of `closes` minus two square roots of their variance,
is not zero, `CalculateBollingerBands` returns a point with the four band fields set: middle
is the mean of `closes`, upper and lower are middle plus and minus two standard deviations,
width is upper minus lower; upper > middle > lower holds when the closes are not all equal
(and the square root of their positive variance is positive), and the three bands coincide
when the closes are all equal (and the square root of 0 is 0). When the lower band is zero,
the point returned is `latest` as it was. -/
theorem C21_bollinger_bands (sqrt : ℚ → ℚ) (t : Techan) (marketDatas : List MarketData)
    (hlen : 20 ≤ marketDatas.length) :
    ∃ closes latest,
      closes = ((chronological marketDatas).drop
        ((chronological marketDatas).length - 20)).map (fun m => m.Close) ∧
      closes.length = 20 ∧
      (chronological marketDatas).getLast? = some latest ∧
      (windowMean closes - 2 * sqrt (windowVariance closes) ≠ 0 →
        ∃ p upper middle lower width,
          (CalculateBollingerBands (bollingerTechan sqrt t) marketDatas).1 = .ok p ∧
          p.BollingerBandsUpper = some upper ∧ p.BollingerBands = some middle ∧
          p.BollingerBandsLower = some lower ∧ p.BollingerBandsWidth = some width ∧
          middle = windowMean closes ∧
          upper = middle + 2 * sqrt (windowVariance closes) ∧
          lower = middle - 2 * sqrt (windowVariance closes) ∧
          width = upper - lower ∧
          ((∃ a ∈ closes, ∃ b ∈ closes, a ≠ b) →
            (0 < windowVariance closes → 0 < sqrt (windowVariance closes)) →
            upper > middle ∧ middle > lower) ∧
          ((∀ a ∈ closes, ∀ b ∈ closes, a = b) → sqrt 0 = 0 →
            upper = middle ∧ middle = lower ∧ width = 0)) ∧
      (windowMean closes - 2 * sqrt (windowVariance closes) = 0 →
        (CalculateBollingerBands (bollingerTechan sqrt t) marketDatas).1 = .ok latest) := by
  obtain ⟨latest, hlast⟩ := chronological_getLast marketDatas (by omega)
  have hclen : (chronological marketDatas).length = marketDatas.length :=
    length_chronological marketDatas
  have hcloses := windowCloses_last (chronological marketDatas) (by omega)
  have hlow : (bollingerTechan sqrt t).BollingerLowerBandIndicator
      (candles (chronological marketDatas)) 20 2 ((chronological marketDatas).length - 1) =
      windowMean (((chronological marketDatas).drop
        ((chronological marketDatas).length - 20)).map (fun m => m.Close)) -
      2 * sqrt (windowVariance (((chronological marketDatas).drop
        ((chronological marketDatas).length - 20)).map (fun m => m.Close))) := by
    rw [← hcloses]
    rfl
  have hup : (bollingerTechan sqrt t).BollingerUpperBandIndicator
      (candles (chronological marketDatas)) 20 2 ((chronological marketDatas).length - 1) =
      windowMean (((chronological marketDatas).drop
        ((chronological marketDatas).length - 20)).map (fun m => m.Close)) +
      2 * sqrt (windowVariance (((chronological marketDatas).drop
        ((chronological marketDatas).length - 20)).map (fun m => m.Close))) := by
    rw [← hcloses]
    rfl
  refine ⟨_, latest, rfl, ?_, hlast, ?_, ?_⟩
  · rw [List.length_map, List.length_drop]
    omega
  · intro hne
    have hw := CalculateBollingerBands_written (bollingerTechan sqrt t) marketDatas latest
      hlen hlast (by rw [hlow]; exact hne)
    rw [hlow, hup] at hw
    refine ⟨_, _, _, _, _, hw, rfl, rfl, rfl, rfl, ?_, ?_, ?_, ?_, ?_, ?_⟩
    · ring
    · ring
    · ring
    · ring
    · intro hdiff hsqrt
      have hsd := hsqrt (windowVariance_pos _ hdiff)
      constructor <;> linarith
    · intro hflat hzero
      rw [windowVariance_flat _ hflat, hzero]
      refine ⟨?_, ?_, ?_⟩ <;> ring
  · intro hzero
    exact CalculateBollingerBands_unwritten (bollingerTechan sqrt t) marketDatas latest hlen
      hlast (by rw [hlow]; exact hzero)

/-- Witness of C21: 20 candles closing at 99 and 101 in turn, with the square root of the
example library: mean 100, variance 1, lower band 98, middle 100, upper band 102, width 4. -/
theorem C21_bollinger_bands_witness :
    ∃ p, (CalculateBollingerBands (bollingerTechan exSqrt exTechan)
        (exAlternatingWindow 20)).1 = .ok p ∧
      p.BollingerBandsUpper = some 102 ∧ p.BollingerBands = some 100 ∧
      p.BollingerBandsLower = some 98 ∧ p.BollingerBandsWidth = some 4 ∧
      (102 : ℚ) > 100 ∧ (100 : ℚ) > 98 := by
  obtain ⟨closes, latest, hcloses, _, _, hwritten, _⟩ :=
    C21_bollinger_bands exSqrt exTechan (exAlternatingWindow 20)
      (by simp [exAlternatingWindow])
  rw [← windowCloses_last _ (by simp [exAlternatingWindow, length_chronological]),
    exAlternatingWindow_20_closes.1] at hcloses
  subst hcloses
  rw [exAlternatingWindow_20_closes.2.1, exAlternatingWindow_20_closes.2.2.1,
    exAlternatingWindow_20_closes.2.2.2] at hwritten
  obtain ⟨p, upper, middle, lower, width, hp, hu, hm, hl, hw, rfl, rfl, rfl, rfl, hstrict, _⟩ :=
    hwritten (by norm_num)
  refine ⟨p, hp, ?_, hm, ?_, ?_, by norm_num, by norm_num⟩
  · rw [hu]; norm_num
  · rw [hl]; norm_num
  · rw [hw]; norm_num

/-! ## C22: the score and the point `CalculateOpportunityScore` returns -/

/-- The function `CalculateOpportunityScore` returns its argument. -/
theorem CalculateOpportunityScore_eq (marketData : MarketData) :
    CalculateOpportunityScore marketData = .ok marketData := rfl

/-- A point read from the repository has no score: the row type has no column for it. -/
theorem MarketDataService_GetByID_score (env : MarketEnv) (st : MarketState) (id : UUID)
    (m : MarketData) (h : MarketDataService.GetByID env st id = .ok m) : m.Score = none := by
  simp only [MarketDataService.GetByID, MarketDataRepository.GetByID] at h
  split at h
  · cases h
  · split at h
    · cases h
      rfl
    · cases h

/-- C22 (evaluation of the code at the failing input): the point of the tests with every
indicator present and no score. The composite score computed from its indicators is 59;
the point `CalculateOpportunityScore` returns is the argument itself, with no score; stored
with `Update` in a repository that holds the point and read back, it has no score either. -/
theorem C22_score_is_computed_and_dropped :
    opportunityScore exIndicatorPoint = 59 ∧
    CalculateOpportunityScore exIndicatorPoint = .ok exIndicatorPoint ∧
    exIndicatorPoint.Score = none ∧
    (∀ p, CalculateOpportunityScore exIndicatorPoint = .ok p → p.Score ≠ some 59) ∧
    (MarketDataService.Update exMarketEnv
      (exMarketState [MarketDataDTO.FromEntity exIndicatorPoint]) exIndicatorPoint).1 =
        .ok exIndicatorPoint ∧
    (MarketDataService.GetByID exMarketEnv
      (MarketDataService.Update exMarketEnv
        (exMarketState [MarketDataDTO.FromEntity exIndicatorPoint]) exIndicatorPoint).2 300) =
        .ok exIndicatorPoint := by
  refine ⟨?_, rfl, rfl, ?_, ?_, ?_⟩
  · with_unfolding_all rfl
  · intro p hp
    cases hp
    simp [exIndicatorPoint, exMarketData]
  · with_unfolding_all rfl
  · with_unfolding_all rfl

/-! ## C23: the range of the composite score -/

/-- C23: for every point, whichever indicator fields are present and whatever their values,
the composite score that `CalculateOpportunityScore` computes (the weighted sum of the
sub-scores present, divided by the sum of the weights applied, times 100, then clamped) lies
in [0, 100]. -/
theorem C23_opportunity_score_in_range (marketData : MarketData) :
    0 ≤ opportunityScore marketData ∧ opportunityScore marketData ≤ 100 := by
  unfold opportunityScore
  simp only []
  split_ifs <;> constructor <;> linarith

/-! ## C24: the range of the seven sub-scores -/

theorem CalculateMACDScore_range (macd signal histogram : ℚ) :
    0 ≤ CalculateMACDScore macd signal histogram ∧
      CalculateMACDScore macd signal histogram ≤ 1 := by
  unfold CalculateMACDScore
  simp only []
  split_ifs <;> constructor <;> norm_num

theorem CalculateRSIScore_range (rsi6 rsi12 rsi24 : ℚ) :
    0 ≤ CalculateRSIScore rsi6 rsi12 rsi24 ∧ CalculateRSIScore rsi6 rsi12 rsi24 ≤ 1 := by
  unfold CalculateRSIScore
  simp only []
  split_ifs <;> constructor <;> norm_num

theorem CalculateSMAScore_range (closePrice sma20 sma50 sma200 : ℚ) :
    0 ≤ CalculateSMAScore closePrice sma20 sma50 sma200 ∧
      CalculateSMAScore closePrice sma20 sma50 sma200 ≤ 1 := by
  unfold CalculateSMAScore
  simp only []
  split_ifs <;> constructor <;> norm_num

theorem CalculateBollingerBandsScore_range (closePrice upper lower width : ℚ) :
    0 ≤ CalculateBollingerBandsScore closePrice upper lower width ∧
      CalculateBollingerBandsScore closePrice upper lower width ≤ 1 := by
  unfold CalculateBollingerBandsScore
  simp only []
  split_ifs <;> constructor <;> norm_num

theorem CalculateVolumeScore_range (obv volume : ℚ) :
    0 ≤ CalculateVolumeScore obv volume ∧ CalculateVolumeScore obv volume ≤ 1 := by
  unfold CalculateVolumeScore
  simp only []
  split_ifs <;> constructor <;> norm_num

theorem CalculateTrendScore_range (adx adxPositive adxNegative : ℚ) :
    0 ≤ CalculateTrendScore adx adxPositive adxNegative ∧
      CalculateTrendScore adx adxPositive adxNegative ≤ 1 := by
  unfold CalculateTrendScore
  simp only []
  split_ifs <;> constructor <;> norm_num

theorem CalculateVolatilityScore_range (atr closePrice : ℚ) :
    0 ≤ CalculateVolatilityScore atr closePrice ∧ CalculateVolatilityScore atr closePrice ≤ 1 := by
  unfold CalculateVolatilityScore
  simp only []
  split_ifs <;> constructor <;> norm_num

/-- C24: for all inputs each of the seven sub-score functions returns a value in [0, 1]. -/
theorem C24_sub_scores_in_unit_interval :
    (∀ macd signal histogram : ℚ, 0 ≤ CalculateMACDScore macd signal histogram ∧
      CalculateMACDScore macd signal histogram ≤ 1) ∧
    (∀ rsi6 rsi12 rsi24 : ℚ, 0 ≤ CalculateRSIScore rsi6 rsi12 rsi24 ∧
      CalculateRSIScore rsi6 rsi12 rsi24 ≤ 1) ∧
    (∀ closePrice sma20 sma50 sma200 : ℚ,
      0 ≤ CalculateSMAScore closePrice sma20 sma50 sma200 ∧
      CalculateSMAScore closePrice sma20 sma50 sma200 ≤ 1) ∧
    (∀ closePrice upper lower width : ℚ,
      0 ≤ CalculateBollingerBandsScore closePrice upper lower width ∧
      CalculateBollingerBandsScore closePrice upper lower width ≤ 1) ∧
    (∀ obv volume : ℚ, 0 ≤ CalculateVolumeScore obv volume ∧
      CalculateVolumeScore obv volume ≤ 1) ∧
    (∀ adx adxPositive adxNegative : ℚ, 0 ≤ CalculateTrendScore adx adxPositive adxNegative ∧
      CalculateTrendScore adx adxPositive adxNegative ≤ 1) ∧
    (∀ atr closePrice : ℚ, 0 ≤ CalculateVolatilityScore atr closePrice ∧
      CalculateVolatilityScore atr closePrice ≤ 1) :=
  ⟨CalculateMACDScore_range, CalculateRSIScore_range, CalculateSMAScore_range,
    CalculateBollingerBandsScore_range, CalculateVolumeScore_range, CalculateTrendScore_range,
    CalculateVolatilityScore_range⟩

/-! ## The ranking returned by `GetScores` -/

/-- The ranking loop of `GetScores` leaves the slice as it is. -/
theorem assignRankings_eq (scores : List SymbolScore) : assignRankings scores = scores := by
  unfold assignRankings
  generalize (none : Option SymbolScore) = last
  generalize scores.enum = indexed
  induction indexed generalizing last with
  | nil => rfl
  | cons p rest ih => exact ih _

/-- What `GetScores` returns, in terms of its first loop. -/
theorem GetScores_eq (env : Env) (symbols : List String) :
    GetScores env symbols =
      match collectScores env symbols with
      | .error e => .error e
      | .ok scores => .ok (sortByScoreDesc scores) := by
  unfold GetScores
  cases collectScores env symbols <;> simp [assignRankings_eq]

/-- The first loop of `GetScores` succeeds when every lookup does, with one entry per
symbol, in the order of the symbols. -/
theorem collectScores_ok (env : Env) : ∀ (symbols : List String),
    (∀ symbol ∈ symbols, ∃ score, GetSymbolScore env symbol = .ok score) →
    ∃ collected, collectScores env symbols = .ok collected ∧
      List.Forall₂ (fun symbol score => GetSymbolScore env symbol = .ok score) symbols collected
  | [], _ => ⟨[], rfl, List.Forall₂.nil⟩
  | symbol :: rest, h => by
    obtain ⟨score, hscore⟩ := h symbol (List.mem_cons_self _ _)
    obtain ⟨collected, hrest, hall⟩ :=
      collectScores_ok env rest (fun s hs => h s (List.mem_cons_of_mem _ hs))
    exact ⟨score :: collected, by simp [collectScores, hscore, hrest],
      List.Forall₂.cons hscore hall⟩

/-- A successful lookup returns the symbol asked for, with rank 0. -/
theorem GetSymbolScore_ok (env : Env) (symbol : String) (score : SymbolScore)
    (h : GetSymbolScore env symbol = .ok score) : score.Symbol = symbol ∧ score.Ranking = 0 := by
  unfold GetSymbolScore at h
  split at h
  · cases h
  · cases h
  · simp only [] at h
    split_ifs at h
    split at h
    · cases h
    · cases h
      exact ⟨rfl, rfl⟩

/-- Every entry `GetScores` returns has rank 0. -/
theorem GetScores_rankings (env : Env) (symbols : List String) (scores : List SymbolScore)
    (h : GetScores env symbols = .ok scores) : ∀ score ∈ scores, score.Ranking = 0 := by
  rw [GetScores_eq] at h
  have key : ∀ (symbols : List String) (collected : List SymbolScore),
      collectScores env symbols = .ok collected → ∀ score ∈ collected, score.Ranking = 0 := by
    intro symbols
    induction symbols with
    | nil =>
      intro collected hc score hs
      simp only [collectScores] at hc
      cases hc
      cases hs
    | cons symbol rest ih =>
      intro collected hc score hs
      simp only [collectScores] at hc
      cases hlookup : GetSymbolScore env symbol with
      | error e => simp [hlookup] at hc
      | ok first =>
        cases hrest : collectScores env rest with
        | error e => simp [hlookup, hrest] at hc
        | ok others =>
          simp only [hlookup, hrest] at hc
          cases hc
          rcases List.mem_cons.mp hs with rfl | hs
          · exact (GetSymbolScore_ok env symbol _ hlookup).2
          · exact ih others hrest score hs
  cases hc : collectScores env symbols with
  | error e => simp [hc] at h
  | ok collected =>
    simp only [hc] at h
    cases h
    intro score hs
    exact key symbols collected hc score ((List.mem_insertionSort _).mp hs)

/-! ## C25: the ranks -/

/-- C25 (evaluation of the code at the failing input): watchlist BTCUSDT, ETHUSDT with the
latest scores 1/2 and 19/20, both lookups succeed. `GetScores` returns the two entries
sorted by score, both with `Ranking` 0: the entry at position 1 does not have rank 1, the
entry at position 2 does not have rank 2. -/
theorem C25_rankings_stay_zero :
    GetSymbolScore (exEnv (some (1 / 2)) (some (19 / 20)) 100 1 true) "BTCUSDT" =
      .ok { Symbol := "BTCUSDT", Score := 1 / 2, Ranking := 0 } ∧
    GetSymbolScore (exEnv (some (1 / 2)) (some (19 / 20)) 100 1 true) "ETHUSDT" =
      .ok { Symbol := "ETHUSDT", Score := 19 / 20, Ranking := 0 } ∧
    GetScores (exEnv (some (1 / 2)) (some (19 / 20)) 100 1 true) ["BTCUSDT", "ETHUSDT"] =
      .ok [{ Symbol := "ETHUSDT", Score := 19 / 20, Ranking := 0 },
        { Symbol := "BTCUSDT", Score := 1 / 2, Ranking := 0 }] := by
  refine ⟨?_, ?_, ?_⟩
  all_goals with_unfolding_all rfl

/-! ## C26: the order of the ranking -/

/-- C26: when the lookup of every symbol of the watchlist succeeds, `GetScores` returns a
sequence that is a permutation of the scores the lookups return, one per symbol in the order
of the watchlist, and that is sorted by score in descending order: the score of every entry is
at least the score of every later entry, so the first entry has the maximum score. -/
theorem C26_GetScores_sorted_permutation (env : Env) (symbols : List String)
    (h : ∀ symbol ∈ symbols, ∃ score, GetSymbolScore env symbol = .ok score) :
    ∃ scores collected, GetScores env symbols = .ok scores ∧
      List.Forall₂ (fun symbol score => GetSymbolScore env symbol = .ok score)
        symbols collected ∧
      scores.Perm collected ∧
      scores.length = symbols.length ∧
      scores.Pairwise (fun a b => a.Score ≥ b.Score) ∧
      (∀ top ∈ scores.head?, ∀ score ∈ scores, score.Score ≤ top.Score) := by
  obtain ⟨collected, hc, hall⟩ := collectScores_ok env symbols h
  haveI : IsTotal SymbolScore (fun a b => a.Score ≥ b.Score) :=
    ⟨fun a b => le_total b.Score a.Score⟩
  haveI : IsTrans SymbolScore (fun a b => a.Score ≥ b.Score) :=
    ⟨fun a b c hab hbc => le_trans hbc hab⟩
  have hsorted : (sortByScoreDesc collected).Pairwise (fun a b => a.Score ≥ b.Score) :=
    List.sorted_insertionSort _ collected
  have hperm : (sortByScoreDesc collected).Perm collected := List.perm_insertionSort _ collected
  refine ⟨sortByScoreDesc collected, collected, ?_, hall, hperm, ?_, hsorted, ?_⟩
  · rw [GetScores_eq, hc]
  · rw [hperm.length_eq, hall.length_eq]
  · intro top htop score hscore
    cases hs : sortByScoreDesc collected with
    | nil =>
      rw [hs] at hscore
      cases hscore
    | cons first rest =>
      rw [hs] at htop hscore hsorted
      simp only [List.head?_cons, Option.mem_def, Option.some.injEq] at htop
      subst htop
      rcases List.mem_cons.mp hscore with rfl | hmem
      · exact le_refl _
      · exact (List.pairwise_cons.mp hsorted).1 score hmem

/-- Witness of C26: the watchlist BTCUSDT, ETHUSDT of the example world. -/
theorem C26_GetScores_sorted_permutation_witness :
    ∃ scores collected,
      GetScores (exEnv (some (1 / 2)) (some (19 / 20)) 100 1 true) ["BTCUSDT", "ETHUSDT"] =
        .ok scores ∧
      List.Forall₂ (fun symbol score =>
          GetSymbolScore (exEnv (some (1 / 2)) (some (19 / 20)) 100 1 true) symbol = .ok score)
        ["BTCUSDT", "ETHUSDT"] collected ∧
      scores.Perm collected ∧
      scores.length = ["BTCUSDT", "ETHUSDT"].length ∧
      scores.Pairwise (fun a b => a.Score ≥ b.Score) ∧
      (∀ top ∈ scores.head?, ∀ score ∈ scores, score.Score ≤ top.Score) :=
  C26_GetScores_sorted_permutation (exEnv (some (1 / 2)) (some (19 / 20)) 100 1 true)
    ["BTCUSDT", "ETHUSDT"] (by
      intro symbol hs
      simp only [List.mem_cons, List.mem_singleton, List.not_mem_nil, or_false] at hs
      rcases hs with rfl | rfl
      · exact ⟨_, by with_unfolding_all rfl⟩
      · exact ⟨_, by with_unfolding_all rfl⟩)

/-! ## C27: the freshness gate of `GetSymbolScore` -/

/-- The point `GetSymbolScore` judges is the first one of the answer of the repository: if
its timestamp is before `now` minus two minutes, the lookup fails with the too-old error; if
it is not and the point has a score, the lookup returns the symbol with that score. -/
theorem GetSymbolScore_first_point (env : Env) (symbol : String) (first : MarketData)
    (rest : List MarketData) (h : env.marketDataGetAll symbol = .ok (first :: rest)) :
    (first.Timestamp < env.now - 2 * Minute →
      GetSymbolScore env symbol = .error .ErrMarketDataTooOld) ∧
    (∀ score, ¬ first.Timestamp < env.now - 2 * Minute → first.Score = some score →
      GetSymbolScore env symbol = .ok { Symbol := symbol, Score := score, Ranking := 0 }) := by
  have hts : env.now + -Minute * 2 = env.now - 2 * Minute := by ring
  refine ⟨?_, ?_⟩
  · intro hold
    simp only [GetSymbolScore, h, hts, if_pos hold]
  · intro score hfresh hscore
    simp only [GetSymbolScore, h, hts, if_neg hfresh, hscore]

/-- The repository answers every row that matches the filters, in storage order: the order
and the page of the filters have no effect on the answer. -/
theorem MarketDataRepository_GetAll_storage_order (env : MarketEnv) (st : MarketState)
    (filters : List Filter) (orderBy order : String) (page pageSize : Nat)
    (h : env.databaseError (.Find (NewComplexFilter filters orderBy order page pageSize)) =
      none) :
    MarketDataRepository.GetAll env st (NewComplexFilter filters orderBy order page pageSize) =
      .ok ((st.marketDatas.filter (fun row => filters.all (fun f => f.holds row))).map
        MarketDataDTO.ToEntity) := by
  simp only [MarketDataRepository.GetAll, h]
  rfl

/-- C27 (evaluation of the code at the failing input): at minute 1000 the store holds, in
this order, the BTCUSDT point 100 of minute 990 and the BTCUSDT point 101 of minute 999, each
created at its minute. Point 101 is the latest point of the symbol, by creation time and by
timestamp, and it is not older than two minutes. The repository of the source answers the
query for the latest point (order `created_at desc`, page 1, page size 1) with both rows in
storage order, so `GetSymbolScore` judges point 100 and fails with the too-old error. With a
repository that answers the same points in the same order with their scores, the latest
point has the score 1/2 and the lookup still fails with the too-old error. -/
theorem C27_stale_row_hides_fresh_latest_point :
    MarketDataRepository.GetAll exMarketEnv
        (exMarketState [MarketDataDTO.FromEntity exStalePoint,
          MarketDataDTO.FromEntity exFreshPoint])
        (NewComplexFilter [.symbol "BTCUSDT"] "created_at" "desc" 1 1) =
      .ok [(MarketDataDTO.FromEntity exStalePoint).ToEntity,
        (MarketDataDTO.FromEntity exFreshPoint).ToEntity] ∧
    exStalePoint.CreatedAt < exFreshPoint.CreatedAt ∧
    exStalePoint.Timestamp < exFreshPoint.Timestamp ∧
    ¬ exFreshPoint.Timestamp <
      (exRepositoryEnv [MarketDataDTO.FromEntity exStalePoint,
        MarketDataDTO.FromEntity exFreshPoint]).now - 2 * Minute ∧
    GetSymbolScore (exRepositoryEnv [MarketDataDTO.FromEntity exStalePoint,
        MarketDataDTO.FromEntity exFreshPoint]) "BTCUSDT" = .error .ErrMarketDataTooOld ∧
    exFreshPoint.Score = some (1 / 2) ∧
    ¬ exFreshPoint.Timestamp < (exAnswerEnv [exStalePoint, exFreshPoint]).now - 2 * Minute ∧
    GetSymbolScore (exAnswerEnv [exStalePoint, exFreshPoint]) "BTCUSDT" =
      .error .ErrMarketDataTooOld ∧
    GetSymbolScore (exAnswerEnv [exFreshPoint]) "BTCUSDT" =
      .ok { Symbol := "BTCUSDT", Score := 1 / 2, Ranking := 0 } := by
  refine ⟨?_, ?_, ?_, ?_, ?_, ?_, ?_, ?_, ?_⟩
  · with_unfolding_all rfl
  · with_unfolding_all decide
  · with_unfolding_all decide
  · with_unfolding_all decide
  · with_unfolding_all rfl
  · rfl
  · with_unfolding_all decide
  · with_unfolding_all rfl
  · with_unfolding_all rfl

/-! ## C28: entity to row and back -/

/-- C28 (counterexample): the ETHUSDT point with score 19/20 comes back from the row
without its score, so the round trip does not return the entity it started from. -/
theorem C28_round_trip_drops_score :
    exEthPoint.Score = some (19 / 20) ∧
    (MarketDataDTO.FromEntity exEthPoint).ToEntity.Score = none ∧
    (MarketDataDTO.FromEntity exEthPoint).ToEntity ≠ exEthPoint := by
  refine ⟨rfl, rfl, ?_⟩
  intro h
  have hs := congrArg MarketData.Score h
  simp [MarketDataDTO.FromEntity, MarketDataDTO.ToEntity, exEthPoint, exMarketData] at hs

/-- C28 (as amended): converting an entity to its row and back gives the entity with the
score removed: identity, correlation id, symbol, timestamp, OHLCV, every indicator field and
the created and updated times are those of the entity, and the score is nil. -/
theorem C28_round_trip_keeps_all_but_score (e : MarketData) :
    (MarketDataDTO.FromEntity e).ToEntity = { e with Score := none } := rfl

/-! ## C29: the symbol of the destination -/

/-- C29 (evaluation of the code at the failing input): in the example world the signal is
Sell and the first entry of the ranking is ETHUSDT, a symbol the preference validation
accepts. `PullBackTrade` hands `ExecuteTrade` the symbol ETHUSDT as the destination asset;
the destination ticker is read for ETHUSDTUSDT, the conversion is quoted into the asset
ETHUSDT, and the order and the new holding carry the symbol ETHUSDTUSDT. -/
theorem C29_rotation_doubles_the_quote_asset :
    (exPosition 94).TradingPreference.Validate = .ok () ∧
    (GetScores (exEnv (some (1 / 2)) (some (19 / 20)) 100 100 true)
        (exPosition 94).TradingPreference.Watchlist).map (fun scores => scores.map
          (fun score => score.Symbol)) = .ok ["ETHUSDT", "BTCUSDT"] ∧
    (PullBackTrade (exEnv (some (1 / 2)) (some (19 / 20)) 100 100 true) exWorld
      (exPosition 94)).1 = .ok () ∧
    (PullBackTrade (exEnv (some (1 / 2)) (some (19 / 20)) 100 100 true) exWorld
      (exPosition 94)).2.calls =
        [.GetTicker "BTCUSDT", .GetBalance "BTC", .GetTicker "ETHUSDTUSDT", .GetTicker "BTC",
          .GetConversionQuote "BTC" "ETHUSDT" 1 "spot", .AcceptConversionQuote "q1"] ∧
    (PullBackTrade (exEnv (some (1 / 2)) (some (19 / 20)) 100 100 true) exWorld
      (exPosition 94)).2.orders.map (fun order => order.Symbol) = ["ETHUSDTUSDT"] ∧
    (PullBackTrade (exEnv (some (1 / 2)) (some (19 / 20)) 100 100 true) exWorld
      (exPosition 94)).2.holdings.map (fun holding => (holding.Symbol, holding.Status)) =
        [("BTCUSDT", HoldingStatusClosed), ("ETHUSDTUSDT", HoldingStatusOpen)] := by
  refine ⟨?_, ?_, ?_, ?_, ?_, ?_⟩
  all_goals with_unfolding_all rfl

/-! ## C30: the first entry of an empty ranking -/

/-- C30 (evaluation of the code at the failing input): the position of the example world
with an empty watchlist, which `Validate` accepts. The signal is Sell, `GetScores` returns the
empty ranking without error, and `PullBackTrade` panics at `scores[0]`. -/
theorem C30_empty_watchlist_panics :
    exEmptyWatchlistPosition.TradingPreference.Validate = .ok () ∧
    (PullBackTradeSignal (exEnv (some (1 / 2)) (some (19 / 20)) 100 100 true) exWorld
      exEmptyWatchlistPosition).1 = .ok PullBackTradeSignalSell ∧
    GetScores (exEnv (some (1 / 2)) (some (19 / 20)) 100 100 true)
      exEmptyWatchlistPosition.TradingPreference.Watchlist = .ok [] ∧
    (PullBackTrade (exEnv (some (1 / 2)) (some (19 / 20)) 100 100 true) exWorld
      exEmptyWatchlistPosition).1 = .panic := by
  refine ⟨?_, ?_, ?_, ?_⟩
  all_goals with_unfolding_all rfl


end Endurance
